import Mathlib

/-!
# simple_local_planner: PurePlanner (pure_planner.cpp)

A shallow embedding of `simple_local_planner/src/pure_planner.cpp` and a
verification development over it.

Conventions of the embedding

* C++ `int` cell coordinates and loop counters are unbounded `Int`s: signed
  overflow is undefined behaviour in C++, so the embedding describes the runs
  of the program on which every `int` operation is defined.
* `unsigned char` costs are naturals reduced modulo `2^8`.
* `double` and `float` values are exact rationals; the narrowing conversion to
  `float` and the functions of `<math.h>` are parameters (`Libm`).  `pointCost`
  and `lineCost` return a `double` that always holds an integer, so their
  result type here is `Int`.
* Collaborators that are not part of this source file (the costmap, the world
  model, `tf::getYaw`) are parameters.
-/

namespace PurePlanner

/-! ## Collision rasterizer -/

/-- The three cost sentinels of `costmap_2d/cost_values.h`, a header that is
not part of this source file; they are `unsigned char` constants. -/
structure CostValues where
  LETHAL_OBSTACLE : Nat
  INSCRIBED_INFLATED_OBSTACLE : Nat
  NO_INFORMATION : Nat

/-- The occupancy grid behind `costmap_.getCost`. -/
structure Costmap where
  cells : Int → Int → Nat

/-- Method `costmap_.getCost(x, y)`: the result type is `unsigned char`. -/
def Costmap.getCost (costmap_ : Costmap) (x y : Int) : Nat :=
  costmap_.cells x y % 256

/-- Method `PurePlanner::pointCost` (lines 304-312). -/
def pointCost (cv : CostValues) (costmap_ : Costmap) (x y : Int) : Int :=
  let cost := costmap_.getCost x y
  if cost = cv.LETHAL_OBSTACLE ∨ cost = cv.INSCRIBED_INFLATED_OBSTACLE
      ∨ cost = cv.NO_INFORMATION then
    -1
  else
    (cost : Int)

/-- The loop-invariant locals of `lineCost` after lines 230-278. -/
structure LineSetup where
  xinc1 : Int
  xinc2 : Int
  yinc1 : Int
  yinc2 : Int
  den : Int
  num : Int
  numadd : Int
  numpixels : Int
deriving DecidableEq, Repr

/-- Lines 230-278 of `lineCost`: the Bresenham set-up.  Note the argument
order of the source: `(x0, x1, y0, y1)`. -/
def lineSetup (x0 x1 y0 y1 : Int) : LineSetup :=
  let deltax : Int := |x1 - x0|
  let deltay : Int := |y1 - y0|
  let xinc : Int := if x1 ≥ x0 then 1 else -1
  let yinc : Int := if y1 ≥ y0 then 1 else -1
  if deltax ≥ deltay then
    { xinc1 := 0, xinc2 := xinc, yinc1 := yinc, yinc2 := 0,
      den := deltax, num := deltax / 2, numadd := deltay, numpixels := deltax }
  else
    { xinc1 := xinc, xinc2 := 0, yinc1 := 0, yinc2 := yinc,
      den := deltay, num := deltay / 2, numadd := deltax, numpixels := deltay }

/-- The mutable locals of the `for` loop of `lineCost`. -/
structure LineState where
  x : Int
  y : Int
  num : Int
deriving DecidableEq, Repr

/-- Lines 291-298: the update of `num`, `x`, `y` at the end of an iteration. -/
def lineAdvance (s : LineSetup) (st : LineState) : LineState :=
  let num := st.num + s.numadd
  if num ≥ s.den then
    { x := st.x + s.xinc1 + s.xinc2, y := st.y + s.yinc1 + s.yinc2, num := num - s.den }
  else
    { x := st.x + s.xinc2, y := st.y + s.yinc2, num := num }

/-- The `for` loop of `lineCost` (lines 280-299) with `n` iterations left.
The result is the returned cost together with the cells handed to
`pointCost`, in order (the second component is an observation of the run, the
first is the value the source returns). -/
def lineLoop (pc : Int → Int → Int) (s : LineSetup) :
    Nat → LineState → Int → List (Int × Int) → Int × List (Int × Int)
  | 0, _, line_cost, scored => (line_cost, scored)
  | n + 1, st, line_cost, scored =>
    let point_cost := pc st.x st.y
    let scored := scored ++ [(st.x, st.y)]
    if point_cost < 0 then
      (-1, scored)
    else
      let line_cost := if line_cost < point_cost then point_cost else line_cost
      lineLoop pc s n (lineAdvance s st) line_cost scored

/-- The run of `lineCost` on the point scorer `pc`: returned cost and scored
cells.  The loop runs for `curpixel = 0 .. numpixels`. -/
def lineRun (pc : Int → Int → Int) (x0 x1 y0 y1 : Int) : Int × List (Int × Int) :=
  let s := lineSetup x0 x1 y0 y1
  lineLoop pc s (s.numpixels + 1).toNat { x := x0, y := y0, num := s.num } 0 []

/-- Method `PurePlanner::lineCost` (lines 227-302). -/
def lineCost (cv : CostValues) (costmap_ : Costmap) (x0 x1 y0 y1 : Int) : Int :=
  (lineRun (pointCost cv costmap_) x0 x1 y0 y1).1

/-- The cells `lineCost` hands to `pointCost`, in order. -/
def lineScored (cv : CostValues) (costmap_ : Costmap) (x0 x1 y0 y1 : Int) :
    List (Int × Int) :=
  (lineRun (pointCost cv costmap_) x0 x1 y0 y1).2

/-- The rasterized line from `(x0, y0)` to `(x1, y1)`: the cells the loop of
`lineCost` visits when no cell stops it (every point cost is `0`). -/
def lineCells (x0 x1 y0 y1 : Int) : List (Int × Int) :=
  (lineRun (fun _ _ => 0) x0 x1 y0 y1).2

/-- The cells visited by `n` iterations of the stepping of `lineCost` from
`st`, when no iteration stops. -/
def lineWalk (s : LineSetup) : Nat → LineState → List (Int × Int)
  | 0, _ => []
  | n + 1, st => (st.x, st.y) :: lineWalk s n (lineAdvance s st)

/-- The number of minor-axis steps the loop of `lineCost` has taken after `k`
iterations: the quotient of the accumulated numerator by `den`. -/
def lineQuot (s : LineSetup) (k : Nat) : Int :=
  (s.num + k * s.numadd) / s.den

/-- The cell of iteration `k` of the loop of `lineCost` in closed form. -/
def lineCellAt (s : LineSetup) (x0 y0 : Int) (k : Nat) : Int × Int :=
  (x0 + k * s.xinc2 + s.xinc1 * lineQuot s k, y0 + k * s.yinc2 + s.yinc1 * lineQuot s k)

/-! ## Collaborators and data -/

/-- Numeric collaborators of the planner: the functions of `<math.h>` on
`double`, the narrowing conversion `double → float`, and `tf::getYaw`.  None
of them is part of this source file. -/
structure Libm where
  sqrt : ℚ → ℚ
  cos : ℚ → ℚ
  sin : ℚ → ℚ
  atan2 : ℚ → ℚ → ℚ
  exp : ℚ → ℚ
  tanh : ℚ → ℚ
  hypot : ℚ → ℚ → ℚ
  toFloat : ℚ → ℚ
  getYaw : ℚ × ℚ × ℚ × ℚ → ℚ

/-- A `geometry_msgs::Point` of the footprint polygon. -/
structure Point where
  x : ℚ
  y : ℚ
deriving DecidableEq, Repr

/-- The costmap and world model as seen by the trajectory simulator. -/
structure World where
  /-- Method `costmap_.worldToMap(x, y, cell_x, cell_y)`; `none` when it returns false. -/
  worldToMap : ℚ → ℚ → Option (Nat × Nat)
  /-- The call `world_model_.footprintCost(x, y, theta, footprint, r_in, r_out)`. -/
  footprintCost : ℚ → ℚ → ℚ → List Point → ℚ → ℚ → ℚ

/-- The part of a `geometry_msgs::PoseStamped` (and of a `tf::Stamped<tf::Pose>`)
that the planner reads: planar position and orientation quaternion. -/
structure PoseStamped where
  x : ℚ
  y : ℚ
  orientation : ℚ × ℚ × ℚ × ℚ
deriving DecidableEq, Repr

/-- The fields of a `geometry_msgs::Twist`. -/
structure Twist where
  linear_x : ℚ
  linear_y : ℚ
  linear_z : ℚ
  angular_x : ℚ
  angular_y : ℚ
  angular_z : ℚ
deriving DecidableEq, Repr

/-- The fields of `base_local_planner::Trajectory` used by the planner. -/
structure Trajectory where
  xv_ : ℚ
  yv_ : ℚ
  thetav_ : ℚ
  cost_ : ℚ
  points : List (ℚ × ℚ × ℚ)
deriving DecidableEq, Repr

/-- The fields of `SimpleLocalPlannerConfig` read by `reconfigure`. -/
structure SimpleLocalPlannerConfig where
  max_trans_acc : ℚ
  max_rot_acc : ℚ
  max_trans_vel : ℚ
  min_trans_vel : ℚ
  max_rot_vel : ℚ
  min_rot_vel : ℚ
  min_in_place_rot_vel : ℚ
  xy_goal_tolerance : ℚ
  yaw_goal_tolerance : ℚ
  wp_tolerance : ℚ
  sim_time : ℚ
  sim_granularity : ℚ
  angular_sim_granularity : ℚ

/-- The member variables of `PurePlanner` (the costmap and the world model are
passed to the operations as a `World`). -/
structure Planner where
  footprint_spec_ : List Point
  inscribed_radius_ : ℚ
  circumscribed_radius_ : ℚ
  controller_freq_ : ℚ
  goal_reached_ : Bool
  running_ : Bool
  new_plan_ : Bool
  wp_index_ : Int
  global_plan_ : List PoseStamped
  goal_x_ : ℚ
  goal_y_ : ℚ
  goal_t_ : ℚ
  start_x_ : ℚ
  start_y_ : ℚ
  start_t_ : ℚ
  acc_lim_trans_ : ℚ
  acc_lim_rot_ : ℚ
  max_vel_x_ : ℚ
  min_vel_x_ : ℚ
  max_vel_th_ : ℚ
  min_vel_th_ : ℚ
  min_in_place_vel_th_ : ℚ
  goal_lin_tolerance_ : ℚ
  goal_ang_tolerance_ : ℚ
  wp_tolerance_ : ℚ
  sim_time_ : ℚ
  sim_granularity_ : ℚ
  angular_sim_granularity_ : ℚ

/-- Method `PurePlanner::reconfigure` (lines 28-49). -/
def reconfigure (p : Planner) (config : SimpleLocalPlannerConfig) : Planner :=
  { p with
    acc_lim_trans_ := config.max_trans_acc
    acc_lim_rot_ := config.max_rot_acc
    max_vel_x_ := config.max_trans_vel
    min_vel_x_ := config.min_trans_vel
    max_vel_th_ := config.max_rot_vel
    min_vel_th_ := config.min_rot_vel
    min_in_place_vel_th_ := config.min_in_place_rot_vel
    goal_lin_tolerance_ := config.xy_goal_tolerance
    goal_ang_tolerance_ := config.yaw_goal_tolerance
    wp_tolerance_ := config.wp_tolerance
    sim_time_ := config.sim_time
    sim_granularity_ := config.sim_granularity
    angular_sim_granularity_ := config.angular_sim_granularity }

/-- The constructor `PurePlanner::PurePlanner` (lines 53-91).  `radii` stands
for `costmap_2d::calculateMinAndMaxDistances`; the members the constructor
leaves uninitialised (path, start and goal pose) are taken from `junk`. -/
def construct (junk : Planner) (radii : List Point → ℚ × ℚ) (footprint_spec : List Point)
    (controller_freq max_trans_vel min_trans_vel max_rot_vel min_rot_vel
      min_in_place_rot_vel max_trans_acc max_rot_acc yaw_goal_tolerance xy_goal_tolerance
      wp_tolerance sim_time sim_granularity angular_sim_granularity : ℚ) : Planner :=
  { junk with
    footprint_spec_ := footprint_spec
    inscribed_radius_ := (radii footprint_spec).1
    circumscribed_radius_ := (radii footprint_spec).2
    controller_freq_ := controller_freq
    goal_reached_ := false
    running_ := false
    new_plan_ := false
    wp_index_ := -1
    global_plan_ := []
    acc_lim_trans_ := max_trans_acc
    acc_lim_rot_ := max_rot_acc
    max_vel_x_ := max_trans_vel
    min_vel_x_ := min_trans_vel
    max_vel_th_ := max_rot_vel
    min_vel_th_ := min_rot_vel
    min_in_place_vel_th_ := min_in_place_rot_vel
    goal_lin_tolerance_ := xy_goal_tolerance
    goal_ang_tolerance_ := yaw_goal_tolerance
    wp_tolerance_ := wp_tolerance
    sim_time_ := sim_time
    sim_granularity_ := sim_granularity
    angular_sim_granularity_ := angular_sim_granularity }

/-! ## Trajectory simulator -/

/-- Conversion `int(d)` of a `double` to `int`: truncation toward zero. -/
def toInt (d : ℚ) : Int :=
  if 0 ≤ d then ⌊d⌋ else -⌊-d⌋

/-- Lines 122-136 of `generateTrajectory`: the number of simulation steps. -/
def numSteps (m : Libm) (p : Planner) (vx_samp vy_samp vtheta_samp : ℚ) : Int :=
  let vmag := m.hypot vx_samp vy_samp
  let num_steps :=
    toInt (max ((vmag * p.sim_time_) / p.sim_granularity_)
      (|vtheta_samp| / p.angular_sim_granularity_) + 1 / 2)
  if num_steps = 0 then 1 else num_steps

/-- Line 138 of `generateTrajectory`: the step duration. -/
def stepDuration (m : Libm) (p : Planner) (vx_samp vy_samp vtheta_samp : ℚ) : ℚ :=
  p.sim_time_ / (numSteps m p vx_samp vy_samp vtheta_samp : ℚ)

/-- Modelled from the spec: `computeNewVelocity` is declared in the header
`pure_planner.h`, which is not among the sources.  The velocity moves toward
its target `vg` by at most `a_max * dt`, clamped so that it does not overshoot
the target. -/
def computeNewVelocity (vg vi a_max dt : ℚ) : ℚ :=
  if vg - vi ≥ 0 then min vg (vi + a_max * dt) else max vg (vi - a_max * dt)

/-- Modelled from the spec: `computeNewXPosition` is declared in the header
`pure_planner.h`: `x += (vx*cos(theta) - vy*sin(theta))*dt`. -/
def computeNewXPosition (m : Libm) (xi vx vy theta dt : ℚ) : ℚ :=
  xi + (vx * m.cos theta - vy * m.sin theta) * dt

/-- Modelled from the spec: `computeNewYPosition` is declared in the header
`pure_planner.h`: `y += (vx*sin(theta) + vy*cos(theta))*dt`. -/
def computeNewYPosition (m : Libm) (yi vx vy theta dt : ℚ) : ℚ :=
  yi + (vx * m.sin theta + vy * m.cos theta) * dt

/-- Modelled from the spec: `computeNewThetaPosition` is declared in the header
`pure_planner.h`: `theta += vtheta*dt`. -/
def computeNewThetaPosition (thetai vth dt : ℚ) : ℚ :=
  thetai + vth * dt

/-- Method `PurePlanner::footprintCost` (lines 693-696). -/
def footprintCost (w : World) (p : Planner) (x_i y_i theta_i : ℚ) : ℚ :=
  w.footprintCost x_i y_i theta_i p.footprint_spec_ p.inscribed_radius_ p.circumscribed_radius_

/-- The mutable locals of the simulation loop of `generateTrajectory`. -/
structure SimState where
  x_i : ℚ
  y_i : ℚ
  theta_i : ℚ
  vx_i : ℚ
  vy_i : ℚ
  vtheta_i : ℚ
deriving DecidableEq, Repr

/-- The loop-invariant arguments of the simulation loop. -/
structure SimParams where
  vx_samp : ℚ
  vy_samp : ℚ
  vtheta_samp : ℚ
  acc_x : ℚ
  acc_y : ℚ
  acc_theta : ℚ
  dt : ℚ

/-- Lines 172-180: the velocity and position update at the end of an
iteration (positions are computed from the new velocities and the old
heading, in the order of the source). -/
def simStep (m : Libm) (c : SimParams) (s : SimState) : SimState :=
  let vx_i := computeNewVelocity c.vx_samp s.vx_i c.acc_x c.dt
  let vy_i := computeNewVelocity c.vy_samp s.vy_i c.acc_y c.dt
  let vtheta_i := computeNewVelocity c.vtheta_samp s.vtheta_i c.acc_theta c.dt
  let x_i := computeNewXPosition m s.x_i vx_i vy_i s.theta_i c.dt
  let y_i := computeNewYPosition m s.y_i vx_i vy_i s.theta_i c.dt
  let theta_i := computeNewThetaPosition s.theta_i vtheta_i c.dt
  { x_i := x_i, y_i := y_i, theta_i := theta_i, vx_i := vx_i, vy_i := vy_i,
    vtheta_i := vtheta_i }

/-- Method `traj.addPoint(x, y, theta)`. -/
def Trajectory.addPoint (traj : Trajectory) (x y theta : ℚ) : Trajectory :=
  { traj with points := traj.points ++ [(x, y, theta)] }

/-- The `for` loop of `generateTrajectory` (lines 149-184) followed by line
186, with `n` iterations left. -/
def simLoop (m : Libm) (w : World) (p : Planner) (c : SimParams) :
    Nat → SimState → Trajectory → Trajectory
  | 0, _, traj => { traj with cost_ := 0 }
  | n + 1, s, traj =>
    match w.worldToMap s.x_i s.y_i with
    | none => { traj with cost_ := -1 }
    | some _ =>
      let footprint_cost := footprintCost w p s.x_i s.y_i s.theta_i
      if footprint_cost < 0 then
        { traj with cost_ := -1 }
      else
        simLoop m w p c n (simStep m c s) (traj.addPoint s.x_i s.y_i s.theta_i)

/-- Method `PurePlanner::generateTrajectory` (lines 104-188); the out-parameter
`traj` is the result. -/
def generateTrajectory (m : Libm) (w : World) (p : Planner)
    (x y theta vx vy vtheta vx_samp vy_samp vtheta_samp acc_x acc_y acc_theta : ℚ) :
    Trajectory :=
  let num_steps := numSteps m p vx_samp vy_samp vtheta_samp
  let dt := stepDuration m p vx_samp vy_samp vtheta_samp
  let traj : Trajectory :=
    { xv_ := vx_samp, yv_ := vy_samp, thetav_ := vtheta_samp, cost_ := -1, points := [] }
  simLoop m w p
    { vx_samp := vx_samp, vy_samp := vy_samp, vtheta_samp := vtheta_samp,
      acc_x := acc_x, acc_y := acc_y, acc_theta := acc_theta, dt := dt }
    num_steps.toNat
    { x_i := x, y_i := y, theta_i := theta, vx_i := vx, vy_i := vy, vtheta_i := vtheta }
    traj

/-- Method `PurePlanner::checkTrajectory` (lines 369-391).  The cost of the
generated trajectory is `-1` or `0`, never a NaN, so the `isnan` branch has no
counterpart over the rationals. -/
def checkTrajectory (m : Libm) (w : World) (p : Planner)
    (x y theta vx vy vtheta vx_samp vy_samp vtheta_samp : ℚ) : Bool :=
  let t := generateTrajectory m w p x y theta vx vy vtheta vx_samp vy_samp vtheta_samp
    p.acc_lim_trans_ 0 p.acc_lim_rot_
  if t.cost_ < 0 then false else true

/-- The pose sampled at iteration `i` of the simulation loop when no earlier
iteration stops: `i` updates applied to the starting state. -/
def simSample (m : Libm) (c : SimParams) (s : SimState) (i : Nat) : SimState :=
  (simStep m c)^[i] s

/-- The two checks of one iteration (lines 155-167): the pose converts to map
coordinates and its footprint cost is not negative. -/
def sampleOk (w : World) (p : Planner) (s : SimState) : Bool :=
  (w.worldToMap s.x_i s.y_i).isSome && decide (0 ≤ footprintCost w p s.x_i s.y_i s.theta_i)

/-- The arguments `checkTrajectory` passes on to the simulation loop. -/
def checkParams (m : Libm) (p : Planner) (vx_samp vy_samp vtheta_samp : ℚ) : SimParams :=
  { vx_samp := vx_samp, vy_samp := vy_samp, vtheta_samp := vtheta_samp,
    acc_x := p.acc_lim_trans_, acc_y := 0, acc_theta := p.acc_lim_rot_,
    dt := stepDuration m p vx_samp vy_samp vtheta_samp }

/-- The starting state `checkTrajectory` passes on to the simulation loop. -/
def checkStart (x y theta vx vy vtheta : ℚ) : SimState :=
  { x_i := x, y_i := y, theta_i := theta, vx_i := vx, vy_i := vy, vtheta_i := vtheta }

/-! ## Path tracker -/

/-- Method `PurePlanner::updatePlan` (lines 316-366): the returned flag and the
planner afterwards.  The element-wise copy of lines 321-326 makes
`global_plan_` equal to `new_plan`. -/
def updatePlan (m : Libm) (p : Planner) (new_plan : List PoseStamped) : Bool × Planner :=
  let p := { p with goal_reached_ := false, global_plan_ := new_plan }
  match new_plan.head?, new_plan.getLast? with
  | some start_pose, some goal_pose =>
    (true,
      { p with
        wp_index_ := 0
        running_ := true
        new_plan_ := true
        goal_x_ := goal_pose.x
        goal_y_ := goal_pose.y
        goal_t_ := m.getYaw goal_pose.orientation
        start_x_ := start_pose.x
        start_y_ := start_pose.y
        start_t_ := m.getYaw start_pose.orientation })
  | _, _ => (true, { p with running_ := false, wp_index_ := -1 })

/-- Method `PurePlanner::isGoalReached` (lines 399-406): the returned flag and
the planner afterwards. -/
def isGoalReached (p : Planner) : Bool × Planner :=
  if p.goal_reached_ then
    (true, { p with goal_reached_ := false })
  else
    (p.goal_reached_, p)

/-- Method `PurePlanner::resetGoal` (lines 408-410). -/
def resetGoal (p : Planner) : Planner :=
  { p with goal_reached_ := false }

/-- The ways a run of `findBestAction` can leave defined behaviour. -/
inductive Fault where
  /-- An access `global_plan_[i]` with `i` outside the vector. -/
  | outOfBounds
  /-- The iteration bound given to a loop of the embedding was too small. -/
  | loopBound
deriving DecidableEq, Repr

/-- The access `global_plan_[i]` for an `int` index. -/
def planAt (plan : List PoseStamped) (i : Int) : Except Fault PoseStamped :=
  if 0 ≤ i then
    match plan[i.toNat]? with
    | some wp => .ok wp
    | none => .error .outOfBounds
  else
    .error .outOfBounds

/-- The command written to `cmd_vel`: `linear.z`, `angular.x` and `angular.y`
are always set to `0.0`. -/
def command (vx vy vt : ℚ) : Twist :=
  { linear_x := vx, linear_y := vy, linear_z := 0, angular_x := 0, angular_y := 0,
    angular_z := vt }

/-- Distance `sqrt((rx-wpx)*(rx-wpx)+(ry-wpy)*(ry-wpy))`. -/
def dist (m : Libm) (rx ry wpx wpy : ℚ) : ℚ :=
  m.sqrt ((rx - wpx) * (rx - wpx) + (ry - wpy) * (ry - wpy))

/-- The `for` loop of lines 517-527 with `i = n - 1` the next index to look
at; `wp_index_` was set to `0` before the loop. -/
def rescan (m : Libm) (plan : List PoseStamped) (wp_tolerance_ rx ry : ℚ) :
    Nat → Except Fault Int
  | 0 => .ok 0
  | n + 1 =>
    match planAt plan (n : Int) with
    | .error e => .error e
    | .ok wp =>
      if dist m rx ry wp.x wp.y < wp_tolerance_ then
        .ok (n : Int)
      else
        rescan m plan wp_tolerance_ rx ry n

/-- The `while` loop of lines 536-542 with an iteration bound `n`; the result
is `(wp_index_, wpx, wpy, dist_swp)` at the exit of the loop. -/
def advanceWaypoint (m : Libm) (plan : List PoseStamped) (wp_tolerance_ rx ry : ℚ) :
    Nat → Int → ℚ → ℚ → ℚ → Except Fault (Int × ℚ × ℚ × ℚ)
  | 0, wp_index_, wpx, wpy, dist_swp =>
    if dist_swp < wp_tolerance_ ∧ wp_index_ < (plan.length : Int) - 1 then
      .error .loopBound
    else
      .ok (wp_index_, wpx, wpy, dist_swp)
  | n + 1, wp_index_, wpx, wpy, dist_swp =>
    if dist_swp < wp_tolerance_ ∧ wp_index_ < (plan.length : Int) - 1 then
      match planAt plan (wp_index_ + 1) with
      | .error e => .error e
      | .ok wp =>
        advanceWaypoint m plan wp_tolerance_ rx ry n (wp_index_ + 1) wp.x wp.y
          (dist m rx ry wp.x wp.y)
    else
      .ok (wp_index_, wpx, wpy, dist_swp)

/-- Lines 552-600 of `findBestAction`: the candidate command `(vx, vy, vt)`
for local heading `dt` to the way-point. -/
def candidate (m : Libm) (p : Planner) (rvx dist_goal dist_swp dt : ℚ) : ℚ × ℚ × ℚ :=
  let incr := 1 / p.controller_freq_
  if |dt| > 3 / 4 then
    let vx := rvx - incr
    let vx := if vx < 0 then 0 else vx
    let vt := if dt < 0 then -p.min_in_place_vel_th_ else p.min_in_place_vel_th_
    (vx, 0, vt)
  else
    let dist_th : ℚ := 3 / 2
    let vxvt : ℚ × ℚ :=
      if dist_goal < dist_th then
        let vx := p.min_vel_x_ + (p.max_vel_x_ - p.min_vel_x_) * dist_goal / dist_th
        let vt := p.min_vel_th_ + (p.max_vel_th_ - p.min_vel_th_) * dist_goal / dist_th
        (vx, if dt < 0 then vt * -1 else vt)
      else
        (p.max_vel_x_ * m.exp (-|dt|) * m.tanh (4 * dist_swp), p.max_vel_th_ * dt)
    (vxvt.1, 0, if |dt| < 1 / 10 then 0 else vxvt.2)

/-- Method `PurePlanner::findBestAction` (lines 414-688): the returned flag,
the command written to `cmd_vel` and the planner afterwards, or the fault
that ends defined behaviour. -/
def findBestAction (m : Libm) (w : World) (p : Planner)
    (global_pose global_vel : PoseStamped) : Except Fault (Bool × Twist × Planner) :=
  let p := { p with goal_reached_ := false }
  if ¬ p.running_ then
    .ok (true, command 0 0 0, p)
  else
    let rx := m.toFloat global_pose.x
    let ry := m.toFloat global_pose.y
    let rt := m.toFloat (m.getYaw global_pose.orientation)
    let rvx := m.toFloat global_vel.x
    let dist_goal := dist m rx ry p.goal_x_ p.goal_y_
    if dist_goal < p.goal_lin_tolerance_ then
      if |p.goal_t_ - rt| < p.goal_ang_tolerance_ then
        .ok (true, command 0 0 0, { p with running_ := false, goal_reached_ := true })
      else if p.goal_t_ > rt then
        .ok (true, command 0 0 p.min_in_place_vel_th_, p)
      else
        .ok (true, command 0 0 (-p.min_in_place_vel_th_), p)
    else
      let scanned : Except Fault Planner :=
        if p.new_plan_ then
          match rescan m p.global_plan_ p.wp_tolerance_ rx ry p.global_plan_.length with
          | .error e => .error e
          | .ok i => .ok { p with new_plan_ := false, wp_index_ := i }
        else
          .ok p
      match scanned with
      | .error e => .error e
      | .ok p =>
        match planAt p.global_plan_ p.wp_index_ with
        | .error e => .error e
        | .ok wp =>
          match advanceWaypoint m p.global_plan_ p.wp_tolerance_ rx ry p.global_plan_.length
              p.wp_index_ wp.x wp.y (dist m rx ry wp.x wp.y) with
          | .error e => .error e
          | .ok (wp_index_, wpx, wpy, dist_swp) =>
            let p := { p with wp_index_ := wp_index_ }
            let dx := (wpx - rx) * m.cos rt + (wpy - ry) * m.sin rt
            let dy := -(wpx - rx) * m.sin rt + (wpy - ry) * m.cos rt
            let dt := m.atan2 dy dx
            let (vx, vy, vt) := candidate m p rvx dist_goal dist_swp dt
            if checkTrajectory m w p rx ry rt vx vy vt 1 0 1 ∨ |vx| < 1 / 10000 then
              .ok (true, command vx vy vt, p)
            else if dt > 9 / 100 ∨ dt < -(9 / 100) then
              .ok (true,
                command 0 0 (if dt < 0 then -p.min_in_place_vel_th_ else p.min_in_place_vel_th_),
                p)
            else
              .ok (false, command 0 0 0, p)

/-- Way-point `j` of the path exists and is strictly within `wp_tolerance_` of
the robot position `(rx, ry)`: the test `dist < wp_tolerance_` of lines 522
and 536. -/
def withinTol (m : Libm) (plan : List PoseStamped) (wp_tolerance_ rx ry : ℚ) (j : Int) : Prop :=
  ∃ wp, planAt plan j = .ok wp ∧ dist m rx ry wp.x wp.y < wp_tolerance_

/-- Lines 511-542 of `findBestAction` on their own: the rescan of a new plan,
the access to the current way-point and the advance past way-points within
tolerance.  The result is the planner with its marker and index updated, and
`(wpx, wpy, dist_swp)` of the selected way-point. -/
def selectWaypoint (m : Libm) (p : Planner) (rx ry : ℚ) :
    Except Fault (Planner × ℚ × ℚ × ℚ) :=
  let scanned : Except Fault Planner :=
    if p.new_plan_ then
      match rescan m p.global_plan_ p.wp_tolerance_ rx ry p.global_plan_.length with
      | .error e => .error e
      | .ok i => .ok { p with new_plan_ := false, wp_index_ := i }
    else
      .ok p
  match scanned with
  | .error e => .error e
  | .ok p =>
    match planAt p.global_plan_ p.wp_index_ with
    | .error e => .error e
    | .ok wp =>
      match advanceWaypoint m p.global_plan_ p.wp_tolerance_ rx ry p.global_plan_.length
          p.wp_index_ wp.x wp.y (dist m rx ry wp.x wp.y) with
      | .error e => .error e
      | .ok (wp_index_, wpx, wpy, dist_swp) =>
        .ok ({ p with wp_index_ := wp_index_ }, wpx, wpy, dist_swp)

/-- Lines 545-547 of `findBestAction` on their own: the heading `dt` to the
way-point in the frame of the robot. -/
def waypointHeading (m : Libm) (rx ry rt wpx wpy : ℚ) : ℚ :=
  let dx := (wpx - rx) * m.cos rt + (wpy - ry) * m.sin rt
  let dy := -(wpx - rx) * m.sin rt + (wpy - ry) * m.cos rt
  m.atan2 dy dx

/-- Lines 602-655 of `findBestAction` on their own: the returned flag and the
command for the candidate `(vx, vy, vt)` and heading `dt`. -/
def chooseCommand (m : Libm) (w : World) (p : Planner) (rx ry rt vx vy vt dt : ℚ) :
    Bool × Twist :=
  if checkTrajectory m w p rx ry rt vx vy vt 1 0 1 ∨ |vx| < 1 / 10000 then
    (true, command vx vy vt)
  else if dt > 9 / 100 ∨ dt < -(9 / 100) then
    (true, command 0 0 (if dt < 0 then -p.min_in_place_vel_th_ else p.min_in_place_vel_th_))
  else
    (false, command 0 0 0)

/-- Lines 511-655 of `findBestAction` composed from their parts: way-point
selection, heading, candidate command and the choice of the emitted command. -/
def trackCycle (m : Libm) (w : World) (p : Planner) (rx ry rt rvx dist_goal : ℚ) :
    Except Fault (Bool × Twist × Planner) :=
  match selectWaypoint m p rx ry with
  | .error e => .error e
  | .ok (q, wpx, wpy, dist_swp) =>
    let dt := waypointHeading m rx ry rt wpx wpy
    let c := candidate m q rvx dist_goal dist_swp dt
    let r := chooseCommand m w q rx ry rt c.1 c.2.1 c.2.2 dt
    .ok (r.1, r.2, q)

/-- Line 469 of `findBestAction`: `dist_goal`, from the robot position
narrowed to `float` (lines 440-441). -/
def goalDistance (m : Libm) (p : Planner) (global_pose : PoseStamped) : ℚ :=
  dist m (m.toFloat global_pose.x) (m.toFloat global_pose.y) p.goal_x_ p.goal_y_

/-- Line 442 of `findBestAction`: the robot heading `rt`, narrowed to `float`. -/
def robotHeading (m : Libm) (global_pose : PoseStamped) : ℚ :=
  m.toFloat (m.getYaw global_pose.orientation)

/-- The way-point selection of one cycle (lines 511-542) for the robot pose of
that cycle; `goal_reached_` was cleared on line 420. -/
def cycleSelect (m : Libm) (p : Planner) (global_pose : PoseStamped) :
    Except Fault (Planner × ℚ × ℚ × ℚ) :=
  selectWaypoint m { p with goal_reached_ := false }
    (m.toFloat global_pose.x) (m.toFloat global_pose.y)

/-- The heading `dt` of one cycle (lines 545-547) to the selected way-point
`(wpx, wpy)`. -/
def cycleHeading (m : Libm) (global_pose : PoseStamped) (wpx wpy : ℚ) : ℚ :=
  waypointHeading m (m.toFloat global_pose.x) (m.toFloat global_pose.y)
    (robotHeading m global_pose) wpx wpy

/-- The candidate command `(vx, vy, vt)` of one cycle (lines 552-600) for the
selected way-point. -/
def cycleCandidate (m : Libm) (p : Planner) (global_pose global_vel : PoseStamped)
    (wpx wpy dist_swp : ℚ) : ℚ × ℚ × ℚ :=
  candidate m p (m.toFloat global_vel.x) (goalDistance m p global_pose) dist_swp
    (cycleHeading m global_pose wpx wpy)

/-- The trajectory validation of one cycle (line 603): `checkTrajectory` with
the candidate as starting velocity and target velocity `(1.0, 0.0, 1.0)`. -/
def cycleValid (m : Libm) (w : World) (p : Planner) (global_pose global_vel : PoseStamped)
    (wpx wpy dist_swp : ℚ) : Bool :=
  checkTrajectory m w p (m.toFloat global_pose.x) (m.toFloat global_pose.y)
    (robotHeading m global_pose)
    (cycleCandidate m p global_pose global_vel wpx wpy dist_swp).1
    (cycleCandidate m p global_pose global_vel wpx wpy dist_swp).2.1
    (cycleCandidate m p global_pose global_vel wpx wpy dist_swp).2.2 1 0 1

/-- The returned flag and the emitted command of one cycle (lines 602-655) for
the selected way-point. -/
def cycleChoice (m : Libm) (w : World) (p : Planner) (global_pose global_vel : PoseStamped)
    (wpx wpy dist_swp : ℚ) : Bool × Twist :=
  chooseCommand m w p (m.toFloat global_pose.x) (m.toFloat global_pose.y)
    (robotHeading m global_pose)
    (cycleCandidate m p global_pose global_vel wpx wpy dist_swp).1
    (cycleCandidate m p global_pose global_vel wpx wpy dist_swp).2.1
    (cycleCandidate m p global_pose global_vel wpx wpy dist_swp).2.2
    (cycleHeading m global_pose wpx wpy)

/-- One call of an operation of the planner other than `updatePlan`: a
`findBestAction` that returns, `isGoalReached`, `resetGoal` or `reconfigure`. -/
inductive ServiceStep (m : Libm) : Planner → Planner → Prop where
  | findBestAction (w : World) (p : Planner) (global_pose global_vel : PoseStamped)
      (flag : Bool) (cmd_vel : Twist) (q : Planner)
      (h : PurePlanner.findBestAction m w p global_pose global_vel = .ok (flag, cmd_vel, q)) :
      ServiceStep m p q
  | isGoalReached (p : Planner) : ServiceStep m p (PurePlanner.isGoalReached p).2
  | resetGoal (p : Planner) : ServiceStep m p (PurePlanner.resetGoal p)
  | reconfigure (p : Planner) (config : SimpleLocalPlannerConfig) :
      ServiceStep m p (PurePlanner.reconfigure p config)

/-- The states the planner can be in after a sequence of calls of its
operations without `updatePlan`, starting from `s`. -/
inductive Servicing (m : Libm) (s : Planner) : Planner → Prop where
  | start : Servicing m s s
  | step (p q : Planner) (hp : Servicing m s p) (hq : ServiceStep m p q) : Servicing m s q

/-- The states the planner can be in after construction and a sequence of
calls of `updatePlan`, `findBestAction`, `isGoalReached`, `resetGoal` and
`reconfigure`. -/
inductive Reachable (m : Libm) : Planner → Prop where
  | construct (junk : Planner) (radii : List Point → ℚ × ℚ) (footprint_spec : List Point)
      (controller_freq max_trans_vel min_trans_vel max_rot_vel min_rot_vel
        min_in_place_rot_vel max_trans_acc max_rot_acc yaw_goal_tolerance xy_goal_tolerance
        wp_tolerance sim_time sim_granularity angular_sim_granularity : ℚ) :
      Reachable m (PurePlanner.construct junk radii footprint_spec controller_freq
        max_trans_vel min_trans_vel max_rot_vel min_rot_vel min_in_place_rot_vel max_trans_acc
        max_rot_acc yaw_goal_tolerance xy_goal_tolerance wp_tolerance sim_time sim_granularity
        angular_sim_granularity)
  | updatePlan (p : Planner) (new_plan : List PoseStamped) (hp : Reachable m p) :
      Reachable m (PurePlanner.updatePlan m p new_plan).2
  | step (p q : Planner) (hp : Reachable m p) (hq : ServiceStep m p q) : Reachable m q

/-- The invariant of the path tracker: while `running_` holds the path is not
empty and `wp_index_` is an index of it. -/
def IndexValid (p : Planner) : Prop :=
  p.running_ = true →
    1 ≤ p.global_plan_.length ∧ 0 ≤ p.wp_index_ ∧ p.wp_index_ < (p.global_plan_.length : Int)

/-- The step count of section 4.3 of the specification, in its words:
`ceil(max(hypot(target_vx, target_vy) * horizon / linear_granularity,
|target_vtheta| / angular_granularity))`, minimum 1. -/
def specSteps (m : Libm) (p : Planner) (vx_samp vy_samp vtheta_samp : ℚ) : Int :=
  max 1 ⌈max (m.hypot vx_samp vy_samp * p.sim_time_ / p.sim_granularity_)
    (|vtheta_samp| / p.angular_sim_granularity_)⌉

/-- The poses of the first `n` samples of the simulation from state `s`, when
no iteration stops. -/
def samplePoses (m : Libm) (c : SimParams) : Nat → SimState → List (ℚ × ℚ × ℚ)
  | 0, _ => []
  | n + 1, s => (s.x_i, s.y_i, s.theta_i) :: samplePoses m c n (simStep m c s)

/-- The trajectory generated by the validation of one cycle (lines 603 and
374-377): the local `t` of `checkTrajectory`, simulated from the robot pose
with the candidate as starting velocity towards the target `(1.0, 0.0, 1.0)`
under the configured acceleration limits. -/
def cycleTrajectory (m : Libm) (w : World) (p : Planner) (global_pose global_vel : PoseStamped)
    (wpx wpy dist_swp : ℚ) : Trajectory :=
  generateTrajectory m w p (m.toFloat global_pose.x) (m.toFloat global_pose.y)
    (robotHeading m global_pose)
    (cycleCandidate m p global_pose global_vel wpx wpy dist_swp).1
    (cycleCandidate m p global_pose global_vel wpx wpy dist_swp).2.1
    (cycleCandidate m p global_pose global_vel wpx wpy dist_swp).2.2 1 0 1
    p.acc_lim_trans_ 0 p.acc_lim_rot_

/-- The step count of the validation in the words of the specification:
`int(max(sim_time_ / sim_granularity_, 1 / angular_sim_granularity_) + 0.5)`,
raised to `1` when `0`. -/
def specTargetSteps (p : Planner) : Int :=
  if toInt (max (p.sim_time_ / p.sim_granularity_) (1 / p.angular_sim_granularity_) + 1 / 2) = 0
  then 1
  else toInt (max (p.sim_time_ / p.sim_granularity_) (1 / p.angular_sim_granularity_) + 1 / 2)

/-! ## Sample data -/

/-- The values the sentinels have in `costmap_2d/cost_values.h`. -/
def stdCosts : CostValues :=
  { LETHAL_OBSTACLE := 254, INSCRIBED_INFLATED_OBSTACLE := 253, NO_INFORMATION := 255 }

/-- A grid that is free except for one lethal cell at `(1, 1)`. -/
def oneObstacle : Costmap :=
  { cells := fun x y => if x = 1 ∧ y = 1 then 254 else 0 }

/-- A grid without obstacles whose cells have cost `7`. -/
def freeGrid : Costmap :=
  { cells := fun _ _ => 7 }

/-- A math library for the examples: `hypot` is exact when one argument is
zero, `sqrt` is exact at `0` and `1`, the trigonometric and exponential
functions are exact at `0`, `float` conversion and yaw extraction are exact on
the values used (the yaw is stored in the first quaternion slot).  Away from
those arguments the values are crude stand-ins. -/
def sampleLibm : Libm :=
  { sqrt := fun x => if x = 0 then 0 else if x = 1 then 1 else x
    cos := fun x => if x = 0 then 1 else 0
    sin := fun _ => 0
    atan2 := fun y _ => y
    exp := fun x => if x = 0 then 1 else 0
    tanh := fun x => if x = 0 then 0 else 1
    hypot := fun x y => if y = 0 then |x| else if x = 0 then |y| else max |x| |y|
    toFloat := fun x => x
    getYaw := fun q => q.1 }

/-- A planner whose limits, tolerances, horizon and granularities are all `1`,
idle, with no path. -/
def unitPlanner : Planner :=
  { footprint_spec_ := []
    inscribed_radius_ := 0
    circumscribed_radius_ := 0
    controller_freq_ := 1
    goal_reached_ := false
    running_ := false
    new_plan_ := false
    wp_index_ := -1
    global_plan_ := []
    goal_x_ := 0
    goal_y_ := 0
    goal_t_ := 0
    start_x_ := 0
    start_y_ := 0
    start_t_ := 0
    acc_lim_trans_ := 1
    acc_lim_rot_ := 1
    max_vel_x_ := 1
    min_vel_x_ := 1
    max_vel_th_ := 1
    min_vel_th_ := 1
    min_in_place_vel_th_ := 1
    goal_lin_tolerance_ := 1
    goal_ang_tolerance_ := 1
    wp_tolerance_ := 1
    sim_time_ := 1
    sim_granularity_ := 1
    angular_sim_granularity_ := 1 }

/-- The planner `unitPlanner` with linear simulation granularity `1/4`. -/
def finePlanner : Planner :=
  { unitPlanner with sim_granularity_ := 1 / 4 }

/-- The path of the scenarios of the specification: `[(0,0,0), (5,0,0)]`. -/
def samplePath : List PoseStamped :=
  [{ x := 0, y := 0, orientation := (0, 0, 0, 0) },
   { x := 5, y := 0, orientation := (0, 0, 0, 0) }]

/-- A world in which every position is on the map and every footprint is
free. -/
def freeWorld : World :=
  { worldToMap := fun _ _ => some (0, 0)
    footprintCost := fun _ _ _ _ _ _ => 0 }

/-- A world in which every position is on the map and the footprint is in
collision exactly when `x ≥ 1`. -/
def wallWorld : World :=
  { worldToMap := fun _ _ => some (0, 0)
    footprintCost := fun x _ _ _ _ _ => if 1 ≤ x then -1 else 0 }

/-- A world in which every position is on the map and every footprint is in
collision. -/
def blockedWorld : World :=
  { worldToMap := fun _ _ => some (0, 0)
    footprintCost := fun _ _ _ _ _ _ => -1 }

/-- The robot pose `(0, 0)` with heading `0`. -/
def originPose : PoseStamped :=
  { x := 0, y := 0, orientation := (0, 0, 0, 0) }

/-- The last pose `(5, 0)` with heading `0` of `samplePath`. -/
def goalPose : PoseStamped :=
  { x := 5, y := 0, orientation := (0, 0, 0, 0) }

/-- The math library `sampleLibm` with `sqrt` also exact at `25`. -/
def scenarioLibm : Libm :=
  { sampleLibm with sqrt := fun x => if x = 25 then 5 else sampleLibm.sqrt x }

/-- The angle `0.9273` whose cosine is `3/5` and whose sine is `4/5`, to four
decimals. -/
def turnAngle : ℚ := 9273 / 10000

/-- The math library `scenarioLibm` with the trigonometric functions also
given at `turnAngle`: `cos = 3/5`, `sin = 4/5`, and `atan2(-4, 3) = -turnAngle`. -/
def turnedLibm : Libm :=
  { scenarioLibm with
    cos := fun x => if x = turnAngle then 3 / 5 else scenarioLibm.cos x
    sin := fun x => if x = turnAngle then 4 / 5 else scenarioLibm.sin x
    atan2 := fun y x => if y = -4 ∧ x = 3 then -turnAngle else scenarioLibm.atan2 y x }

/-- The robot pose `(0, 0)` with heading `turnAngle`. -/
def turnedPose : PoseStamped :=
  { x := 0, y := 0, orientation := (turnAngle, 0, 0, 0) }

/-- A robot velocity of `2` along x. -/
def fastVel : PoseStamped :=
  { x := 2, y := 0, orientation := (0, 0, 0, 0) }

/-- The math library `sampleLibm` with a lossy narrowing to `float`: the
`double` value `1 + 2^-30` has no `float` representation and narrows to `1`;
`sqrt` is exact at `2^-60`. -/
def narrowLibm : Libm :=
  { sampleLibm with
    toFloat := fun x => if x = 1 + 1 / 2 ^ 30 then 1 else x
    sqrt := fun x => if x = 1 / 2 ^ 60 then 1 / 2 ^ 30 else sampleLibm.sqrt x }

/-- The planner `unitPlanner` with linear goal tolerance `2^-31`. -/
def tightPlanner : Planner :=
  { unitPlanner with goal_lin_tolerance_ := 1 / 2 ^ 31 }

/-- The pose at `x = 1 + 2^-30`, `y = 0` with heading `0`. -/
def offGridPose : PoseStamped :=
  { x := 1 + 1 / 2 ^ 30, y := 0, orientation := (0, 0, 0, 0) }

/-- The planner `unitPlanner` with linear goal tolerance `6`. -/
def widePlanner : Planner :=
  { unitPlanner with goal_lin_tolerance_ := 6 }

/-- The planner `unitPlanner`, idle, with the `goal_reached_` flag set: the
state left by a cycle that reached the goal. -/
def arrivedPlanner : Planner :=
  { unitPlanner with goal_reached_ := true }

/-! ## Theorems: collision rasterizer -/

theorem lineLoop_valid (pc : Int → Int → Int) (s : LineSetup) :
    ∀ (n : Nat) (st : LineState) (lc : Int) (scored : List (Int × Int)),
      (∀ c ∈ lineWalk s n st, 0 ≤ pc c.1 c.2) →
      lineLoop pc s n st lc scored =
        ((lineWalk s n st).foldl (fun acc c => max acc (pc c.1 c.2)) lc,
          scored ++ lineWalk s n st) := by
  intro n
  induction n with
  | zero => intro st lc scored _; simp [lineLoop, lineWalk]
  | succ n ih =>
    intro st lc scored h
    have h0 : 0 ≤ pc st.x st.y := h (st.x, st.y) (by simp [lineWalk])
    have hrest : ∀ c ∈ lineWalk s n (lineAdvance s st), 0 ≤ pc c.1 c.2 := by
      intro c hc
      exact h c (by simp [lineWalk, hc])
    have hmax : (if lc < pc st.x st.y then pc st.x st.y else lc) = max lc (pc st.x st.y) := by
      rcases lt_or_le lc (pc st.x st.y) with h1 | h1
      · rw [if_pos h1, max_eq_right h1.le]
      · rw [if_neg (not_lt.mpr h1), max_eq_left h1]
    simp only [lineLoop, lineWalk, List.foldl_cons, not_lt.mpr h0, if_false]
    rw [ih _ _ _ hrest, hmax]
    simp

theorem lineLoop_invalid (pc : Int → Int → Int) (s : LineSetup) :
    ∀ (n : Nat) (st : LineState) (lc : Int) (scored : List (Int × Int)),
      (∃ c ∈ lineWalk s n st, pc c.1 c.2 < 0) →
      (lineLoop pc s n st lc scored).1 = -1 := by
  intro n
  induction n with
  | zero => intro st lc scored h; simp [lineWalk] at h
  | succ n ih =>
    intro st lc scored h
    by_cases h0 : pc st.x st.y < 0
    · simp [lineLoop, h0]
    · simp only [lineLoop, h0, if_false]
      apply ih
      obtain ⟨c, hc, hneg⟩ := h
      simp only [lineWalk, List.mem_cons] at hc
      rcases hc with rfl | hc
      · exact absurd hneg h0
      · exact ⟨c, hc, hneg⟩

theorem foldl_max_ge (f : Int × Int → Int) :
    ∀ (l : List (Int × Int)) (a : Int), a ≤ l.foldl (fun acc c => max acc (f c)) a := by
  intro l
  induction l with
  | nil => intro a; simp
  | cons c l ih => intro a; exact le_trans (le_max_left _ _) (ih _)

theorem foldl_max_upper (f : Int × Int → Int) :
    ∀ (l : List (Int × Int)) (a : Int), ∀ c ∈ l,
      f c ≤ l.foldl (fun acc c => max acc (f c)) a := by
  intro l
  induction l with
  | nil => intro a c hc; simp at hc
  | cons d l ih =>
    intro a c hc
    simp only [List.mem_cons] at hc
    rcases hc with rfl | hc
    · exact le_trans (le_max_right _ _) (foldl_max_ge f l _)
    · exact ih _ c hc

theorem foldl_max_attained (f : Int × Int → Int) :
    ∀ (l : List (Int × Int)) (a : Int),
      l.foldl (fun acc c => max acc (f c)) a = a ∨
        ∃ c ∈ l, l.foldl (fun acc c => max acc (f c)) a = f c := by
  intro l
  induction l with
  | nil => intro a; simp
  | cons d l ih =>
    intro a
    rcases ih (max a (f d)) with h | ⟨c, hc, h⟩
    · rcases le_total a (f d) with h1 | h1
      · right
        exact ⟨d, by simp, by simp only [List.foldl_cons]; rw [h, max_eq_right h1]⟩
      · left
        simp only [List.foldl_cons]; rw [h, max_eq_left h1]
    · right
      exact ⟨c, by simp [hc], by simpa using h⟩

theorem lineSetup_numpixels_nonneg (x0 x1 y0 y1 : Int) :
    0 ≤ (lineSetup x0 x1 y0 y1).numpixels := by
  unfold lineSetup
  simp only
  split <;> simp

theorem lineCells_eq_walk (x0 x1 y0 y1 : Int) :
    lineCells x0 x1 y0 y1 =
      lineWalk (lineSetup x0 x1 y0 y1) ((lineSetup x0 x1 y0 y1).numpixels + 1).toNat
        { x := x0, y := y0, num := (lineSetup x0 x1 y0 y1).num } := by
  unfold lineCells lineRun
  simp only
  rw [lineLoop_valid _ _ _ _ _ _ (by intro c _; exact le_refl _)]
  simp

theorem lineCells_ne_nil (x0 x1 y0 y1 : Int) : lineCells x0 x1 y0 y1 ≠ [] := by
  rw [lineCells_eq_walk]
  have h := lineSetup_numpixels_nonneg x0 x1 y0 y1
  obtain ⟨n, hn⟩ : ∃ n : Nat, ((lineSetup x0 x1 y0 y1).numpixels + 1).toNat = n + 1 :=
    ⟨((lineSetup x0 x1 y0 y1).numpixels).toNat, by omega⟩
  rw [hn]
  simp [lineWalk]

theorem pointCost_cases (cv : CostValues) (costmap_ : Costmap) (x y : Int) :
    pointCost cv costmap_ x y = -1 ∨ 0 ≤ pointCost cv costmap_ x y := by
  unfold pointCost
  simp only
  split
  · left; rfl
  · right; exact Int.natCast_nonneg _

theorem pointCost_neg_iff (cv : CostValues) (costmap_ : Costmap) (x y : Int) :
    pointCost cv costmap_ x y < 0 ↔ pointCost cv costmap_ x y = -1 := by
  rcases pointCost_cases cv costmap_ x y with h | h
  · simp [h]
  · constructor
    · intro h1; omega
    · intro h1; omega

theorem pointCost_nonneg_of_free (cv : CostValues) (costmap_ : Costmap) (x y : Int)
    (h : ¬ (costmap_.getCost x y = cv.LETHAL_OBSTACLE ∨
        costmap_.getCost x y = cv.INSCRIBED_INFLATED_OBSTACLE ∨
        costmap_.getCost x y = cv.NO_INFORMATION)) :
    0 ≤ pointCost cv costmap_ x y := by
  unfold pointCost
  simp only
  rw [if_neg h]
  exact Int.natCast_nonneg _

/-- C1: `pointCost` returns the invalid value `-1` exactly when the cost of the
cell is one of the three sentinels `LETHAL_OBSTACLE`,
`INSCRIBED_INFLATED_OBSTACLE`, `NO_INFORMATION`; in every other case it returns
the cost of the cell, which is not negative. -/
theorem pointCost_spec (cv : CostValues) (costmap_ : Costmap) (x y : Int) :
    (pointCost cv costmap_ x y = -1 ↔
      (costmap_.getCost x y = cv.LETHAL_OBSTACLE ∨
        costmap_.getCost x y = cv.INSCRIBED_INFLATED_OBSTACLE ∨
        costmap_.getCost x y = cv.NO_INFORMATION)) ∧
    (¬ (costmap_.getCost x y = cv.LETHAL_OBSTACLE ∨
        costmap_.getCost x y = cv.INSCRIBED_INFLATED_OBSTACLE ∨
        costmap_.getCost x y = cv.NO_INFORMATION) →
      pointCost cv costmap_ x y = (costmap_.getCost x y : Int) ∧
        0 ≤ pointCost cv costmap_ x y) := by
  unfold pointCost
  simp only
  constructor
  · constructor
    · intro h
      by_contra hn
      rw [if_neg hn] at h
      have := Int.natCast_nonneg (costmap_.getCost x y)
      omega
    · intro h
      rw [if_pos h]
  · intro hn
    rw [if_neg hn]
    exact ⟨rfl, Int.natCast_nonneg _⟩

/-- Witness of C1 on the grid with one lethal cell: the free cell `(0, 0)` is
returned with its own cost `0`. -/
theorem pointCost_spec_witness :
    pointCost stdCosts oneObstacle 0 0 = ((oneObstacle.getCost 0 0 : Nat) : Int) ∧
      0 ≤ pointCost stdCosts oneObstacle 0 0 :=
  (pointCost_spec stdCosts oneObstacle 0 0).2 (by decide)

theorem lineCost_of_valid (cv : CostValues) (costmap_ : Costmap) (x0 x1 y0 y1 : Int)
    (hall : ∀ c ∈ lineCells x0 x1 y0 y1, pointCost cv costmap_ c.1 c.2 ≠ -1) :
    lineCost cv costmap_ x0 x1 y0 y1 =
      (lineCells x0 x1 y0 y1).foldl
        (fun acc c => max acc (pointCost cv costmap_ c.1 c.2)) 0 := by
  rw [lineCells_eq_walk] at hall ⊢
  unfold lineCost lineRun
  simp only
  rw [lineLoop_valid]
  intro c hc
  rcases pointCost_cases cv costmap_ c.1 c.2 with h | h
  · exact absurd h (hall c hc)
  · exact h

theorem lineCost_of_invalid (cv : CostValues) (costmap_ : Costmap) (x0 x1 y0 y1 : Int)
    (h : ∃ c ∈ lineCells x0 x1 y0 y1, pointCost cv costmap_ c.1 c.2 = -1) :
    lineCost cv costmap_ x0 x1 y0 y1 = -1 := by
  rw [lineCells_eq_walk] at h
  obtain ⟨c, hc, hc1⟩ := h
  unfold lineCost lineRun
  simp only
  exact lineLoop_invalid _ _ _ _ _ _ ⟨c, hc, (pointCost_neg_iff cv costmap_ c.1 c.2).mpr hc1⟩

/-- C2: `lineCost` returns `-1` exactly when some cell of the rasterized line
has an invalid `pointCost`; otherwise it returns the maximum `pointCost` over
the cells of the rasterized line (an upper bound that one of the cells
attains), which is not negative. -/
theorem lineCost_spec (cv : CostValues) (costmap_ : Costmap) (x0 x1 y0 y1 : Int) :
    (lineCost cv costmap_ x0 x1 y0 y1 = -1 ↔
      ∃ c ∈ lineCells x0 x1 y0 y1, pointCost cv costmap_ c.1 c.2 = -1) ∧
    ((∀ c ∈ lineCells x0 x1 y0 y1, pointCost cv costmap_ c.1 c.2 ≠ -1) →
      (∀ c ∈ lineCells x0 x1 y0 y1,
          pointCost cv costmap_ c.1 c.2 ≤ lineCost cv costmap_ x0 x1 y0 y1) ∧
      (∃ c ∈ lineCells x0 x1 y0 y1,
          pointCost cv costmap_ c.1 c.2 = lineCost cv costmap_ x0 x1 y0 y1) ∧
      0 ≤ lineCost cv costmap_ x0 x1 y0 y1) := by
  have key : (∀ c ∈ lineCells x0 x1 y0 y1, pointCost cv costmap_ c.1 c.2 ≠ -1) →
      (∀ c ∈ lineCells x0 x1 y0 y1,
          pointCost cv costmap_ c.1 c.2 ≤ lineCost cv costmap_ x0 x1 y0 y1) ∧
      (∃ c ∈ lineCells x0 x1 y0 y1,
          pointCost cv costmap_ c.1 c.2 = lineCost cv costmap_ x0 x1 y0 y1) ∧
      0 ≤ lineCost cv costmap_ x0 x1 y0 y1 := by
    intro hall
    rw [lineCost_of_valid cv costmap_ x0 x1 y0 y1 hall]
    refine ⟨fun c hc => foldl_max_upper (fun c => pointCost cv costmap_ c.1 c.2) _ 0 c hc,
      ?_, foldl_max_ge (fun c => pointCost cv costmap_ c.1 c.2) _ 0⟩
    rcases foldl_max_attained (fun c => pointCost cv costmap_ c.1 c.2)
      (lineCells x0 x1 y0 y1) 0 with h | ⟨c, hc, h⟩
    · obtain ⟨c, hc⟩ := List.exists_mem_of_ne_nil _ (lineCells_ne_nil x0 x1 y0 y1)
      refine ⟨c, hc, ?_⟩
      have h1 := foldl_max_upper (fun c => pointCost cv costmap_ c.1 c.2) _ 0 c hc
      have h2 : 0 ≤ pointCost cv costmap_ c.1 c.2 := by
        rcases pointCost_cases cv costmap_ c.1 c.2 with h3 | h3
        · exact absurd h3 (hall c hc)
        · exact h3
      simp only at h1
      rw [h] at h1 ⊢
      omega
    · exact ⟨c, hc, h.symm⟩
  refine ⟨⟨?_, lineCost_of_invalid cv costmap_ x0 x1 y0 y1⟩, key⟩
  intro h
  by_contra hn
  have hall : ∀ c ∈ lineCells x0 x1 y0 y1, pointCost cv costmap_ c.1 c.2 ≠ -1 := by
    intro c hc hc1
    exact hn ⟨c, hc, hc1⟩
  have := (key hall).2.2
  omega

/-- Witness of C2 on the obstacle-free grid of cost `7`: the line from `(0, 0)`
to `(2, 1)` costs the maximum over its cells and is valid. -/
theorem lineCost_spec_witness :
    (∀ c ∈ lineCells 0 2 0 1,
        pointCost stdCosts freeGrid c.1 c.2 ≤ lineCost stdCosts freeGrid 0 2 0 1) ∧
      (∃ c ∈ lineCells 0 2 0 1,
        pointCost stdCosts freeGrid c.1 c.2 = lineCost stdCosts freeGrid 0 2 0 1) ∧
      0 ≤ lineCost stdCosts freeGrid 0 2 0 1 :=
  (lineCost_spec stdCosts freeGrid 0 2 0 1).2 (by decide)

theorem lineWalk_length (s : LineSetup) :
    ∀ (n : Nat) (st : LineState), (lineWalk s n st).length = n := by
  intro n
  induction n with
  | zero => intro st; rfl
  | succ n ih => intro st; simp [lineWalk, ih]

theorem lineWalk_getElem? (s : LineSetup) :
    ∀ (n : Nat) (st : LineState) (i : Nat), i < n →
      (lineWalk s n st)[i]? =
        some (((lineAdvance s)^[i] st).x, ((lineAdvance s)^[i] st).y) := by
  intro n
  induction n with
  | zero => intro st i hi; omega
  | succ n ih =>
    intro st i hi
    cases i with
    | zero => simp [lineWalk]
    | succ i =>
      simp only [lineWalk, List.getElem?_cons_succ, Function.iterate_succ, Function.comp_apply]
      exact ih _ i (by omega)

theorem ediv_emod_step (N a d : Int) (hd : 0 < d) (ha0 : 0 ≤ a) (ha : a ≤ d) :
    (N % d + a ≥ d → (N + a) / d = N / d + 1 ∧ (N + a) % d = N % d + a - d) ∧
    (¬ N % d + a ≥ d → (N + a) / d = N / d ∧ (N + a) % d = N % d + a) := by
  have h1 := Int.emod_add_ediv N d
  have h2 := Int.emod_nonneg N (ne_of_gt hd)
  have h3 := Int.emod_lt_of_pos N hd
  constructor
  · intro h
    apply (Int.ediv_emod_unique hd).mpr
    refine ⟨?_, by omega, by omega⟩
    rw [mul_add, mul_one]
    omega
  · intro h
    apply (Int.ediv_emod_unique hd).mpr
    refine ⟨?_, by omega, by omega⟩
    omega

theorem lineAdvance_iterate (s : LineSetup) (st : LineState) (hd : 0 < s.den)
    (ha0 : 0 ≤ s.numadd) (ha : s.numadd ≤ s.den) (hn0 : 0 ≤ st.num) (hn : st.num < s.den) :
    ∀ k : Nat, (lineAdvance s)^[k] st =
      { x := st.x + k * s.xinc2 + s.xinc1 * ((st.num + k * s.numadd) / s.den),
        y := st.y + k * s.yinc2 + s.yinc1 * ((st.num + k * s.numadd) / s.den),
        num := (st.num + k * s.numadd) % s.den } := by
  intro k
  induction k with
  | zero =>
    simp [Int.ediv_eq_zero_of_lt hn0 hn, Int.emod_eq_of_lt hn0 hn]
  | succ k ih =>
    rw [Function.iterate_succ_apply', ih]
    have hN : st.num + ((k + 1 : Nat) : Int) * s.numadd = (st.num + k * s.numadd) + s.numadd := by
      push_cast; ring
    rw [hN]
    obtain ⟨hA, hB⟩ := ediv_emod_step (st.num + k * s.numadd) s.numadd s.den hd ha0 ha
    unfold lineAdvance
    simp only
    split
    · rename_i hge
      obtain ⟨e1, e2⟩ := hA hge
      rw [e1, e2]
      simp only [LineState.mk.injEq]
      push_cast
      refine ⟨by ring, by ring, trivial⟩
    · rename_i hge
      obtain ⟨e1, e2⟩ := hB hge
      rw [e1, e2]
      simp only [LineState.mk.injEq]
      push_cast
      refine ⟨by ring, by ring, trivial⟩

theorem lineSetup_facts (x0 x1 y0 y1 : Int) :
    0 ≤ (lineSetup x0 x1 y0 y1).numadd ∧
    (lineSetup x0 x1 y0 y1).numadd ≤ (lineSetup x0 x1 y0 y1).den ∧
    (lineSetup x0 x1 y0 y1).num = (lineSetup x0 x1 y0 y1).den / 2 ∧
    (lineSetup x0 x1 y0 y1).numpixels = (lineSetup x0 x1 y0 y1).den ∧
    (lineSetup x0 x1 y0 y1).den = max |x1 - x0| |y1 - y0| := by
  unfold lineSetup
  simp only
  split
  · rename_i h
    exact ⟨abs_nonneg _, h, rfl, rfl, (max_eq_left h).symm⟩
  · rename_i h
    have h1 := le_of_lt (not_le.mp h)
    exact ⟨abs_nonneg _, h1, rfl, rfl, (max_eq_right h1).symm⟩

theorem lineCells_length (x0 x1 y0 y1 : Int) :
    (lineCells x0 x1 y0 y1).length = (max |x1 - x0| |y1 - y0|).toNat + 1 := by
  rw [lineCells_eq_walk, lineWalk_length]
  obtain ⟨h0, h1, _, h3, h4⟩ := lineSetup_facts x0 x1 y0 y1
  rw [h3, h4]
  have : 0 ≤ max |x1 - x0| |y1 - y0| := le_trans (abs_nonneg _) (le_max_left _ _)
  omega

theorem half_bounds (d : Int) (hd : 0 < d) : 0 ≤ d / 2 ∧ d / 2 < d := by
  constructor <;> omega

theorem lineCells_closed (x0 x1 y0 y1 : Int) (k : Nat)
    (hk : (k : Int) ≤ (lineSetup x0 x1 y0 y1).den) :
    (lineCells x0 x1 y0 y1)[k]? = some (lineCellAt (lineSetup x0 x1 y0 y1) x0 y0 k) := by
  obtain ⟨h0, h1, h2, h3, h4⟩ := lineSetup_facts x0 x1 y0 y1
  have hden : 0 ≤ (lineSetup x0 x1 y0 y1).den := le_trans h0 h1
  rw [lineCells_eq_walk, lineWalk_getElem? _ _ _ _ (by omega)]
  rcases eq_or_lt_of_le hden with hz | hpos
  · have hk0 : k = 0 := by omega
    subst hk0
    simp [lineCellAt, lineQuot, ← hz]
  · obtain ⟨hb0, hb1⟩ := half_bounds _ hpos
    rw [lineAdvance_iterate _ _ hpos h0 h1 (by simp only; omega) (by simp only; omega)]
    simp [lineCellAt, lineQuot]

theorem lineQuot_zero (x0 x1 y0 y1 : Int) : lineQuot (lineSetup x0 x1 y0 y1) 0 = 0 := by
  obtain ⟨h0, h1, h2, h3, h4⟩ := lineSetup_facts x0 x1 y0 y1
  have hden : 0 ≤ (lineSetup x0 x1 y0 y1).den := le_trans h0 h1
  unfold lineQuot
  rw [h2]
  rcases eq_or_lt_of_le hden with hz | hpos
  · simp [← hz]
  · obtain ⟨hb0, hb1⟩ := half_bounds _ hpos
    simp [Int.ediv_eq_zero_of_lt hb0 hb1]

theorem lineQuot_end (x0 x1 y0 y1 : Int) :
    lineQuot (lineSetup x0 x1 y0 y1) ((lineSetup x0 x1 y0 y1).den).toNat =
      (lineSetup x0 x1 y0 y1).numadd := by
  obtain ⟨h0, h1, h2, h3, h4⟩ := lineSetup_facts x0 x1 y0 y1
  have hden : 0 ≤ (lineSetup x0 x1 y0 y1).den := le_trans h0 h1
  unfold lineQuot
  rw [h2, Int.toNat_of_nonneg hden]
  rcases eq_or_lt_of_le hden with hz | hpos
  · rw [← hz] at h1 ⊢
    simp
    omega
  · obtain ⟨hb0, hb1⟩ := half_bounds _ hpos
    rw [Int.add_mul_ediv_left _ _ (ne_of_gt hpos), Int.ediv_eq_zero_of_lt hb0 hb1]
    simp

theorem lineQuot_step (x0 x1 y0 y1 : Int) (k : Nat) :
    ((lineQuot (lineSetup x0 x1 y0 y1) (k + 1) = lineQuot (lineSetup x0 x1 y0 y1) k) ∨
      (0 < (lineSetup x0 x1 y0 y1).numadd ∧
        lineQuot (lineSetup x0 x1 y0 y1) (k + 1) = lineQuot (lineSetup x0 x1 y0 y1) k + 1)) := by
  obtain ⟨h0, h1, h2, h3, h4⟩ := lineSetup_facts x0 x1 y0 y1
  have hden : 0 ≤ (lineSetup x0 x1 y0 y1).den := le_trans h0 h1
  unfold lineQuot
  rcases eq_or_lt_of_le hden with hz | hpos
  · left
    simp [← hz]
  · rcases eq_or_lt_of_le h0 with ha | ha
    · left
      simp [← ha]
    · have hN : (lineSetup x0 x1 y0 y1).num + ((k + 1 : Nat) : Int) * (lineSetup x0 x1 y0 y1).numadd
          = ((lineSetup x0 x1 y0 y1).num + k * (lineSetup x0 x1 y0 y1).numadd)
            + (lineSetup x0 x1 y0 y1).numadd := by
        push_cast; ring
      rw [hN]
      obtain ⟨hA, hB⟩ := ediv_emod_step
        ((lineSetup x0 x1 y0 y1).num + k * (lineSetup x0 x1 y0 y1).numadd)
        (lineSetup x0 x1 y0 y1).numadd (lineSetup x0 x1 y0 y1).den hpos h0 h1
      by_cases hge : ((lineSetup x0 x1 y0 y1).num + k * (lineSetup x0 x1 y0 y1).numadd)
          % (lineSetup x0 x1 y0 y1).den + (lineSetup x0 x1 y0 y1).numadd
          ≥ (lineSetup x0 x1 y0 y1).den
      · right; exact ⟨ha, (hA hge).1⟩
      · left; exact (hB hge).1

theorem sign_inc (a b : Int) (h : 0 < |b - a|) :
    Int.sign (b - a) = if b ≥ a then 1 else -1 := by
  have hne : b - a ≠ 0 := abs_pos.mp h
  split
  · rename_i hge
    exact Int.sign_eq_one_of_pos (by omega)
  · rename_i hge
    exact Int.sign_eq_neg_one_of_neg (by omega)

theorem abs_mul_inc (a b : Int) : |b - a| * (if b ≥ a then 1 else -1) = b - a := by
  split
  · rename_i hge
    rw [abs_of_nonneg (by omega)]; ring
  · rename_i hge
    rw [abs_of_neg (by omega)]; ring

theorem lineSetup_xmajor (x0 x1 y0 y1 : Int) (h : |y1 - y0| ≤ |x1 - x0|) :
    lineSetup x0 x1 y0 y1 =
      { xinc1 := 0, xinc2 := if x1 ≥ x0 then 1 else -1,
        yinc1 := if y1 ≥ y0 then 1 else -1, yinc2 := 0,
        den := |x1 - x0|, num := |x1 - x0| / 2, numadd := |y1 - y0|,
        numpixels := |x1 - x0| } := by
  unfold lineSetup
  simp only
  rw [if_pos h]

theorem lineSetup_ymajor (x0 x1 y0 y1 : Int) (h : |x1 - x0| < |y1 - y0|) :
    lineSetup x0 x1 y0 y1 =
      { xinc1 := if x1 ≥ x0 then 1 else -1, xinc2 := 0,
        yinc1 := 0, yinc2 := if y1 ≥ y0 then 1 else -1,
        den := |y1 - y0|, num := |y1 - y0| / 2, numadd := |x1 - x0|,
        numpixels := |y1 - y0| } := by
  unfold lineSetup
  simp only
  rw [if_neg (not_le.mpr h)]

theorem lineCellAt_zero (x0 x1 y0 y1 : Int) :
    lineCellAt (lineSetup x0 x1 y0 y1) x0 y0 0 = (x0, y0) := by
  unfold lineCellAt
  rw [lineQuot_zero]
  simp

theorem lineCellAt_end (x0 x1 y0 y1 : Int) :
    lineCellAt (lineSetup x0 x1 y0 y1) x0 y0 ((lineSetup x0 x1 y0 y1).den).toNat = (x1, y1) := by
  obtain ⟨h0, h1, h2, h3, h4⟩ := lineSetup_facts x0 x1 y0 y1
  have hden : 0 ≤ (lineSetup x0 x1 y0 y1).den := le_trans h0 h1
  unfold lineCellAt
  rw [lineQuot_end, Int.toNat_of_nonneg hden]
  rcases le_or_lt |y1 - y0| |x1 - x0| with h | h
  · rw [lineSetup_xmajor _ _ _ _ h]
    simp only [Prod.mk.injEq]
    have e1 := abs_mul_inc x0 x1
    have e2 := abs_mul_inc y0 y1
    constructor
    · linarith
    · rw [mul_comm] at e2; linarith
  · rw [lineSetup_ymajor _ _ _ _ h]
    simp only [Prod.mk.injEq]
    have e1 := abs_mul_inc x0 x1
    have e2 := abs_mul_inc y0 y1
    constructor
    · rw [mul_comm] at e1; linarith
    · linarith

theorem lineCells_head (x0 x1 y0 y1 : Int) :
    (lineCells x0 x1 y0 y1).head? = some (x0, y0) := by
  obtain ⟨h0, h1, h2, h3, h4⟩ := lineSetup_facts x0 x1 y0 y1
  have hden : 0 ≤ (lineSetup x0 x1 y0 y1).den := le_trans h0 h1
  rw [List.head?_eq_getElem?, lineCells_closed _ _ _ _ 0 (by simpa using hden), lineCellAt_zero]

theorem lineCells_last (x0 x1 y0 y1 : Int) :
    (lineCells x0 x1 y0 y1).getLast? = some (x1, y1) := by
  obtain ⟨h0, h1, h2, h3, h4⟩ := lineSetup_facts x0 x1 y0 y1
  have hden : 0 ≤ (lineSetup x0 x1 y0 y1).den := le_trans h0 h1
  rw [List.getLast?_eq_getElem?, lineCells_length, ← h4, Nat.add_sub_cancel,
    lineCells_closed _ _ _ _ _ (by omega), lineCellAt_end]

theorem lineCells_consecutive (x0 x1 y0 y1 : Int) (i : Nat) (a b : Int × Int)
    (ha : (lineCells x0 x1 y0 y1)[i]? = some a)
    (hb : (lineCells x0 x1 y0 y1)[i + 1]? = some b) :
    (|y1 - y0| ≤ |x1 - x0| →
      b.1 - a.1 = Int.sign (x1 - x0) ∧
        (b.2 - a.2 = 0 ∨ b.2 - a.2 = Int.sign (y1 - y0))) ∧
    (|x1 - x0| < |y1 - y0| →
      b.2 - a.2 = Int.sign (y1 - y0) ∧
        (b.1 - a.1 = 0 ∨ b.1 - a.1 = Int.sign (x1 - x0))) := by
  obtain ⟨h0, h1, h2, h3, h4⟩ := lineSetup_facts x0 x1 y0 y1
  have hlen := lineCells_length x0 x1 y0 y1
  have hi : i + 1 < (lineCells x0 x1 y0 y1).length := by
    by_contra hn
    rw [List.getElem?_eq_none (by omega)] at hb
    exact Option.noConfusion hb
  rw [hlen, ← h4] at hi
  have hden : 0 ≤ (lineSetup x0 x1 y0 y1).den := le_trans h0 h1
  have hi1 : ((i + 1 : Nat) : Int) ≤ (lineSetup x0 x1 y0 y1).den := by omega
  have hi0 : ((i : Nat) : Int) ≤ (lineSetup x0 x1 y0 y1).den := by omega
  rw [lineCells_closed _ _ _ _ _ hi0] at ha
  rw [lineCells_closed _ _ _ _ _ hi1] at hb
  have ea := (Option.some.inj ha).symm
  have eb := (Option.some.inj hb).symm
  have hstep := lineQuot_step x0 x1 y0 y1 i
  have hpos : 0 < (lineSetup x0 x1 y0 y1).den := by omega
  subst ea eb
  unfold lineCellAt
  simp only
  constructor
  · intro h
    rw [lineSetup_xmajor _ _ _ _ h] at hstep hpos ⊢
    simp only at hstep hpos ⊢
    rw [sign_inc x0 x1 hpos]
    constructor
    · push_cast; ring
    · rcases hstep with e | ⟨hadd, e⟩
      · left; rw [e]; ring
      · right; rw [e, sign_inc y0 y1 hadd]; ring
  · intro h
    rw [lineSetup_ymajor _ _ _ _ h] at hstep hpos ⊢
    simp only at hstep hpos ⊢
    rw [sign_inc y0 y1 hpos]
    constructor
    · push_cast; ring
    · rcases hstep with e | ⟨hadd, e⟩
      · left; rw [e]; ring
      · right; rw [e, sign_inc x0 x1 hadd]; ring

theorem lineScored_eq_cells (cv : CostValues) (costmap_ : Costmap) (x0 x1 y0 y1 : Int)
    (hfree : ∀ c ∈ lineCells x0 x1 y0 y1, 0 ≤ pointCost cv costmap_ c.1 c.2) :
    lineScored cv costmap_ x0 x1 y0 y1 = lineCells x0 x1 y0 y1 := by
  rw [lineCells_eq_walk] at hfree ⊢
  unfold lineScored lineRun
  simp only
  rw [lineLoop_valid _ _ _ _ _ _ hfree]
  simp

theorem sign_abs_le_one (z : Int) : |Int.sign z| ≤ 1 := by
  rcases lt_trichotomy z 0 with h | h | h
  · rw [Int.sign_eq_neg_one_of_neg h]; decide
  · rw [h]; decide
  · rw [Int.sign_eq_one_of_pos h]; decide

/-- C3: on an obstacle-free grid the cells `lineCost` scores number
`max(|x1-x0|, |y1-y0|) + 1`, start at `(x0, y0)` and end at `(x1, y1)`; from one
cell to the next the major-axis coordinate (x on a tie) moves by exactly one
toward the end cell and the minor-axis coordinate by zero or one toward the end
cell, so consecutive cells are 8-neighbours.  For `x0 = x1`, `y0 = y1` the
count is one and the only cell is `(x0, y0)`. -/
theorem lineScored_shape (cv : CostValues) (costmap_ : Costmap) (x0 x1 y0 y1 : Int)
    (hfree : ∀ x y, ¬ (costmap_.getCost x y = cv.LETHAL_OBSTACLE ∨
        costmap_.getCost x y = cv.INSCRIBED_INFLATED_OBSTACLE ∨
        costmap_.getCost x y = cv.NO_INFORMATION)) :
    (lineScored cv costmap_ x0 x1 y0 y1).length = (max |x1 - x0| |y1 - y0|).toNat + 1 ∧
    (lineScored cv costmap_ x0 x1 y0 y1).head? = some (x0, y0) ∧
    (lineScored cv costmap_ x0 x1 y0 y1).getLast? = some (x1, y1) ∧
    ∀ (i : Nat) (a b : Int × Int),
      (lineScored cv costmap_ x0 x1 y0 y1)[i]? = some a →
      (lineScored cv costmap_ x0 x1 y0 y1)[i + 1]? = some b →
      (|y1 - y0| ≤ |x1 - x0| →
        b.1 - a.1 = Int.sign (x1 - x0) ∧
          (b.2 - a.2 = 0 ∨ b.2 - a.2 = Int.sign (y1 - y0))) ∧
      (|x1 - x0| < |y1 - y0| →
        b.2 - a.2 = Int.sign (y1 - y0) ∧
          (b.1 - a.1 = 0 ∨ b.1 - a.1 = Int.sign (x1 - x0))) ∧
      max |b.1 - a.1| |b.2 - a.2| = 1 := by
  have heq : lineScored cv costmap_ x0 x1 y0 y1 = lineCells x0 x1 y0 y1 :=
    lineScored_eq_cells cv costmap_ x0 x1 y0 y1
      (fun c _ => pointCost_nonneg_of_free cv costmap_ c.1 c.2 (hfree c.1 c.2))
  rw [heq]
  refine ⟨lineCells_length x0 x1 y0 y1, lineCells_head x0 x1 y0 y1,
    lineCells_last x0 x1 y0 y1, ?_⟩
  intro i a b ha hb
  obtain ⟨hx, hy⟩ := lineCells_consecutive x0 x1 y0 y1 i a b ha hb
  refine ⟨hx, hy, ?_⟩
  have hi : i + 1 < (lineCells x0 x1 y0 y1).length := by
    by_contra hn
    rw [List.getElem?_eq_none (by omega)] at hb
    exact Option.noConfusion hb
  rw [lineCells_length] at hi
  have hmaxpos : 0 < max |x1 - x0| |y1 - y0| := by omega
  rcases le_or_lt |y1 - y0| |x1 - x0| with h | h
  · obtain ⟨e1, e2⟩ := hx h
    have hd : 0 < |x1 - x0| := by rwa [max_eq_left h] at hmaxpos
    have hs := sign_inc x0 x1 hd
    have h1 : |b.1 - a.1| = 1 := by
      rw [e1, hs]; split <;> decide
    have h2 : |b.2 - a.2| ≤ 1 := by
      rcases e2 with e | e
      · rw [e]; decide
      · rw [e]; exact sign_abs_le_one _
    rw [h1]; exact max_eq_left h2
  · obtain ⟨e1, e2⟩ := hy h
    have hd : 0 < |y1 - y0| := lt_of_le_of_lt (abs_nonneg _) h
    have hs := sign_inc y0 y1 hd
    have h1 : |b.2 - a.2| = 1 := by
      rw [e1, hs]; split <;> decide
    have h2 : |b.1 - a.1| ≤ 1 := by
      rcases e2 with e | e
      · rw [e]; decide
      · rw [e]; exact sign_abs_le_one _
    rw [h1]; exact max_eq_right h2

/-- Witness of C3 on the obstacle-free grid of cost `7`, for the line from
`(0, 0)` to `(2, 1)`. -/
theorem lineScored_shape_witness :
    (lineScored stdCosts freeGrid 0 2 0 1).length = (max |(2 : Int) - 0| |(1 : Int) - 0|).toNat + 1 ∧
    (lineScored stdCosts freeGrid 0 2 0 1).head? = some (0, 0) ∧
    (lineScored stdCosts freeGrid 0 2 0 1).getLast? = some (2, 1) ∧
    ∀ (i : Nat) (a b : Int × Int),
      (lineScored stdCosts freeGrid 0 2 0 1)[i]? = some a →
      (lineScored stdCosts freeGrid 0 2 0 1)[i + 1]? = some b →
      (|(1 : Int) - 0| ≤ |(2 : Int) - 0| →
        b.1 - a.1 = Int.sign (2 - 0) ∧
          (b.2 - a.2 = 0 ∨ b.2 - a.2 = Int.sign (1 - 0))) ∧
      (|(2 : Int) - 0| < |(1 : Int) - 0| →
        b.2 - a.2 = Int.sign (1 - 0) ∧
          (b.1 - a.1 = 0 ∨ b.1 - a.1 = Int.sign (2 - 0))) ∧
      max |b.1 - a.1| |b.2 - a.2| = 1 :=
  lineScored_shape stdCosts freeGrid 0 2 0 1
    (by intro x y; simp [Costmap.getCost, freeGrid, stdCosts])

/-- The cells scored on the way from `(0, 0)` to `(2, 1)` and back, and the
single cell of the degenerate line. -/
theorem lineScored_examples :
    lineScored stdCosts freeGrid 0 2 0 1 = [(0, 0), (1, 1), (2, 1)] ∧
    lineScored stdCosts freeGrid 2 0 1 0 = [(2, 1), (1, 0), (0, 0)] ∧
    lineScored stdCosts freeGrid 5 5 3 3 = [(5, 3)] := by
  decide

theorem quot_sym (d a k : Int) (hd : 0 < d)
    (hc : (d / (Int.gcd d a : Int)) % 2 = 1) :
    (d / 2 + k * a) / d + (d / 2 + (d - k) * a) / d = a := by
  have h1 := Int.emod_add_ediv (d / 2 + k * a) d
  have h2 := Int.emod_nonneg (d / 2 + k * a) (ne_of_gt hd)
  have h3 := Int.emod_lt_of_pos (d / 2 + k * a) hd
  rcases Int.emod_two_eq_zero_or_one d with heven | hodd
  · have hhalf : 2 * (d / 2) = d := by omega
    have hr : (d / 2 + k * a) % d ≠ 0 := by
      intro hr
      have hg1 : (Int.gcd d a : Int) ∣ d := Int.gcd_dvd_left
      have hg2 : (Int.gcd d a : Int) ∣ a := Int.gcd_dvd_right
      have hd1 : d ∣ d / 2 + k * a := Int.dvd_of_emod_eq_zero hr
      have hd2 : (Int.gcd d a : Int) ∣ d / 2 + k * a := dvd_trans hg1 hd1
      have hd3 : (Int.gcd d a : Int) ∣ d / 2 :=
        (Int.dvd_add_left (Dvd.dvd.mul_left hg2 k)).mp hd2
      obtain ⟨t, ht⟩ := hd3
      have hgne : (Int.gcd d a : Int) ≠ 0 := by
        intro h0
        rw [h0] at hg1
        have := zero_dvd_iff.mp hg1
        omega
      have hdiv : d / (Int.gcd d a : Int) = 2 * t := by
        have e : 2 * ((Int.gcd d a : Int) * t) = d := by rw [← ht]; exact hhalf
        have : d = (Int.gcd d a : Int) * (2 * t) := by linear_combination -e
        exact Int.ediv_eq_of_eq_mul_right hgne this
      rw [hdiv] at hc
      omega
    have key : (d / 2 + (d - k) * a) / d = a - (d / 2 + k * a) / d ∧
        (d / 2 + (d - k) * a) % d = d - (d / 2 + k * a) % d := by
      apply (Int.ediv_emod_unique hd).mpr
      refine ⟨?_, by omega, by omega⟩
      linear_combination -hhalf - h1
    rw [key.1]; ring
  · have hhalf : 2 * (d / 2) = d - 1 := by omega
    have key : (d / 2 + (d - k) * a) / d = a - (d / 2 + k * a) / d ∧
        (d / 2 + (d - k) * a) % d = d - 1 - (d / 2 + k * a) % d := by
      apply (Int.ediv_emod_unique hd).mpr
      refine ⟨?_, by omega, by omega⟩
      linear_combination -hhalf - h1
    rw [key.1]; ring

theorem odd_quotient_cases (d a : Int) (hd : 0 < d) (hc : d % 2 = 1 ∨ a = 0 ∨ a = d) :
    (d / (Int.gcd d a : Int)) % 2 = 1 := by
  rcases hc with h | h | h
  · have hg1 : (Int.gcd d a : Int) ∣ d := Int.gcd_dvd_left
    obtain ⟨t, ht⟩ := hg1
    have hgne : (Int.gcd d a : Int) ≠ 0 := by
      intro h0
      rw [h0] at ht
      omega
    have hdiv : d / (Int.gcd d a : Int) = t := Int.ediv_eq_of_eq_mul_right hgne ht
    rw [hdiv]
    rcases Int.emod_two_eq_zero_or_one t with h0 | h1
    · exfalso
      have : d % 2 = 0 := by
        rw [ht, Int.mul_emod, h0]; simp
      omega
    · exact h1
  · subst h
    simp [Int.gcd_zero_right, abs_of_pos hd, Int.ediv_self (ne_of_gt hd)]
  · subst h
    simp [Int.gcd_self, abs_of_pos hd, Int.ediv_self (ne_of_gt hd)]

theorem major_sym (u0 u1 k d : Int) (hd : d = |u1 - u0|) (hpos : 0 < d) :
    u1 + k * (if u0 ≥ u1 then 1 else -1) = u0 + (d - k) * (if u1 ≥ u0 then 1 else -1) := by
  rcases lt_trichotomy u0 u1 with h | h | h
  · rw [abs_of_pos (by omega)] at hd
    rw [if_neg (by omega), if_pos (by omega)]
    linarith
  · subst h
    simp at hd
    omega
  · rw [abs_of_neg (by omega)] at hd
    rw [if_pos (by omega), if_neg (by omega)]
    linarith

theorem minor_sym (v0 v1 a q q' : Int) (ha : a = |v1 - v0|) (hq : q + q' = a)
    (hq0 : a = 0 → q = 0 ∧ q' = 0) :
    v1 + (if v0 ≥ v1 then 1 else -1) * q = v0 + (if v1 ≥ v0 then 1 else -1) * q' := by
  rcases lt_trichotomy v0 v1 with h | h | h
  · rw [abs_of_pos (by omega)] at ha
    rw [if_neg (by omega), if_pos (by omega)]
    linarith
  · subst h
    simp at ha
    obtain ⟨e1, e2⟩ := hq0 ha
    rw [e1, e2]
  · rw [abs_of_neg (by omega)] at ha
    rw [if_pos (by omega), if_neg (by omega)]
    linarith

theorem lineCellAt_reverse (x0 x1 y0 y1 : Int)
    (hc : (max |x1 - x0| |y1 - y0| /
      (Int.gcd (max |x1 - x0| |y1 - y0|) (min |x1 - x0| |y1 - y0|) : Int)) % 2 = 1)
    (hpos : 0 < max |x1 - x0| |y1 - y0|) (k : Nat)
    (hk : (k : Int) ≤ max |x1 - x0| |y1 - y0|) :
    lineCellAt (lineSetup x1 x0 y1 y0) x1 y1 k =
      lineCellAt (lineSetup x0 x1 y0 y1) x0 y0 ((max |x1 - x0| |y1 - y0|).toNat - k) := by
  have hcast : (((max |x1 - x0| |y1 - y0|).toNat - k : Nat) : Int)
      = max |x1 - x0| |y1 - y0| - k := by
    omega
  unfold lineCellAt lineQuot
  rw [hcast]
  rcases le_or_lt |y1 - y0| |x1 - x0| with h | h
  · have h' : |y0 - y1| ≤ |x0 - x1| := by rwa [abs_sub_comm y0 y1, abs_sub_comm x0 x1]
    rw [lineSetup_xmajor _ _ _ _ h, lineSetup_xmajor _ _ _ _ h']
    rw [max_eq_left h] at hc hpos hk ⊢
    rw [min_eq_right h] at hc
    simp only [abs_sub_comm x0 x1, abs_sub_comm y0 y1, zero_mul, add_zero, mul_zero,
      Prod.mk.injEq]
    have hq := quot_sym |x1 - x0| |y1 - y0| k hpos hc
    obtain ⟨hb0, hb1⟩ := half_bounds _ hpos
    refine ⟨major_sym x0 x1 k _ rfl hpos, minor_sym y0 y1 |y1 - y0| _ _ rfl hq ?_⟩
    intro ha
    rw [ha]
    simp [Int.ediv_eq_zero_of_lt hb0 hb1]
  · have h' : |x0 - x1| < |y0 - y1| := by rwa [abs_sub_comm y0 y1, abs_sub_comm x0 x1]
    have hle := le_of_lt h
    rw [lineSetup_ymajor _ _ _ _ h, lineSetup_ymajor _ _ _ _ h']
    rw [max_eq_right hle] at hc hpos hk ⊢
    rw [min_eq_left hle] at hc
    simp only [abs_sub_comm x0 x1, abs_sub_comm y0 y1, zero_mul, add_zero, mul_zero,
      Prod.mk.injEq]
    have hq := quot_sym |y1 - y0| |x1 - x0| k hpos hc
    obtain ⟨hb0, hb1⟩ := half_bounds _ hpos
    refine ⟨minor_sym x0 x1 |x1 - x0| _ _ rfl hq ?_, major_sym y0 y1 k _ rfl hpos⟩
    intro ha
    rw [ha]
    simp [Int.ediv_eq_zero_of_lt hb0 hb1]

theorem lineCells_reverse (x0 x1 y0 y1 : Int)
    (hc : (x1 = x0 ∧ y1 = y0) ∨
      (max |x1 - x0| |y1 - y0| /
        (Int.gcd (max |x1 - x0| |y1 - y0|) (min |x1 - x0| |y1 - y0|) : Int)) % 2 = 1) :
    lineCells x1 x0 y1 y0 = (lineCells x0 x1 y0 y1).reverse := by
  have hD : 0 ≤ max |x1 - x0| |y1 - y0| := le_trans (abs_nonneg _) (le_max_left _ _)
  have hlen := lineCells_length x0 x1 y0 y1
  have hlen' := lineCells_length x1 x0 y1 y0
  rw [abs_sub_comm x0 x1, abs_sub_comm y0 y1] at hlen'
  have hden := (lineSetup_facts x0 x1 y0 y1).2.2.2.2
  have hden' := (lineSetup_facts x1 x0 y1 y0).2.2.2.2
  rw [abs_sub_comm x0 x1, abs_sub_comm y0 y1] at hden'
  rcases eq_or_lt_of_le hD with hz | hpos
  · have hx : |x1 - x0| ≤ 0 := by rw [hz]; exact le_max_left _ _
    have hy : |y1 - y0| ≤ 0 := by rw [hz]; exact le_max_right _ _
    have ex : x1 = x0 := by
      have := abs_eq_zero.mp (le_antisymm hx (abs_nonneg _)); omega
    have ey : y1 = y0 := by
      have := abs_eq_zero.mp (le_antisymm hy (abs_nonneg _)); omega
    subst ex ey
    rw [← hz] at hlen
    match hL : lineCells x1 x1 y1 y1, hlen with
    | [c], _ => rfl
  · have hodd : (max |x1 - x0| |y1 - y0| /
        (Int.gcd (max |x1 - x0| |y1 - y0|) (min |x1 - x0| |y1 - y0|) : Int)) % 2 = 1 := by
      rcases hc with ⟨ex, ey⟩ | h
      · subst ex ey
        simp at hpos
      · exact h
    apply List.ext_getElem?
    intro k
    rcases le_or_lt (k : Int) (max |x1 - x0| |y1 - y0|) with hk | hk
    · rw [lineCells_closed _ _ _ _ k (by rw [hden']; exact hk),
        List.getElem?_reverse (by rw [hlen]; omega), hlen, Nat.add_sub_cancel,
        lineCells_closed _ _ _ _ _ (by rw [hden]; omega),
        lineCellAt_reverse x0 x1 y0 y1 hodd hpos k hk]
    · rw [List.getElem?_eq_none (by rw [hlen']; omega),
        List.getElem?_eq_none (by rw [List.length_reverse, hlen]; omega)]

theorem lineCost_neg_iff (cv : CostValues) (costmap_ : Costmap) (x0 x1 y0 y1 : Int) :
    lineCost cv costmap_ x0 x1 y0 y1 < 0 ↔
      ∃ c ∈ lineCells x0 x1 y0 y1, pointCost cv costmap_ c.1 c.2 = -1 := by
  constructor
  · intro h
    by_contra hn
    have hall : ∀ c ∈ lineCells x0 x1 y0 y1, pointCost cv costmap_ c.1 c.2 ≠ -1 := by
      intro c hc hc1
      exact hn ⟨c, hc, hc1⟩
    rw [lineCost_of_valid cv costmap_ x0 x1 y0 y1 hall] at h
    have := foldl_max_ge (fun c => pointCost cv costmap_ c.1 c.2) (lineCells x0 x1 y0 y1) 0
    simp only at this
    omega
  · intro h
    rw [lineCost_of_invalid cv costmap_ x0 x1 y0 y1 h]
    decide

/-- C4, the claim as stated fails: with one lethal cell at `(1, 1)` the line
from `(0, 0)` to `(2, 1)` is invalid while the line from `(2, 1)` to `(0, 0)` is
valid (the two directions score `(1, 1)` and `(1, 0)` in the middle). -/
theorem lineCost_validity_asymmetric :
    ¬ (lineCost stdCosts oneObstacle 0 2 0 1 < 0 ↔ lineCost stdCosts oneObstacle 2 0 1 0 < 0) := by
  decide

/-- The condition of the amended C4 holds for every line with an odd larger
delta, and for every horizontal, vertical or exactly diagonal line. -/
theorem symmetric_line_cases (x0 x1 y0 y1 : Int)
    (h : (max |x1 - x0| |y1 - y0|) % 2 = 1 ∨ min |x1 - x0| |y1 - y0| = 0 ∨
      |x1 - x0| = |y1 - y0|) :
    (x1 = x0 ∧ y1 = y0) ∨
      (max |x1 - x0| |y1 - y0| /
        (Int.gcd (max |x1 - x0| |y1 - y0|) (min |x1 - x0| |y1 - y0|) : Int)) % 2 = 1 := by
  have hD : 0 ≤ max |x1 - x0| |y1 - y0| := le_trans (abs_nonneg _) (le_max_left _ _)
  rcases eq_or_lt_of_le hD with hz | hpos
  · left
    have hx : |x1 - x0| ≤ 0 := by rw [hz]; exact le_max_left _ _
    have hy : |y1 - y0| ≤ 0 := by rw [hz]; exact le_max_right _ _
    have ex := abs_eq_zero.mp (le_antisymm hx (abs_nonneg _))
    have ey := abs_eq_zero.mp (le_antisymm hy (abs_nonneg _))
    constructor <;> omega
  · right
    apply odd_quotient_cases _ _ hpos
    rcases h with h | h | h
    · exact Or.inl h
    · exact Or.inr (Or.inl h)
    · right; right
      rw [h, max_self, min_self]

/-- C4 as amended: when A = B, or the larger of the two deltas divided by the
greatest common divisor of the two deltas is odd (which covers every line with
an odd larger delta and every horizontal, vertical or exactly diagonal line),
`lineCost` from A to B is invalid if and only if `lineCost` from B to A is
invalid: the two directions score the same cells, in opposite order. -/
theorem lineCost_validity_symmetric (cv : CostValues) (costmap_ : Costmap)
    (x0 x1 y0 y1 : Int)
    (hc : (x1 = x0 ∧ y1 = y0) ∨
      (max |x1 - x0| |y1 - y0| /
        (Int.gcd (max |x1 - x0| |y1 - y0|) (min |x1 - x0| |y1 - y0|) : Int)) % 2 = 1) :
    (lineCost cv costmap_ x0 x1 y0 y1 < 0 ↔ lineCost cv costmap_ x1 x0 y1 y0 < 0) ∧
      lineCells x1 x0 y1 y0 = (lineCells x0 x1 y0 y1).reverse := by
  have hrev := lineCells_reverse x0 x1 y0 y1 hc
  refine ⟨?_, hrev⟩
  rw [lineCost_neg_iff, lineCost_neg_iff, hrev]
  simp only [List.mem_reverse]

/-- Witness of the amended C4: the line from `(0, 0)` to `(6, 2)` has larger
delta `6` and greatest common divisor `2`, and `6 / 2` is odd. -/
theorem lineCost_validity_symmetric_witness :
    (lineCost stdCosts oneObstacle 0 6 0 2 < 0 ↔ lineCost stdCosts oneObstacle 6 0 2 0 < 0) ∧
      lineCells 6 0 2 0 = (lineCells 0 6 0 2).reverse :=
  lineCost_validity_symmetric stdCosts oneObstacle 0 6 0 2 (by decide)

/-! ## Theorems: trajectory simulator -/

theorem toInt_of_nonneg (d : ℚ) (h : 0 ≤ d) : toInt d = ⌊d⌋ := by
  unfold toInt
  rw [if_pos h]

/-- C5, the claim as stated fails: for target velocity `(6/5, 0, 0)` with
horizon and granularities `1` the maximum is `6/5`; the code takes
`int(6/5 + 0.5) = 1` step where the ceiling is `2`. -/
theorem numSteps_not_ceil :
    numSteps sampleLibm unitPlanner (6 / 5) 0 0 = 1 ∧
      specSteps sampleLibm unitPlanner (6 / 5) 0 0 = 2 ∧
      sampleLibm.hypot (6 / 5) 0 = 6 / 5 ∧
      0 < unitPlanner.sim_time_ ∧ 0 < unitPlanner.sim_granularity_ ∧
      0 < unitPlanner.angular_sim_granularity_ := by
  have habs : |(6 / 5 : ℚ)| = 6 / 5 := abs_of_pos (by norm_num)
  have hfl : ⌊(6 / 5 : ℚ) + 1 / 2⌋ = 1 := by
    rw [Int.floor_eq_iff]; norm_num
  have hce : ⌈(6 / 5 : ℚ)⌉ = 2 := by
    rw [Int.ceil_eq_iff]; norm_num
  refine ⟨?_, ?_, ?_, ?_, ?_, ?_⟩
  · unfold numSteps
    simp only [sampleLibm, unitPlanner]
    norm_num [toInt, habs, hfl]
  · unfold specSteps
    simp only [sampleLibm, unitPlanner]
    norm_num [habs, hce]
  · simp [sampleLibm, habs]
  · simp [unitPlanner]
  · simp [unitPlanner]
  · simp [unitPlanner]

theorem stepMax_nonneg (m : Libm) (p : Planner) (vx_samp vy_samp vtheta_samp : ℚ)
    (hA : 0 < p.angular_sim_granularity_) :
    0 ≤ max ((m.hypot vx_samp vy_samp * p.sim_time_) / p.sim_granularity_)
      (|vtheta_samp| / p.angular_sim_granularity_) :=
  le_trans (div_nonneg (abs_nonneg _) hA.le) (le_max_right _ _)

/-- C5 as amended: for positive horizon and granularities the number of
simulation steps of `generateTrajectory` is the maximum
`max(hypot(vx_samp, vy_samp) * sim_time / sim_granularity,
|vtheta_samp| / angular_sim_granularity)` rounded to the nearest integer, halves
up (`floor(max + 1/2)`, the value of `int(max + 0.5)`), raised to 1 when that is
0; the step duration is `sim_time / steps`; the loop of `generateTrajectory`
runs with these two values.  The count is at least 1, at most the ceiling-based
count of the specification and at least that count minus one. -/
theorem numSteps_round (m : Libm) (w : World) (p : Planner)
    (x y theta vx vy vtheta vx_samp vy_samp vtheta_samp acc_x acc_y acc_theta : ℚ)
    (_hT : 0 < p.sim_time_) (_hG : 0 < p.sim_granularity_)
    (hA : 0 < p.angular_sim_granularity_) :
    numSteps m p vx_samp vy_samp vtheta_samp =
      (if ⌊max ((m.hypot vx_samp vy_samp * p.sim_time_) / p.sim_granularity_)
            (|vtheta_samp| / p.angular_sim_granularity_) + 1 / 2⌋ = 0 then 1
        else ⌊max ((m.hypot vx_samp vy_samp * p.sim_time_) / p.sim_granularity_)
            (|vtheta_samp| / p.angular_sim_granularity_) + 1 / 2⌋) ∧
    stepDuration m p vx_samp vy_samp vtheta_samp =
      p.sim_time_ / (numSteps m p vx_samp vy_samp vtheta_samp : ℚ) ∧
    generateTrajectory m w p x y theta vx vy vtheta vx_samp vy_samp vtheta_samp
        acc_x acc_y acc_theta =
      simLoop m w p
        { vx_samp := vx_samp, vy_samp := vy_samp, vtheta_samp := vtheta_samp,
          acc_x := acc_x, acc_y := acc_y, acc_theta := acc_theta,
          dt := p.sim_time_ / (numSteps m p vx_samp vy_samp vtheta_samp : ℚ) }
        (numSteps m p vx_samp vy_samp vtheta_samp).toNat
        { x_i := x, y_i := y, theta_i := theta, vx_i := vx, vy_i := vy, vtheta_i := vtheta }
        { xv_ := vx_samp, yv_ := vy_samp, thetav_ := vtheta_samp, cost_ := -1, points := [] } ∧
    1 ≤ numSteps m p vx_samp vy_samp vtheta_samp ∧
    numSteps m p vx_samp vy_samp vtheta_samp ≤ specSteps m p vx_samp vy_samp vtheta_samp ∧
    specSteps m p vx_samp vy_samp vtheta_samp ≤ numSteps m p vx_samp vy_samp vtheta_samp + 1 := by
  have hM := stepMax_nonneg m p vx_samp vy_samp vtheta_samp hA
  have hM2 : 0 ≤ max ((m.hypot vx_samp vy_samp * p.sim_time_) / p.sim_granularity_)
      (|vtheta_samp| / p.angular_sim_granularity_) + 1 / 2 := by linarith
  have hnum : numSteps m p vx_samp vy_samp vtheta_samp =
      (if ⌊max ((m.hypot vx_samp vy_samp * p.sim_time_) / p.sim_granularity_)
            (|vtheta_samp| / p.angular_sim_granularity_) + 1 / 2⌋ = 0 then 1
        else ⌊max ((m.hypot vx_samp vy_samp * p.sim_time_) / p.sim_granularity_)
            (|vtheta_samp| / p.angular_sim_granularity_) + 1 / 2⌋) := by
    unfold numSteps
    simp only
    rw [toInt_of_nonneg _ hM2]
  have hspec : specSteps m p vx_samp vy_samp vtheta_samp =
      max 1 ⌈max ((m.hypot vx_samp vy_samp * p.sim_time_) / p.sim_granularity_)
        (|vtheta_samp| / p.angular_sim_granularity_)⌉ := rfl
  refine ⟨hnum, rfl, rfl, ?_, ?_, ?_⟩
  all_goals
    rw [hnum]
    try rw [hspec]
    generalize max ((m.hypot vx_samp vy_samp * p.sim_time_) / p.sim_granularity_)
      (|vtheta_samp| / p.angular_sim_granularity_) = M at hM hM2 ⊢
    have hfl0 : 0 ≤ ⌊M + 1 / 2⌋ := Int.floor_nonneg.mpr hM2
    have hfl1 : (⌊M + 1 / 2⌋ : ℚ) ≤ M + 1 / 2 := Int.floor_le _
    have hfl2 : M + 1 / 2 < (⌊M + 1 / 2⌋ : ℚ) + 1 := Int.lt_floor_add_one _
    have hce1 : M ≤ (⌈M⌉ : ℚ) := Int.le_ceil _
    have hce2 : (⌈M⌉ : ℚ) < M + 1 := Int.ceil_lt_add_one _
    have hA1 : ⌊M + 1 / 2⌋ ≤ ⌈M⌉ := by
      have : (⌊M + 1 / 2⌋ : ℚ) < (⌈M⌉ : ℚ) + 1 := by linarith
      have := Int.cast_lt.mp (by push_cast; exact this : ((⌊M + 1 / 2⌋ : Int) : ℚ) < ((⌈M⌉ + 1 : Int) : ℚ))
      omega
    have hA2 : ⌈M⌉ ≤ ⌊M + 1 / 2⌋ + 1 := by
      have : (⌈M⌉ : ℚ) < (⌊M + 1 / 2⌋ : ℚ) + 2 := by linarith
      have := Int.cast_lt.mp (by push_cast; exact this : ((⌈M⌉ : Int) : ℚ) < ((⌊M + 1 / 2⌋ + 2 : Int) : ℚ))
      omega
    split <;> omega

/-- Witness of the amended C5 at target velocity `(6/5, 0, 0)` with horizon
and granularities `1`. -/
theorem numSteps_round_witness :
    numSteps sampleLibm unitPlanner (6 / 5) 0 0 =
      (if ⌊max ((sampleLibm.hypot (6 / 5) 0 * unitPlanner.sim_time_) / unitPlanner.sim_granularity_)
            (|(0 : ℚ)| / unitPlanner.angular_sim_granularity_) + 1 / 2⌋ = 0 then 1
        else ⌊max ((sampleLibm.hypot (6 / 5) 0 * unitPlanner.sim_time_) / unitPlanner.sim_granularity_)
            (|(0 : ℚ)| / unitPlanner.angular_sim_granularity_) + 1 / 2⌋) ∧
    stepDuration sampleLibm unitPlanner (6 / 5) 0 0 =
      unitPlanner.sim_time_ / (numSteps sampleLibm unitPlanner (6 / 5) 0 0 : ℚ) :=
  have h := numSteps_round sampleLibm freeWorld unitPlanner 0 0 0 0 0 0 (6 / 5) 0 0 1 0 1
    (by simp [unitPlanner]) (by simp [unitPlanner]) (by simp [unitPlanner])
  ⟨h.1, h.2.1⟩

theorem simSample_succ (m : Libm) (c : SimParams) (s : SimState) (i : Nat) :
    simSample m c s (i + 1) = simSample m c (simStep m c s) i := by
  unfold simSample
  rw [Function.iterate_succ_apply]

theorem sampleOk_iff (w : World) (p : Planner) (s : SimState) :
    sampleOk w p s = true ↔
      (∃ cell, w.worldToMap s.x_i s.y_i = some cell) ∧
        0 ≤ footprintCost w p s.x_i s.y_i s.theta_i := by
  unfold sampleOk
  rw [Bool.and_eq_true, Option.isSome_iff_exists, decide_eq_true_iff]

theorem simLoop_step_ok (m : Libm) (w : World) (p : Planner) (c : SimParams) (n : Nat)
    (s : SimState) (traj : Trajectory) (h : sampleOk w p s = true) :
    simLoop m w p c (n + 1) s traj =
      simLoop m w p c n (simStep m c s) (traj.addPoint s.x_i s.y_i s.theta_i) := by
  obtain ⟨⟨cell, hcell⟩, hfc⟩ := (sampleOk_iff w p s).mp h
  simp only [simLoop, hcell, not_lt.mpr hfc, if_false]

theorem simLoop_step_fail (m : Libm) (w : World) (p : Planner) (c : SimParams) (n : Nat)
    (s : SimState) (traj : Trajectory) (h : sampleOk w p s = false) :
    simLoop m w p c (n + 1) s traj = { traj with cost_ := -1 } := by
  cases hmap : w.worldToMap s.x_i s.y_i with
  | none => simp only [simLoop, hmap]
  | some cell =>
    have hfc : footprintCost w p s.x_i s.y_i s.theta_i < 0 := by
      by_contra hn
      have := (sampleOk_iff w p s).mpr ⟨⟨cell, hmap⟩, not_lt.mp hn⟩
      rw [h] at this
      exact Bool.noConfusion this
    simp only [simLoop, hmap, hfc, if_true]

theorem simLoop_all_ok (m : Libm) (w : World) (p : Planner) (c : SimParams) :
    ∀ (n : Nat) (s : SimState) (traj : Trajectory),
      (∀ i, i < n → sampleOk w p (simSample m c s i) = true) →
      simLoop m w p c n s traj =
        { traj with cost_ := 0, points := traj.points ++ samplePoses m c n s } := by
  intro n
  induction n with
  | zero => intro s traj _; simp [simLoop, samplePoses]
  | succ n ih =>
    intro s traj h
    rw [simLoop_step_ok m w p c n s traj (h 0 (Nat.succ_pos n)),
      ih _ _ (fun i hi => by rw [← simSample_succ]; exact h (i + 1) (by omega))]
    simp [Trajectory.addPoint, samplePoses]

theorem simLoop_first_fail (m : Libm) (w : World) (p : Planner) (c : SimParams) :
    ∀ (n : Nat) (s : SimState) (traj : Trajectory) (k : Nat), k < n →
      (∀ i, i < k → sampleOk w p (simSample m c s i) = true) →
      sampleOk w p (simSample m c s k) = false →
      simLoop m w p c n s traj =
        { traj with cost_ := -1, points := traj.points ++ samplePoses m c k s } := by
  intro n
  induction n with
  | zero => intro s traj k hk; omega
  | succ n ih =>
    intro s traj k hk hbefore hfail
    cases k with
    | zero =>
      rw [simLoop_step_fail m w p c n s traj hfail]
      simp [samplePoses]
    | succ k =>
      rw [simLoop_step_ok m w p c n s traj (hbefore 0 (Nat.succ_pos k)),
        ih _ _ k (by omega)
          (fun i hi => by rw [← simSample_succ]; exact hbefore (i + 1) (by omega))
          (by rw [← simSample_succ]; exact hfail)]
      simp [Trajectory.addPoint, samplePoses]

theorem exists_first_fail (f : Nat → Bool) (n : Nat) (h : ¬ ∀ i, i < n → f i = true) :
    ∃ k, k < n ∧ (∀ i, i < k → f i = true) ∧ f k = false := by
  induction n with
  | zero => exact absurd (fun i hi => absurd hi (Nat.not_lt_zero i)) h
  | succ n ih =>
    by_cases hn : ∀ i, i < n → f i = true
    · refine ⟨n, Nat.lt_succ_self n, hn, ?_⟩
      by_contra hfn
      apply h
      intro i hi
      rcases Nat.lt_succ_iff_lt_or_eq.mp hi with h1 | h1
      · exact hn i h1
      · rw [h1]; simpa using hfn
    · obtain ⟨k, hk, h1, h2⟩ := ih hn
      exact ⟨k, by omega, h1, h2⟩

theorem generateTrajectory_eq (m : Libm) (w : World) (p : Planner)
    (x y theta vx vy vtheta vx_samp vy_samp vtheta_samp : ℚ) :
    generateTrajectory m w p x y theta vx vy vtheta vx_samp vy_samp vtheta_samp
        p.acc_lim_trans_ 0 p.acc_lim_rot_ =
      simLoop m w p (checkParams m p vx_samp vy_samp vtheta_samp)
        (numSteps m p vx_samp vy_samp vtheta_samp).toNat
        (checkStart x y theta vx vy vtheta)
        { xv_ := vx_samp, yv_ := vy_samp, thetav_ := vtheta_samp, cost_ := -1, points := [] } :=
  rfl

/-- C6: `checkTrajectory` returns true exactly when every one of the
`num_steps` simulated samples, the first of which is the start pose, converts
to map coordinates and has a footprint cost that is not negative; the generated
trajectory then has cost `0` and holds all `num_steps` sample poses.  When
sample `k` is the first that fails, the trajectory has cost `-1`, holds exactly
the `k` poses before it, `checkTrajectory` returns false, and nothing the world
says about later samples matters: the result is the same in every world that
agrees on the samples up to `k`. -/
theorem checkTrajectory_spec (m : Libm) (w : World) (p : Planner)
    (x y theta vx vy vtheta vx_samp vy_samp vtheta_samp : ℚ) :
    simSample m (checkParams m p vx_samp vy_samp vtheta_samp)
        (checkStart x y theta vx vy vtheta) 0 = checkStart x y theta vx vy vtheta ∧
    (checkTrajectory m w p x y theta vx vy vtheta vx_samp vy_samp vtheta_samp = true ↔
      ∀ i, i < (numSteps m p vx_samp vy_samp vtheta_samp).toNat →
        sampleOk w p (simSample m (checkParams m p vx_samp vy_samp vtheta_samp)
          (checkStart x y theta vx vy vtheta) i) = true) ∧
    (checkTrajectory m w p x y theta vx vy vtheta vx_samp vy_samp vtheta_samp = true →
      generateTrajectory m w p x y theta vx vy vtheta vx_samp vy_samp vtheta_samp
          p.acc_lim_trans_ 0 p.acc_lim_rot_ =
        { xv_ := vx_samp, yv_ := vy_samp, thetav_ := vtheta_samp, cost_ := 0,
          points := samplePoses m (checkParams m p vx_samp vy_samp vtheta_samp)
            (numSteps m p vx_samp vy_samp vtheta_samp).toNat
            (checkStart x y theta vx vy vtheta) }) ∧
    (∀ k, k < (numSteps m p vx_samp vy_samp vtheta_samp).toNat →
      (∀ i, i < k → sampleOk w p (simSample m (checkParams m p vx_samp vy_samp vtheta_samp)
          (checkStart x y theta vx vy vtheta) i) = true) →
      sampleOk w p (simSample m (checkParams m p vx_samp vy_samp vtheta_samp)
          (checkStart x y theta vx vy vtheta) k) = false →
      checkTrajectory m w p x y theta vx vy vtheta vx_samp vy_samp vtheta_samp = false ∧
      generateTrajectory m w p x y theta vx vy vtheta vx_samp vy_samp vtheta_samp
          p.acc_lim_trans_ 0 p.acc_lim_rot_ =
        { xv_ := vx_samp, yv_ := vy_samp, thetav_ := vtheta_samp, cost_ := -1,
          points := samplePoses m (checkParams m p vx_samp vy_samp vtheta_samp) k
            (checkStart x y theta vx vy vtheta) } ∧
      ∀ w' : World,
        (∀ i, i ≤ k → sampleOk w' p (simSample m (checkParams m p vx_samp vy_samp vtheta_samp)
            (checkStart x y theta vx vy vtheta) i) =
          sampleOk w p (simSample m (checkParams m p vx_samp vy_samp vtheta_samp)
            (checkStart x y theta vx vy vtheta) i)) →
        generateTrajectory m w' p x y theta vx vy vtheta vx_samp vy_samp vtheta_samp
            p.acc_lim_trans_ 0 p.acc_lim_rot_ =
          generateTrajectory m w p x y theta vx vy vtheta vx_samp vy_samp vtheta_samp
            p.acc_lim_trans_ 0 p.acc_lim_rot_) := by
  have hvalid : (∀ i, i < (numSteps m p vx_samp vy_samp vtheta_samp).toNat →
        sampleOk w p (simSample m (checkParams m p vx_samp vy_samp vtheta_samp)
          (checkStart x y theta vx vy vtheta) i) = true) →
      generateTrajectory m w p x y theta vx vy vtheta vx_samp vy_samp vtheta_samp
          p.acc_lim_trans_ 0 p.acc_lim_rot_ =
        { xv_ := vx_samp, yv_ := vy_samp, thetav_ := vtheta_samp, cost_ := 0,
          points := samplePoses m (checkParams m p vx_samp vy_samp vtheta_samp)
            (numSteps m p vx_samp vy_samp vtheta_samp).toNat
            (checkStart x y theta vx vy vtheta) } := by
    intro h
    rw [generateTrajectory_eq, simLoop_all_ok m w p _ _ _ _ h]
    simp
  have hfail : ∀ (w₁ : World) (k : Nat), k < (numSteps m p vx_samp vy_samp vtheta_samp).toNat →
      (∀ i, i < k → sampleOk w₁ p (simSample m (checkParams m p vx_samp vy_samp vtheta_samp)
          (checkStart x y theta vx vy vtheta) i) = true) →
      sampleOk w₁ p (simSample m (checkParams m p vx_samp vy_samp vtheta_samp)
          (checkStart x y theta vx vy vtheta) k) = false →
      generateTrajectory m w₁ p x y theta vx vy vtheta vx_samp vy_samp vtheta_samp
          p.acc_lim_trans_ 0 p.acc_lim_rot_ =
        { xv_ := vx_samp, yv_ := vy_samp, thetav_ := vtheta_samp, cost_ := -1,
          points := samplePoses m (checkParams m p vx_samp vy_samp vtheta_samp) k
            (checkStart x y theta vx vy vtheta) } := by
    intro w₁ k hk hbefore hk0
    rw [generateTrajectory_eq, simLoop_first_fail m w₁ p _ _ _ _ k hk hbefore hk0]
    simp
  refine ⟨rfl, ⟨?_, ?_⟩, ?_, ?_⟩
  · intro hct
    by_contra hn
    obtain ⟨k, hk, hbefore, hk0⟩ := exists_first_fail
      (fun i => sampleOk w p (simSample m (checkParams m p vx_samp vy_samp vtheta_samp)
          (checkStart x y theta vx vy vtheta) i)) _ hn
    have := hfail w k hk hbefore hk0
    unfold checkTrajectory at hct
    simp only [this] at hct
    norm_num at hct
  · intro h
    unfold checkTrajectory
    simp only [hvalid h]
    norm_num
  · intro hct
    apply hvalid
    by_contra hn
    obtain ⟨k, hk, hbefore, hk0⟩ := exists_first_fail
      (fun i => sampleOk w p (simSample m (checkParams m p vx_samp vy_samp vtheta_samp)
          (checkStart x y theta vx vy vtheta) i)) _ hn
    have := hfail w k hk hbefore hk0
    unfold checkTrajectory at hct
    simp only [this] at hct
    norm_num at hct
  · intro k hk hbefore hk0
    have hgen := hfail w k hk hbefore hk0
    refine ⟨?_, hgen, ?_⟩
    · unfold checkTrajectory
      simp only [hgen]
      norm_num
    · intro w' hagree
      rw [hgen]
      exact hfail w' k hk
        (fun i hi => by rw [hagree i (by omega)]; exact hbefore i hi)
        (by rw [hagree k (le_refl k)]; exact hk0)

theorem finePlanner_numSteps : numSteps sampleLibm finePlanner 1 0 0 = 4 := by
  have hfl : ⌊(4 : ℚ) + 1 / 2⌋ = 4 := by
    rw [Int.floor_eq_iff]; norm_num
  unfold numSteps
  simp only [sampleLibm, finePlanner, unitPlanner]
  norm_num [toInt, hfl]

theorem finePlanner_params :
    checkParams sampleLibm finePlanner 1 0 0 =
      { vx_samp := 1, vy_samp := 0, vtheta_samp := 0, acc_x := 1, acc_y := 0, acc_theta := 1,
        dt := 1 / 4 } := by
  unfold checkParams stepDuration
  rw [finePlanner_numSteps]
  simp [finePlanner, unitPlanner]

theorem finePlanner_simStep (x : ℚ) :
    simStep sampleLibm
        { vx_samp := 1, vy_samp := 0, vtheta_samp := 0, acc_x := 1, acc_y := 0, acc_theta := 1,
          dt := 1 / 4 }
        { x_i := x, y_i := 0, theta_i := 0, vx_i := 1, vy_i := 0, vtheta_i := 0 } =
      { x_i := x + 1 / 4, y_i := 0, theta_i := 0, vx_i := 1, vy_i := 0, vtheta_i := 0 } := by
  simp [simStep, computeNewVelocity, computeNewXPosition, computeNewYPosition,
    computeNewThetaPosition, sampleLibm]

theorem finePlanner_samples (x : ℚ) (i : Nat) :
    simSample sampleLibm (checkParams sampleLibm finePlanner 1 0 0)
        (checkStart x 0 0 1 0 0) i =
      { x_i := x + i / 4, y_i := 0, theta_i := 0, vx_i := 1, vy_i := 0, vtheta_i := 0 } := by
  rw [finePlanner_params]
  induction i with
  | zero => simp [simSample, checkStart]
  | succ i ih =>
    unfold simSample at ih ⊢
    rw [Function.iterate_succ_apply', ih, finePlanner_simStep]
    simp only [SimState.mk.injEq, and_true]
    push_cast
    ring

/-- Witness of C6.  In the obstacle-free world the command is valid.  In the
world with a wall at `x ≥ 1`, starting at `x = 1/2` with four steps of `1/4`,
the samples at `1/2` and `3/4` pass and the sample at `1` fails: the command
is invalid and the trajectory holds the two poses before the failure. -/
theorem checkTrajectory_spec_witness :
    checkTrajectory sampleLibm freeWorld finePlanner (1 / 2) 0 0 1 0 0 1 0 0 = true ∧
    (checkTrajectory sampleLibm wallWorld finePlanner (1 / 2) 0 0 1 0 0 1 0 0 = false ∧
      generateTrajectory sampleLibm wallWorld finePlanner (1 / 2) 0 0 1 0 0 1 0 0
          finePlanner.acc_lim_trans_ 0 finePlanner.acc_lim_rot_ =
        { xv_ := 1, yv_ := 0, thetav_ := 0, cost_ := -1,
          points := samplePoses sampleLibm (checkParams sampleLibm finePlanner 1 0 0) 2
            (checkStart (1 / 2) 0 0 1 0 0) }) :=
  ⟨(checkTrajectory_spec sampleLibm freeWorld finePlanner (1 / 2) 0 0 1 0 0 1 0 0).2.1.mpr
      (by intro i _; simp [sampleOk, freeWorld, footprintCost]),
    have h := (checkTrajectory_spec sampleLibm wallWorld finePlanner (1 / 2) 0 0 1 0 0 1 0 0).2.2.2
      2 (by rw [finePlanner_numSteps]; decide)
      (by
        intro i hi
        rw [finePlanner_samples]
        have hi2 : (i : ℚ) ≤ 1 := by exact_mod_cast Nat.lt_succ_iff.mp hi
        have hlt : ¬ (1 : ℚ) ≤ 1 / 2 + i / 4 := by linarith
        simp only [sampleOk, wallWorld, footprintCost, Option.isSome_some, Bool.true_and,
          decide_eq_true_eq]
        rw [if_neg hlt])
      (by
        rw [finePlanner_samples]
        norm_num [sampleOk, wallWorld, footprintCost])
    ⟨h.1, h.2.1⟩⟩

/-- The sampled poses of the witness of C6: the two poses kept in the invalid
trajectory are the start pose and the pose one step of `1/4` ahead. -/
theorem checkTrajectory_witness_poses :
    samplePoses sampleLibm (checkParams sampleLibm finePlanner 1 0 0) 2
        (checkStart (1 / 2) 0 0 1 0 0) = [(1 / 2, 0, 0), (3 / 4, 0, 0)] := by
  rw [finePlanner_params]
  simp only [samplePoses, checkStart, finePlanner_simStep]
  norm_num

/-! ## Theorems: path tracker -/

theorem updatePlan_cons (m : Libm) (p : Planner) (wp : PoseStamped) (rest : List PoseStamped) :
    updatePlan m p (wp :: rest) =
      (true,
        { p with
          goal_reached_ := false
          global_plan_ := wp :: rest
          wp_index_ := 0
          running_ := true
          new_plan_ := true
          goal_x_ := ((wp :: rest).getLast (List.cons_ne_nil wp rest)).x
          goal_y_ := ((wp :: rest).getLast (List.cons_ne_nil wp rest)).y
          goal_t_ := m.getYaw ((wp :: rest).getLast (List.cons_ne_nil wp rest)).orientation
          start_x_ := wp.x
          start_y_ := wp.y
          start_t_ := m.getYaw wp.orientation }) := by
  unfold updatePlan
  simp only [List.head?_cons, List.getLast?_eq_getLast _ (List.cons_ne_nil wp rest)]

theorem updatePlan_nil (m : Libm) (p : Planner) :
    updatePlan m p [] =
      (true, { p with goal_reached_ := false, global_plan_ := [], running_ := false,
                      wp_index_ := -1 }) := by
  unfold updatePlan
  simp only [List.head?_nil, List.getLast?_nil]

/-- C7: for a non-empty path and any prior state `updatePlan` returns true and
leaves `running_ = true`, `wp_index_ = 0`, the stored path equal to the given
path, the stored start pose equal to the first entry of the path and the stored
goal pose equal to its last entry (headings through `tf::getYaw`). -/
theorem updatePlan_nonempty (m : Libm) (p : Planner) (path : List PoseStamped)
    (h : path ≠ []) :
    (updatePlan m p path).1 = true ∧
    (updatePlan m p path).2.running_ = true ∧
    (updatePlan m p path).2.wp_index_ = 0 ∧
    (updatePlan m p path).2.global_plan_ = path ∧
    (updatePlan m p path).2.start_x_ = (path.head h).x ∧
    (updatePlan m p path).2.start_y_ = (path.head h).y ∧
    (updatePlan m p path).2.start_t_ = m.getYaw (path.head h).orientation ∧
    (updatePlan m p path).2.goal_x_ = (path.getLast h).x ∧
    (updatePlan m p path).2.goal_y_ = (path.getLast h).y ∧
    (updatePlan m p path).2.goal_t_ = m.getYaw (path.getLast h).orientation := by
  cases path with
  | nil => exact absurd rfl h
  | cons wp rest =>
    rw [updatePlan_cons]
    exact ⟨rfl, rfl, rfl, rfl, rfl, rfl, rfl, rfl, rfl, rfl⟩

/-- Witness of C7 on the path `[(0,0,0), (5,0,0)]`. -/
theorem updatePlan_nonempty_witness :
    (updatePlan sampleLibm unitPlanner samplePath).1 = true ∧
    (updatePlan sampleLibm unitPlanner samplePath).2.running_ = true ∧
    (updatePlan sampleLibm unitPlanner samplePath).2.wp_index_ = 0 ∧
    (updatePlan sampleLibm unitPlanner samplePath).2.global_plan_ = samplePath ∧
    (updatePlan sampleLibm unitPlanner samplePath).2.start_x_ = 0 ∧
    (updatePlan sampleLibm unitPlanner samplePath).2.goal_x_ = 5 :=
  have h := updatePlan_nonempty sampleLibm unitPlanner samplePath (by decide)
  ⟨h.1, h.2.1, h.2.2.1, h.2.2.2.1, h.2.2.2.2.1, h.2.2.2.2.2.2.2.1⟩

/-- C8, the claim as stated fails: `updatePlan` with an empty path on a planner
whose `new_plan_` marker is not set leaves the marker not set. -/
theorem updatePlan_empty_marker :
    (updatePlan sampleLibm unitPlanner []).2.goal_reached_ = false ∧
      (updatePlan sampleLibm unitPlanner []).2.new_plan_ = false := by
  rw [updatePlan_nil]
  exact ⟨rfl, rfl⟩

/-- C8 as amended: after `updatePlan` the `goal_reached_` flag is false for
every path; the `new_plan_` marker is set when the path is non-empty and keeps
its prior value when the path is empty. -/
theorem updatePlan_flags (m : Libm) (p : Planner) (path : List PoseStamped) :
    (updatePlan m p path).2.goal_reached_ = false ∧
    (path ≠ [] → (updatePlan m p path).2.new_plan_ = true) ∧
    (path = [] → (updatePlan m p path).2.new_plan_ = p.new_plan_) := by
  cases path with
  | nil =>
    rw [updatePlan_nil]
    exact ⟨rfl, fun h => absurd rfl h, fun _ => rfl⟩
  | cons wp rest =>
    rw [updatePlan_cons]
    exact ⟨rfl, fun _ => rfl, fun h => absurd h (List.cons_ne_nil wp rest)⟩

/-- Witness of the amended C8: the marker is set by the path
`[(0,0,0), (5,0,0)]` and left as it was by the empty path. -/
theorem updatePlan_flags_witness :
    (updatePlan sampleLibm unitPlanner samplePath).2.new_plan_ = true ∧
      (updatePlan sampleLibm unitPlanner []).2.new_plan_ = unitPlanner.new_plan_ :=
  ⟨(updatePlan_flags sampleLibm unitPlanner samplePath).2.1 (by decide),
    (updatePlan_flags sampleLibm unitPlanner []).2.2 rfl⟩

theorem findBestAction_idle (m : Libm) (w : World) (p : Planner)
    (global_pose global_vel : PoseStamped) (h : p.running_ = false) :
    findBestAction m w p global_pose global_vel =
      .ok (true, command 0 0 0, { p with goal_reached_ := false }) := by
  unfold findBestAction
  simp [h]

/-- C9: `updatePlan` with an empty path returns true and leaves
`running_ = false`; the following `isGoalReached()` returns false; a following
`findBestAction` (asked right after `updatePlan`, or after the
`isGoalReached()` call) returns success with the command whose six components
are zero. -/
theorem updatePlan_empty (m : Libm) (w : World) (p : Planner)
    (global_pose global_vel : PoseStamped) :
    (updatePlan m p []).1 = true ∧
    (updatePlan m p []).2.running_ = false ∧
    (isGoalReached (updatePlan m p []).2).1 = false ∧
    findBestAction m w (updatePlan m p []).2 global_pose global_vel =
      .ok (true,
        { linear_x := 0, linear_y := 0, linear_z := 0,
          angular_x := 0, angular_y := 0, angular_z := 0 },
        (updatePlan m p []).2) ∧
    findBestAction m w (isGoalReached (updatePlan m p []).2).2 global_pose global_vel =
      .ok (true,
        { linear_x := 0, linear_y := 0, linear_z := 0,
          angular_x := 0, angular_y := 0, angular_z := 0 },
        (updatePlan m p []).2) := by
  rw [updatePlan_nil]
  refine ⟨rfl, rfl, rfl, ?_, ?_⟩
  · rw [findBestAction_idle m w _ global_pose global_vel rfl]
    rfl
  · rw [findBestAction_idle m w _ global_pose global_vel rfl]
    rfl

/-- C10: `isGoalReached()` returns the value `goal_reached_` had before the
call and leaves the planner equal to the prior one with `goal_reached_` false
(no other field changes); a second call right after returns false, so two
consecutive calls never both return true. -/
theorem isGoalReached_spec (p : Planner) :
    (isGoalReached p).1 = p.goal_reached_ ∧
    (isGoalReached p).2 = { p with goal_reached_ := false } ∧
    (isGoalReached (isGoalReached p).2).1 = false ∧
    ¬ ((isGoalReached p).1 = true ∧ (isGoalReached (isGoalReached p).2).1 = true) := by
  unfold isGoalReached
  cases hg : p.goal_reached_ with
  | true => simp
  | false =>
    have hp : p = { p with goal_reached_ := false } := by
      cases p
      simp only at hg
      subst hg
      rfl
    simp [hg, ← hp]

theorem planAt_ok (plan : List PoseStamped) (i : Int) (h0 : 0 ≤ i)
    (h1 : i < (plan.length : Int)) : ∃ wp, planAt plan i = .ok wp := by
  unfold planAt
  rw [if_pos h0]
  have hlt : i.toNat < plan.length := by omega
  rw [List.getElem?_eq_getElem hlt]
  exact ⟨_, rfl⟩

/-- The `for` loop of lines 517-527 never leaves the path: started at the end
of the path it returns an index of the path (or `0`). -/
theorem rescan_ok (m : Libm) (plan : List PoseStamped) (wp_tolerance_ rx ry : ℚ) :
    ∀ n : Nat, n ≤ plan.length →
      ∃ i : Int, rescan m plan wp_tolerance_ rx ry n = .ok i ∧ 0 ≤ i ∧
        (i < (n : Int) ∨ i = 0) := by
  intro n
  induction n with
  | zero => intro _; exact ⟨0, rfl, le_refl _, Or.inr rfl⟩
  | succ n ih =>
    intro hn
    obtain ⟨wp, hwp⟩ := planAt_ok plan (n : Int) (by omega) (by omega)
    unfold rescan
    simp only [hwp]
    split
    · exact ⟨n, rfl, by omega, Or.inl (by push_cast; omega)⟩
    · obtain ⟨i, hi, h0, h1⟩ := ih (by omega)
      refine ⟨i, hi, h0, ?_⟩
      rcases h1 with h1 | h1
      · left; push_cast; omega
      · right; exact h1

/-- The `while` loop of lines 536-542 terminates within the iteration bound
given to it and stays inside the path: from a valid index it returns a valid
index that is not smaller. -/
theorem advanceWaypoint_ok (m : Libm) (plan : List PoseStamped) (wp_tolerance_ rx ry : ℚ) :
    ∀ (n : Nat) (i : Int) (wpx wpy d : ℚ), 0 ≤ i → i < (plan.length : Int) →
      (plan.length : Int) - 1 - i ≤ n →
      ∃ r, advanceWaypoint m plan wp_tolerance_ rx ry n i wpx wpy d = .ok r ∧
        i ≤ r.1 ∧ r.1 < (plan.length : Int) := by
  intro n
  induction n with
  | zero =>
    intro i wpx wpy d h0 h1 hn
    unfold advanceWaypoint
    have hc : ¬ (d < wp_tolerance_ ∧ i < (plan.length : Int) - 1) := by
      intro h
      have := h.2
      push_cast at hn
      omega
    rw [if_neg hc]
    exact ⟨_, rfl, le_refl _, h1⟩
  | succ n ih =>
    intro i wpx wpy d h0 h1 hn
    unfold advanceWaypoint
    split
    · rename_i hc
      obtain ⟨wp, hwp⟩ := planAt_ok plan (i + 1) (by omega) (by omega)
      simp only [hwp]
      obtain ⟨r, hr, hr0, hr1⟩ := ih (i + 1) wp.x wp.y (dist m rx ry wp.x wp.y)
        (by omega) (by omega) (by push_cast at hn ⊢; omega)
      exact ⟨r, hr, by omega, hr1⟩
    · exact ⟨_, rfl, le_refl _, h1⟩

/-! ## Theorems: the control cycle -/

theorem findBestAction_goal (m : Libm) (w : World) (p : Planner)
    (global_pose global_vel : PoseStamped) (hrun : p.running_ = true)
    (hgoal : dist m (m.toFloat global_pose.x) (m.toFloat global_pose.y) p.goal_x_ p.goal_y_
      < p.goal_lin_tolerance_) :
    findBestAction m w p global_pose global_vel =
      if |p.goal_t_ - m.toFloat (m.getYaw global_pose.orientation)| < p.goal_ang_tolerance_ then
        .ok (true, command 0 0 0, { p with running_ := false, goal_reached_ := true })
      else if p.goal_t_ > m.toFloat (m.getYaw global_pose.orientation) then
        .ok (true, command 0 0 p.min_in_place_vel_th_, { p with goal_reached_ := false })
      else
        .ok (true, command 0 0 (-p.min_in_place_vel_th_), { p with goal_reached_ := false }) := by
  unfold findBestAction
  simp only [hrun, not_true_eq_false, if_false, hgoal, if_true]

theorem findBestAction_track (m : Libm) (w : World) (p : Planner)
    (global_pose global_vel : PoseStamped) (hrun : p.running_ = true)
    (hgoal : ¬ dist m (m.toFloat global_pose.x) (m.toFloat global_pose.y) p.goal_x_ p.goal_y_
      < p.goal_lin_tolerance_) :
    findBestAction m w p global_pose global_vel =
      trackCycle m w { p with goal_reached_ := false }
        (m.toFloat global_pose.x) (m.toFloat global_pose.y)
        (m.toFloat (m.getYaw global_pose.orientation)) (m.toFloat global_vel.x)
        (dist m (m.toFloat global_pose.x) (m.toFloat global_pose.y) p.goal_x_ p.goal_y_) := by
  unfold findBestAction trackCycle selectWaypoint chooseCommand waypointHeading
  simp only [hrun, not_true_eq_false, if_false, hgoal]
  split
  · rfl
  · dsimp only
    split
    · rfl
    · split
      · rfl
      · dsimp only
        generalize candidate _ _ _ _ _ _ = c
        obtain ⟨vx, vy, vt⟩ := c
        dsimp only
        split_ifs <;> rfl

theorem planAt_ok_iff (plan : List PoseStamped) (i : Int) (wp : PoseStamped) :
    planAt plan i = .ok wp ↔ 0 ≤ i ∧ plan[i.toNat]? = some wp := by
  unfold planAt
  by_cases h0 : 0 ≤ i
  · rw [if_pos h0]
    cases h : plan[i.toNat]? with
    | none => simp [h0]
    | some wp' =>
      simp only [h0, true_and, Option.some.injEq]
      constructor
      · intro h1; exact Except.ok.inj h1
      · intro h1; rw [h1]
  · rw [if_neg h0]
    simp [h0]

theorem planAt_bounds (plan : List PoseStamped) (i : Int) (wp : PoseStamped)
    (h : planAt plan i = .ok wp) : 0 ≤ i ∧ i < (plan.length : Int) := by
  obtain ⟨h0, h1⟩ := (planAt_ok_iff plan i wp).mp h
  refine ⟨h0, ?_⟩
  have := (List.getElem?_eq_some.mp h1).1
  omega

theorem rescan_spec (m : Libm) (plan : List PoseStamped) (wp_tolerance_ rx ry : ℚ) :
    ∀ n : Nat, n ≤ plan.length → ∀ i : Int,
      rescan m plan wp_tolerance_ rx ry n = .ok i →
      (i = 0 ∧ ∀ j : Int, 0 ≤ j → j < (n : Int) → ¬ withinTol m plan wp_tolerance_ rx ry j) ∨
      (0 ≤ i ∧ i < (n : Int) ∧ withinTol m plan wp_tolerance_ rx ry i ∧
        ∀ j : Int, i < j → j < (n : Int) → ¬ withinTol m plan wp_tolerance_ rx ry j) := by
  intro n
  induction n with
  | zero =>
    intro _ i h
    left
    unfold rescan at h
    refine ⟨(Except.ok.inj h).symm, ?_⟩
    intro j h0 h1
    simp at h1
    omega
  | succ n ih =>
    intro hn i h
    obtain ⟨wp, hwp⟩ := planAt_ok plan (n : Int) (by omega) (by omega)
    unfold rescan at h
    simp only [hwp] at h
    by_cases hd : dist m rx ry wp.x wp.y < wp_tolerance_
    · rw [if_pos hd] at h
      have hi : i = n := (Except.ok.inj h).symm
      right
      subst hi
      refine ⟨by omega, by push_cast; omega, ⟨wp, hwp, hd⟩, ?_⟩
      intro j h0 h1
      push_cast at h1
      omega
    · rw [if_neg hd] at h
      have hnot : ¬ withinTol m plan wp_tolerance_ rx ry (n : Int) := by
        rintro ⟨wp', hwp', hd'⟩
        rw [hwp] at hwp'
        rw [Except.ok.inj hwp'] at hd
        exact hd hd'
      rcases ih (by omega) i h with ⟨hi, hall⟩ | ⟨hi0, hi1, hw, hall⟩
      · left
        refine ⟨hi, ?_⟩
        intro j h0 h1
        push_cast at h1
        rcases eq_or_lt_of_le (Int.lt_add_one_iff.mp h1) with e | e
        · rw [e]; exact hnot
        · exact hall j h0 e
      · right
        refine ⟨hi0, by push_cast; omega, hw, ?_⟩
        intro j h0 h1
        push_cast at h1
        rcases eq_or_lt_of_le (Int.lt_add_one_iff.mp h1) with e | e
        · rw [e]; exact hnot
        · exact hall j h0 e

theorem advanceWaypoint_spec (m : Libm) (plan : List PoseStamped) (wp_tolerance_ rx ry : ℚ) :
    ∀ (n : Nat) (i : Int) (wp0 : PoseStamped) (r : Int × ℚ × ℚ × ℚ),
      planAt plan i = .ok wp0 →
      advanceWaypoint m plan wp_tolerance_ rx ry n i wp0.x wp0.y (dist m rx ry wp0.x wp0.y)
        = .ok r →
      i ≤ r.1 ∧
      (∃ wp, planAt plan r.1 = .ok wp ∧ r.2.1 = wp.x ∧ r.2.2.1 = wp.y ∧
        r.2.2.2 = dist m rx ry wp.x wp.y) ∧
      ¬ (r.2.2.2 < wp_tolerance_ ∧ r.1 < (plan.length : Int) - 1) ∧
      ∀ j : Int, i ≤ j → j < r.1 → withinTol m plan wp_tolerance_ rx ry j := by
  intro n
  induction n with
  | zero =>
    intro i wp0 r h0 h
    unfold advanceWaypoint at h
    split at h
    · exact Except.noConfusion h
    · rename_i hc
      have hr := Except.ok.inj h
      subst hr
      exact ⟨le_refl _, ⟨wp0, h0, rfl, rfl, rfl⟩, hc, fun j h1 h2 => absurd h2 (not_lt.mpr h1)⟩
  | succ n ih =>
    intro i wp0 r h0 h
    unfold advanceWaypoint at h
    split at h
    · rename_i hc
      cases hnext : planAt plan (i + 1) with
      | error e =>
        simp only [hnext] at h
        exact Except.noConfusion h
      | ok wp1 =>
        simp only [hnext] at h
        obtain ⟨h1, h2, h3, h4⟩ := ih (i + 1) wp1 r hnext h
        refine ⟨by omega, h2, h3, ?_⟩
        intro j hj0 hj1
        rcases eq_or_lt_of_le hj0 with e | e
        · rw [← e]; exact ⟨wp0, h0, hc.1⟩
        · exact h4 j (by omega) hj1
    · rename_i hc
      have hr := Except.ok.inj h
      subst hr
      exact ⟨le_refl _, ⟨wp0, h0, rfl, rfl, rfl⟩, hc, fun j h1 h2 => absurd h2 (not_lt.mpr h1)⟩

theorem selectWaypoint_spec (m : Libm) (p q : Planner) (rx ry wpx wpy d : ℚ)
    (h : selectWaypoint m p rx ry = .ok (q, wpx, wpy, d)) :
    q = { p with new_plan_ := false, wp_index_ := q.wp_index_ } ∧
    (∃ wp, planAt p.global_plan_ q.wp_index_ = .ok wp ∧ wpx = wp.x ∧ wpy = wp.y ∧
      d = dist m rx ry wp.x wp.y) ∧
    ¬ (d < p.wp_tolerance_ ∧ q.wp_index_ < (p.global_plan_.length : Int) - 1) ∧
    (p.new_plan_ = false →
      p.wp_index_ ≤ q.wp_index_ ∧
        ∀ j : Int, p.wp_index_ ≤ j → j < q.wp_index_ →
          withinTol m p.global_plan_ p.wp_tolerance_ rx ry j) ∧
    (p.new_plan_ = true →
      ∃ i0 : Int, rescan m p.global_plan_ p.wp_tolerance_ rx ry p.global_plan_.length = .ok i0 ∧
        i0 ≤ q.wp_index_ ∧
        ∀ j : Int, i0 ≤ j → j < q.wp_index_ →
          withinTol m p.global_plan_ p.wp_tolerance_ rx ry j) := by
  unfold selectWaypoint at h
  cases hnp : p.new_plan_ with
  | false =>
    simp only [hnp, Bool.false_eq_true, if_false] at h
    cases hat : planAt p.global_plan_ p.wp_index_ with
    | error e =>
      simp only [hat] at h
      exact Except.noConfusion h
    | ok wp0 =>
      simp only [hat] at h
      cases hadv : advanceWaypoint m p.global_plan_ p.wp_tolerance_ rx ry p.global_plan_.length
          p.wp_index_ wp0.x wp0.y (dist m rx ry wp0.x wp0.y) with
      | error e =>
        simp only [hadv] at h
        exact Except.noConfusion h
      | ok r =>
        obtain ⟨i', wpx', wpy', d'⟩ := r
        simp only [hadv] at h
        have hr := Except.ok.inj h
        simp only [Prod.mk.injEq] at hr
        obtain ⟨hq, hx, hy, hd⟩ := hr
        obtain ⟨h1, h2, h3, h4⟩ := advanceWaypoint_spec m p.global_plan_ p.wp_tolerance_ rx ry
          _ _ wp0 _ hat hadv
        subst hq hx hy hd
        refine ⟨?_, h2, h3, fun _ => ⟨h1, h4⟩, fun hc => Bool.noConfusion hc⟩
        cases p
        simp only at hnp
        subst hnp
        rfl
  | true =>
    simp only [hnp, if_true] at h
    cases hre : rescan m p.global_plan_ p.wp_tolerance_ rx ry p.global_plan_.length with
    | error e =>
      simp only [hre] at h
      exact Except.noConfusion h
    | ok i0 =>
      simp only [hre] at h
      cases hat : planAt p.global_plan_ i0 with
      | error e =>
        simp only [hat] at h
        exact Except.noConfusion h
      | ok wp0 =>
        simp only [hat] at h
        cases hadv : advanceWaypoint m p.global_plan_ p.wp_tolerance_ rx ry p.global_plan_.length
            i0 wp0.x wp0.y (dist m rx ry wp0.x wp0.y) with
        | error e =>
          simp only [hadv] at h
          exact Except.noConfusion h
        | ok r =>
          obtain ⟨i', wpx', wpy', d'⟩ := r
          simp only [hadv] at h
          have hr := Except.ok.inj h
          simp only [Prod.mk.injEq] at hr
          obtain ⟨hq, hx, hy, hd⟩ := hr
          obtain ⟨h1, h2, h3, h4⟩ := advanceWaypoint_spec m p.global_plan_ p.wp_tolerance_ rx ry
            _ _ wp0 _ hat hadv
          subst hq hx hy hd
          exact ⟨rfl, h2, h3, fun hc => Bool.noConfusion hc, fun _ => ⟨i0, rfl, h1, h4⟩⟩

theorem selectWaypoint_total (m : Libm) (p : Planner) (rx ry : ℚ)
    (hlen : 1 ≤ p.global_plan_.length)
    (hidx : p.new_plan_ = false → 0 ≤ p.wp_index_ ∧ p.wp_index_ < (p.global_plan_.length : Int)) :
    ∃ r, selectWaypoint m p rx ry = .ok r := by
  unfold selectWaypoint
  cases hnp : p.new_plan_ with
  | false =>
    obtain ⟨h0, h1⟩ := hidx hnp
    obtain ⟨wp0, hat⟩ := planAt_ok p.global_plan_ p.wp_index_ h0 h1
    obtain ⟨r, hr, _, _⟩ := advanceWaypoint_ok m p.global_plan_ p.wp_tolerance_ rx ry
      p.global_plan_.length p.wp_index_ wp0.x wp0.y (dist m rx ry wp0.x wp0.y) h0 h1 (by omega)
    simp only [Bool.false_eq_true, if_false, hat, hr]
    exact ⟨_, rfl⟩
  | true =>
    obtain ⟨i0, hre, hi0, hi1⟩ := rescan_ok m p.global_plan_ p.wp_tolerance_ rx ry
      p.global_plan_.length (le_refl _)
    have hi2 : i0 < (p.global_plan_.length : Int) := by
      rcases hi1 with h | h <;> omega
    obtain ⟨wp0, hat⟩ := planAt_ok p.global_plan_ i0 hi0 hi2
    obtain ⟨r, hr, _, _⟩ := advanceWaypoint_ok m p.global_plan_ p.wp_tolerance_ rx ry
      p.global_plan_.length i0 wp0.x wp0.y (dist m rx ry wp0.x wp0.y) hi0 hi2 (by omega)
    simp only [if_true, hre, hat, hr]
    exact ⟨_, rfl⟩

theorem cycleSelect_spec (m : Libm) (p q : Planner) (global_pose : PoseStamped)
    (wpx wpy d : ℚ) (h : cycleSelect m p global_pose = .ok (q, wpx, wpy, d)) :
    q = { p with goal_reached_ := false, new_plan_ := false, wp_index_ := q.wp_index_ } ∧
    (∃ wp, planAt p.global_plan_ q.wp_index_ = .ok wp ∧ wpx = wp.x ∧ wpy = wp.y ∧
      d = dist m (m.toFloat global_pose.x) (m.toFloat global_pose.y) wp.x wp.y) ∧
    ¬ (d < p.wp_tolerance_ ∧ q.wp_index_ < (p.global_plan_.length : Int) - 1) ∧
    (p.new_plan_ = false →
      p.wp_index_ ≤ q.wp_index_ ∧
        ∀ j : Int, p.wp_index_ ≤ j → j < q.wp_index_ →
          withinTol m p.global_plan_ p.wp_tolerance_
            (m.toFloat global_pose.x) (m.toFloat global_pose.y) j) ∧
    (p.new_plan_ = true →
      ∃ i0 : Int, rescan m p.global_plan_ p.wp_tolerance_
          (m.toFloat global_pose.x) (m.toFloat global_pose.y) p.global_plan_.length = .ok i0 ∧
        i0 ≤ q.wp_index_ ∧
        ∀ j : Int, i0 ≤ j → j < q.wp_index_ →
          withinTol m p.global_plan_ p.wp_tolerance_
            (m.toFloat global_pose.x) (m.toFloat global_pose.y) j) := by
  unfold cycleSelect at h
  obtain ⟨h1, h2, h3, h4, h5⟩ := selectWaypoint_spec m _ q _ _ wpx wpy d h
  exact ⟨h1, h2, h3, h4, h5⟩

theorem cycleSelect_keeps (m : Libm) (p q : Planner) (global_pose : PoseStamped)
    (wpx wpy d : ℚ) (h : cycleSelect m p global_pose = .ok (q, wpx, wpy, d)) :
    q.running_ = p.running_ ∧ q.goal_reached_ = false ∧ q.new_plan_ = false ∧
    q.global_plan_ = p.global_plan_ ∧
    goalDistance m q global_pose = goalDistance m p global_pose ∧
    q.min_in_place_vel_th_ = p.min_in_place_vel_th_ ∧ q.max_vel_x_ = p.max_vel_x_ ∧
    0 ≤ q.wp_index_ ∧ q.wp_index_ < (q.global_plan_.length : Int) := by
  obtain ⟨h1, ⟨wp, hwp, _⟩, _⟩ := cycleSelect_spec m p q global_pose wpx wpy d h
  obtain ⟨hb0, hb1⟩ := planAt_bounds _ _ _ hwp
  have hplan : q.global_plan_ = p.global_plan_ := by rw [h1]
  refine ⟨by rw [h1], by rw [h1], by rw [h1], hplan, ?_, by rw [h1], by rw [h1], hb0, ?_⟩
  · unfold goalDistance
    rw [h1]
  · rw [hplan]; exact hb1

theorem track_result (m : Libm) (w : World) (p q : Planner)
    (global_pose global_vel : PoseStamped) (wpx wpy d : ℚ)
    (hrun : p.running_ = true)
    (hout : ¬ goalDistance m p global_pose < p.goal_lin_tolerance_)
    (hsel : cycleSelect m p global_pose = .ok (q, wpx, wpy, d)) :
    findBestAction m w p global_pose global_vel =
      .ok ((cycleChoice m w q global_pose global_vel wpx wpy d).1,
        (cycleChoice m w q global_pose global_vel wpx wpy d).2, q) := by
  have hg := (cycleSelect_keeps m p q global_pose wpx wpy d hsel).2.2.2.2.1
  rw [findBestAction_track m w p global_pose global_vel hrun hout]
  unfold trackCycle
  unfold cycleSelect at hsel
  simp only [hsel]
  unfold cycleChoice cycleCandidate cycleHeading robotHeading
  rw [hg]
  rfl

theorem track_error (m : Libm) (w : World) (p : Planner)
    (global_pose global_vel : PoseStamped) (e : Fault)
    (hrun : p.running_ = true)
    (hout : ¬ goalDistance m p global_pose < p.goal_lin_tolerance_)
    (hsel : cycleSelect m p global_pose = .error e) :
    findBestAction m w p global_pose global_vel = .error e := by
  rw [findBestAction_track m w p global_pose global_vel hrun hout]
  unfold trackCycle
  unfold cycleSelect at hsel
  simp only [hsel]

theorem cycleChoice_eq (m : Libm) (w : World) (p : Planner)
    (global_pose global_vel : PoseStamped) (wpx wpy d : ℚ) :
    cycleChoice m w p global_pose global_vel wpx wpy d =
      if cycleValid m w p global_pose global_vel wpx wpy d = true ∨
          |(cycleCandidate m p global_pose global_vel wpx wpy d).1| < 1 / 10000 then
        (true, command (cycleCandidate m p global_pose global_vel wpx wpy d).1
          (cycleCandidate m p global_pose global_vel wpx wpy d).2.1
          (cycleCandidate m p global_pose global_vel wpx wpy d).2.2)
      else if cycleHeading m global_pose wpx wpy > 9 / 100 ∨
          cycleHeading m global_pose wpx wpy < -(9 / 100) then
        (true, command 0 0 (if cycleHeading m global_pose wpx wpy < 0
          then -p.min_in_place_vel_th_ else p.min_in_place_vel_th_))
      else
        (false, command 0 0 0) :=
  rfl

theorem findBestAction_cases (m : Libm) (w : World) (p q : Planner)
    (global_pose global_vel : PoseStamped) (b : Bool) (c : Twist)
    (h : findBestAction m w p global_pose global_vel = .ok (b, c, q)) :
    (p.running_ = false ∧ q = { p with goal_reached_ := false }) ∨
    (p.running_ = true ∧ goalDistance m p global_pose < p.goal_lin_tolerance_ ∧
      (q = { p with running_ := false, goal_reached_ := true } ∨
        q = { p with goal_reached_ := false })) ∨
    (p.running_ = true ∧ ¬ goalDistance m p global_pose < p.goal_lin_tolerance_ ∧
      ∃ wpx wpy d, cycleSelect m p global_pose = .ok (q, wpx, wpy, d) ∧
        b = (cycleChoice m w q global_pose global_vel wpx wpy d).1 ∧
        c = (cycleChoice m w q global_pose global_vel wpx wpy d).2) := by
  rcases Bool.eq_false_or_eq_true p.running_ with hrun | hrun
  swap
  · left
    rw [findBestAction_idle m w p global_pose global_vel hrun] at h
    have := Except.ok.inj h
    simp only [Prod.mk.injEq] at this
    exact ⟨hrun, this.2.2.symm⟩
  · right
    by_cases hgoal : goalDistance m p global_pose < p.goal_lin_tolerance_
    · left
      refine ⟨hrun, hgoal, ?_⟩
      rw [findBestAction_goal m w p global_pose global_vel hrun hgoal] at h
      split_ifs at h
      · left
        have := Except.ok.inj h
        simp only [Prod.mk.injEq] at this
        exact this.2.2.symm
      · right
        have := Except.ok.inj h
        simp only [Prod.mk.injEq] at this
        exact this.2.2.symm
      · right
        have := Except.ok.inj h
        simp only [Prod.mk.injEq] at this
        exact this.2.2.symm
    · right
      refine ⟨hrun, hgoal, ?_⟩
      cases hsel : cycleSelect m p global_pose with
      | error e =>
        rw [track_error m w p global_pose global_vel e hrun hgoal hsel] at h
        exact Except.noConfusion h
      | ok r =>
        obtain ⟨q', wpx, wpy, d⟩ := r
        rw [track_result m w p q' global_pose global_vel wpx wpy d hrun hgoal hsel] at h
        have := Except.ok.inj h
        simp only [Prod.mk.injEq] at this
        obtain ⟨hb, hc, hq⟩ := this
        subst hq
        exact ⟨wpx, wpy, d, rfl, hb.symm, hc.symm⟩

theorem findBestAction_total (m : Libm) (w : World) (p : Planner)
    (global_pose global_vel : PoseStamped) (hinv : IndexValid p) :
    ∃ r, findBestAction m w p global_pose global_vel = .ok r := by
  cases hrun : p.running_ with
  | false => exact ⟨_, findBestAction_idle m w p global_pose global_vel hrun⟩
  | true =>
    by_cases hgoal : goalDistance m p global_pose < p.goal_lin_tolerance_
    · rw [findBestAction_goal m w p global_pose global_vel hrun hgoal]
      split_ifs <;> exact ⟨_, rfl⟩
    · obtain ⟨hlen, h0, h1⟩ := hinv hrun
      obtain ⟨r, hr⟩ := selectWaypoint_total m { p with goal_reached_ := false }
        (m.toFloat global_pose.x) (m.toFloat global_pose.y) hlen (fun _ => ⟨h0, h1⟩)
      obtain ⟨q, wpx, wpy, d⟩ := r
      exact ⟨_, track_result m w p q global_pose global_vel wpx wpy d hrun hgoal hr⟩

theorem serviceStep_indexValid (m : Libm) (p q : Planner) (hp : IndexValid p)
    (hq : ServiceStep m p q) : IndexValid q := by
  cases hq with
  | findBestAction w _ global_pose global_vel flag cmd_vel _ h =>
    rcases findBestAction_cases m w p q global_pose global_vel flag cmd_vel h with
      ⟨hrun, hq⟩ | ⟨hrun, _, hq | hq⟩ | ⟨hrun, _, wpx, wpy, d, hsel, _, _⟩
    · intro hr
      rw [hq] at hr
      exact absurd hr (by simp [hrun])
    · intro hr
      rw [hq] at hr
      exact absurd hr (by simp)
    · intro hr
      rw [hq]
      exact hp hrun
    · obtain ⟨_, _, _, hplan, _, _, _, h0, h1⟩ :=
        cycleSelect_keeps m p q global_pose wpx wpy d hsel
      intro _
      exact ⟨by omega, h0, h1⟩
  | isGoalReached =>
    intro hr
    unfold PurePlanner.isGoalReached at hr ⊢
    split_ifs at hr ⊢
    · exact hp hr
    · exact hp hr
  | resetGoal => exact fun hr => hp hr
  | reconfigure config => exact fun hr => hp hr

theorem reachable_indexValid (m : Libm) (p : Planner) (h : Reachable m p) : IndexValid p := by
  induction h with
  | construct => intro hr; exact absurd hr (by simp [construct])
  | updatePlan p new_plan _ _ =>
    cases new_plan with
    | nil =>
      rw [updatePlan_nil]
      intro hr
      exact absurd hr (by simp)
    | cons wp rest =>
      rw [updatePlan_cons]
      intro _
      simp
  | step p q _ hq ih => exact serviceStep_indexValid m p q ih hq

/-! ## Theorems: scenarios of the control cycle -/

theorem checkTrajectory_freeWorld (m : Libm) (p : Planner)
    (x y theta vx vy vtheta vx_samp vy_samp vtheta_samp : ℚ) :
    checkTrajectory m freeWorld p x y theta vx vy vtheta vx_samp vy_samp vtheta_samp = true := by
  unfold checkTrajectory
  simp only
  rw [generateTrajectory_eq, simLoop_all_ok m freeWorld p _ _ _ _
    (fun i _ => by simp [sampleOk, freeWorld, footprintCost])]
  norm_num

theorem checkTrajectory_blockedWorld (m : Libm) (p : Planner)
    (x y theta vx vy vtheta vx_samp vy_samp vtheta_samp : ℚ)
    (hn : 1 ≤ numSteps m p vx_samp vy_samp vtheta_samp) :
    checkTrajectory m blockedWorld p x y theta vx vy vtheta vx_samp vy_samp vtheta_samp
      = false := by
  unfold checkTrajectory
  simp only
  rw [generateTrajectory_eq, simLoop_first_fail m blockedWorld p _ _ _ _ 0 (by omega)
    (fun i hi => absurd hi (Nat.not_lt_zero i))
    (by simp [sampleOk, blockedWorld, footprintCost])]
  norm_num

theorem unit_numSteps (m : Libm) (p : Planner) (h1 : m.hypot 1 0 = 1)
    (hT : p.sim_time_ = 1) (hG : p.sim_granularity_ = 1) (hA : p.angular_sim_granularity_ = 1) :
    numSteps m p 1 0 1 = 1 := by
  have hfl : ⌊(1 : ℚ) + 1 / 2⌋ = 1 := by
    rw [Int.floor_eq_iff]; norm_num
  unfold numSteps
  simp only [h1, hT, hG, hA]
  norm_num [toInt, hfl]

theorem updatePlan_fields (m : Libm) (p : Planner) (path : List PoseStamped) (h : path ≠ []) :
    (updatePlan m p path).2.running_ = true ∧
    (updatePlan m p path).2.new_plan_ = true ∧
    (updatePlan m p path).2.wp_index_ = 0 ∧
    (updatePlan m p path).2.global_plan_ = path ∧
    (updatePlan m p path).2.goal_x_ = (path.getLast h).x ∧
    (updatePlan m p path).2.goal_y_ = (path.getLast h).y ∧
    (updatePlan m p path).2.goal_t_ = m.getYaw (path.getLast h).orientation ∧
    (updatePlan m p path).2.goal_lin_tolerance_ = p.goal_lin_tolerance_ ∧
    (updatePlan m p path).2.goal_ang_tolerance_ = p.goal_ang_tolerance_ ∧
    (updatePlan m p path).2.wp_tolerance_ = p.wp_tolerance_ := by
  cases path with
  | nil => exact absurd rfl h
  | cons wp rest =>
    rw [updatePlan_cons]
    exact ⟨rfl, rfl, rfl, rfl, rfl, rfl, rfl, rfl, rfl, rfl⟩

theorem goal_reached_result (m : Libm) (w : World) (s : Planner)
    (global_pose global_vel : PoseStamped) (hrun : s.running_ = true)
    (hlin : goalDistance m s global_pose < s.goal_lin_tolerance_)
    (hang : |s.goal_t_ - robotHeading m global_pose| < s.goal_ang_tolerance_) :
    findBestAction m w s global_pose global_vel =
      .ok (true, command 0 0 0, { s with running_ := false, goal_reached_ := true }) := by
  rw [findBestAction_goal m w s global_pose global_vel hrun hlin]
  exact if_pos hang

/-- C11 as amended: after `updatePlan(path)` with a non-empty path, a
`findBestAction` with the robot pose equal to the last pose of the path, whose
position and heading narrowed to `float` are within the linear and the angular
goal tolerance of the stored goal, returns success with the all-zero command
and leaves `running_ = false`; the next `isGoalReached()` returns true and the
one after it false. -/
theorem goal_arrival (m : Libm) (w : World) (p : Planner) (path : List PoseStamped)
    (h : path ≠ []) (global_vel : PoseStamped)
    (hlin : dist m (m.toFloat (path.getLast h).x) (m.toFloat (path.getLast h).y)
      (path.getLast h).x (path.getLast h).y < p.goal_lin_tolerance_)
    (hang : |m.getYaw (path.getLast h).orientation
      - m.toFloat (m.getYaw (path.getLast h).orientation)| < p.goal_ang_tolerance_) :
    ∃ q, findBestAction m w (updatePlan m p path).2 (path.getLast h) global_vel =
        .ok (true,
          { linear_x := 0, linear_y := 0, linear_z := 0,
            angular_x := 0, angular_y := 0, angular_z := 0 }, q) ∧
      q.running_ = false ∧
      (isGoalReached q).1 = true ∧
      (isGoalReached (isGoalReached q).2).1 = false := by
  obtain ⟨hrun, _, _, _, hgx, hgy, hgt, hlt, hat, _⟩ := updatePlan_fields m p path h
  have h1 : goalDistance m (updatePlan m p path).2 (path.getLast h)
      < (updatePlan m p path).2.goal_lin_tolerance_ := by
    unfold goalDistance
    rw [hgx, hgy, hlt]
    exact hlin
  have h2 : |(updatePlan m p path).2.goal_t_ - robotHeading m (path.getLast h)|
      < (updatePlan m p path).2.goal_ang_tolerance_ := by
    unfold robotHeading
    rw [hgt, hat]
    exact hang
  rw [goal_reached_result m w _ _ global_vel hrun h1 h2]
  refine ⟨_, rfl, rfl, ?_, ?_⟩
  · simp [isGoalReached]
  · simp [isGoalReached]

/-- The hypotheses of the amended C11 hold for positive tolerances whenever the
narrowing to `float` is exact on the pose and `sqrt(0) = 0`. -/
theorem goal_arrival_exact (m : Libm) (p : Planner) (pose : PoseStamped)
    (hx : m.toFloat pose.x = pose.x) (hy : m.toFloat pose.y = pose.y)
    (ht : m.toFloat (m.getYaw pose.orientation) = m.getYaw pose.orientation)
    (hsqrt : m.sqrt 0 = 0)
    (hlin : 0 < p.goal_lin_tolerance_) (hang : 0 < p.goal_ang_tolerance_) :
    dist m (m.toFloat pose.x) (m.toFloat pose.y) pose.x pose.y < p.goal_lin_tolerance_ ∧
    |m.getYaw pose.orientation - m.toFloat (m.getYaw pose.orientation)|
      < p.goal_ang_tolerance_ := by
  unfold dist
  rw [hx, hy, ht]
  simp [hsqrt, hlin, hang]

/-- Witness of the amended C11 on the path `[(0,0,0), (5,0,0)]` with the robot
at `(5, 0)` and heading `0`. -/
theorem goal_arrival_witness :
    ∃ q, findBestAction sampleLibm freeWorld (updatePlan sampleLibm unitPlanner samplePath).2
        (samplePath.getLast (by decide)) originPose =
        .ok (true,
          { linear_x := 0, linear_y := 0, linear_z := 0,
            angular_x := 0, angular_y := 0, angular_z := 0 }, q) ∧
      q.running_ = false ∧
      (isGoalReached q).1 = true ∧
      (isGoalReached (isGoalReached q).2).1 = false :=
  goal_arrival sampleLibm freeWorld unitPlanner samplePath (by decide) originPose
    (by simp [samplePath, dist, sampleLibm, unitPlanner])
    (by simp [samplePath, sampleLibm, unitPlanner])

theorem withinTol_unique (m : Libm) (plan : List PoseStamped) (tol rx ry : ℚ) (j : Int)
    (wp : PoseStamped) (hwp : planAt plan j = .ok wp)
    (h : withinTol m plan tol rx ry j) : dist m rx ry wp.x wp.y < tol := by
  obtain ⟨wp', hwp', hd⟩ := h
  rw [hwp] at hwp'
  rw [Except.ok.inj hwp']
  exact hd

theorem select_newplan (m : Libm) (p q : Planner) (global_pose : PoseStamped)
    (wpx wpy d : ℚ) (hnp : p.new_plan_ = true)
    (hsel : cycleSelect m p global_pose = .ok (q, wpx, wpy, d)) :
    ((∀ j : Int, ¬ withinTol m p.global_plan_ p.wp_tolerance_
        (m.toFloat global_pose.x) (m.toFloat global_pose.y) j) → q.wp_index_ = 0) ∧
    (∀ k : Int,
      withinTol m p.global_plan_ p.wp_tolerance_
        (m.toFloat global_pose.x) (m.toFloat global_pose.y) k →
      (∀ j : Int, k < j → ¬ withinTol m p.global_plan_ p.wp_tolerance_
        (m.toFloat global_pose.x) (m.toFloat global_pose.y) j) →
      q.wp_index_ = min (k + 1) ((p.global_plan_.length : Int) - 1)) ∧
    (∃ wp, planAt p.global_plan_ q.wp_index_ = .ok wp ∧ wpx = wp.x ∧ wpy = wp.y ∧
      d = dist m (m.toFloat global_pose.x) (m.toFloat global_pose.y) wp.x wp.y ∧
      (p.wp_tolerance_ ≤ d ∨ q.wp_index_ = (p.global_plan_.length : Int) - 1)) := by
  obtain ⟨_, ⟨wp, hwp, hx, hy, hd⟩, hexit, _, hnew⟩ :=
    cycleSelect_spec m p q global_pose wpx wpy d hsel
  obtain ⟨i0, hre, hi0, hbetween⟩ := hnew hnp
  obtain ⟨hb0, hb1⟩ := planAt_bounds _ _ _ hwp
  have hscan := rescan_spec m p.global_plan_ p.wp_tolerance_
    (m.toFloat global_pose.x) (m.toFloat global_pose.y) p.global_plan_.length (le_refl _) i0 hre
  refine ⟨?_, ?_, ⟨wp, hwp, hx, hy, hd, ?_⟩⟩
  · intro hnone
    have hi00 : i0 = 0 := by
      rcases hscan with ⟨e, _⟩ | ⟨_, _, hw, _⟩
      · exact e
      · exact absurd hw (hnone i0)
    by_contra hne
    have hpos : i0 < q.wp_index_ := by omega
    exact hnone i0 (hbetween i0 (le_refl _) hpos)
  · intro k hk hlast
    obtain ⟨wpk, hwpk, hdk⟩ := hk
    obtain ⟨hk0, hk1⟩ := planAt_bounds _ _ _ hwpk
    have hik : i0 = k := by
      rcases hscan with ⟨_, hnone⟩ | ⟨_, _, hw, hafter⟩
      · exact absurd ⟨wpk, hwpk, hdk⟩ (hnone k hk0 hk1)
      · rcases lt_trichotomy i0 k with h | h | h
        · exact absurd ⟨wpk, hwpk, hdk⟩ (hafter k h hk1)
        · exact h
        · exact absurd hw (hlast i0 h)
    subst hik
    have hle : q.wp_index_ ≤ i0 + 1 := by
      by_contra hgt
      exact hlast (i0 + 1) (by omega) (hbetween (i0 + 1) (by omega) (by omega))
    rcases lt_or_le i0 ((p.global_plan_.length : Int) - 1) with hlt | hge
    · have hne : q.wp_index_ ≠ i0 := by
        intro e
        apply hexit
        rw [e] at hwp
        rw [hwpk] at hwp
        have := Except.ok.inj hwp
        rw [hd, ← this, e]
        exact ⟨hdk, hlt⟩
      rw [min_eq_left (by omega)]
      omega
    · rw [min_eq_right (by omega)]
      omega
  · by_contra hcon
    push_neg at hcon
    exact hexit ⟨hcon.1, by omega⟩

/-- C20: in a tracking cycle of a running planner whose "plan changed" marker
is set, on a path of `n ≥ 1` way-points and outside the goal tolerance,
`findBestAction` returns, clears the marker and leaves `wp_index_` at `0` when
no way-point is strictly within `wp_tolerance_` of the robot, and otherwise at
`min(k + 1, n - 1)` for the largest index `k` whose way-point is strictly
within `wp_tolerance_`; the selected way-point is at distance at least
`wp_tolerance_` or is the last one. -/
theorem first_cycle_index (m : Libm) (w : World) (p : Planner)
    (global_pose global_vel : PoseStamped)
    (hrun : p.running_ = true) (hnp : p.new_plan_ = true)
    (hlen : 1 ≤ p.global_plan_.length)
    (hout : ¬ goalDistance m p global_pose < p.goal_lin_tolerance_) :
    ∃ flag cmd_vel q,
      findBestAction m w p global_pose global_vel = .ok (flag, cmd_vel, q) ∧
      q.new_plan_ = false ∧
      ((∀ j : Int, ¬ withinTol m p.global_plan_ p.wp_tolerance_
          (m.toFloat global_pose.x) (m.toFloat global_pose.y) j) → q.wp_index_ = 0) ∧
      (∀ k : Int,
        withinTol m p.global_plan_ p.wp_tolerance_
          (m.toFloat global_pose.x) (m.toFloat global_pose.y) k →
        (∀ j : Int, k < j → ¬ withinTol m p.global_plan_ p.wp_tolerance_
          (m.toFloat global_pose.x) (m.toFloat global_pose.y) j) →
        q.wp_index_ = min (k + 1) ((p.global_plan_.length : Int) - 1)) ∧
      (∃ wp, planAt p.global_plan_ q.wp_index_ = .ok wp ∧
        (p.wp_tolerance_ ≤ dist m (m.toFloat global_pose.x) (m.toFloat global_pose.y) wp.x wp.y ∨
          q.wp_index_ = (p.global_plan_.length : Int) - 1)) := by
  obtain ⟨r, hr⟩ := selectWaypoint_total m { p with goal_reached_ := false }
    (m.toFloat global_pose.x) (m.toFloat global_pose.y) hlen
    (fun hc => absurd (hnp.symm.trans hc) (by decide))
  obtain ⟨q, wpx, wpy, d⟩ := r
  have hsel : cycleSelect m p global_pose = .ok (q, wpx, wpy, d) := hr
  obtain ⟨h1, h2, wp, hwp, _, _, hd, hor⟩ := select_newplan m p q global_pose wpx wpy d hnp hsel
  refine ⟨_, _, q, track_result m w p q global_pose global_vel wpx wpy d hrun hout hsel,
    (cycleSelect_keeps m p q global_pose wpx wpy d hsel).2.2.1, h1, h2, wp, hwp, ?_⟩
  rw [← hd]
  exact hor

theorem samplePath_select (m : Libm) (p : Planner) (global_pose : PoseStamped)
    (hplan : p.global_plan_ = samplePath) (hnp : p.new_plan_ = true)
    (htol : p.wp_tolerance_ = 1)
    (hx : m.toFloat global_pose.x = 0) (hy : m.toFloat global_pose.y = 0)
    (hs0 : m.sqrt 0 = 0) (hs25 : m.sqrt 25 = 5) :
    cycleSelect m p global_pose =
      .ok ({ p with goal_reached_ := false, new_plan_ := false, wp_index_ := 1 }, 5, 0, 5) := by
  have hat0 : planAt samplePath 0 = .ok { x := 0, y := 0, orientation := (0, 0, 0, 0) } := by
    simp [planAt, samplePath]
  have hat1 : planAt samplePath 1 = .ok { x := 5, y := 0, orientation := (0, 0, 0, 0) } := by
    simp [planAt, samplePath]
  have hd0 : dist m 0 0 0 0 = 0 := by simp [dist, hs0]
  have hd1 : dist m 0 0 5 0 = 5 := by
    unfold dist
    norm_num [hs25]
  obtain ⟨r, hr⟩ := selectWaypoint_total m { p with goal_reached_ := false }
    (m.toFloat global_pose.x) (m.toFloat global_pose.y)
    (by simp [hplan, samplePath])
    (fun hc => absurd (hnp.symm.trans hc) (by decide))
  obtain ⟨q, wpx, wpy, d⟩ := r
  have hsel : cycleSelect m p global_pose = .ok (q, wpx, wpy, d) := hr
  obtain ⟨hq, _⟩ := cycleSelect_spec m p q global_pose wpx wpy d hsel
  obtain ⟨_, h2, wp, hwp, hwx, hwy, hd, _⟩ := select_newplan m p q global_pose wpx wpy d hnp hsel
  rw [hplan, htol, hx, hy] at h2
  have hidx : q.wp_index_ = 1 := by
    have := h2 0 ⟨_, hat0, by rw [hd0]; norm_num⟩ (by
      intro j hj hw
      obtain ⟨wpj, hwpj, hdj⟩ := hw
      obtain ⟨_, hb⟩ := planAt_bounds _ _ _ hwpj
      have hj1 : j = 1 := by
        simp [samplePath] at hb
        omega
      subst hj1
      rw [hat1] at hwpj
      rw [← Except.ok.inj hwpj, hd1] at hdj
      norm_num at hdj)
    rw [this]
    simp [samplePath]
  rw [hplan, hidx, hat1] at hwp
  have hwp' := Except.ok.inj hwp
  rw [hx, hy, ← hwp'] at hd
  rw [← hwp'] at hwx hwy
  simp only at hwx hwy hd
  rw [hd1] at hd
  rw [hsel, hq, hidx, hwx, hwy, hd]

/-- C12, the claim as stated fails: an idle planner whose `goal_reached_` flag
is set (the state left by the cycle that reached the goal) has the flag
cleared by the next `findBestAction`, because line 420 clears it before the
`running_` test. -/
theorem idle_clears_goal_reached :
    arrivedPlanner.running_ = false ∧ arrivedPlanner.goal_reached_ = true ∧
    ∃ q, findBestAction sampleLibm freeWorld arrivedPlanner originPose originPose =
        .ok (true, command 0 0 0, q) ∧ q.goal_reached_ = false := by
  refine ⟨rfl, rfl, _, findBestAction_idle sampleLibm freeWorld arrivedPlanner originPose
    originPose rfl, rfl⟩

/-- C12 as amended: for an idle planner (`running_ = false`) and every pose
and velocity, `findBestAction` returns success with the command whose six
components are zero, and leaves the planner equal to the prior one with
`goal_reached_` false: `running_`, `new_plan_`, `wp_index_`, the path, the
start and goal poses and the configuration keep their values. -/
theorem idle_cycle (m : Libm) (w : World) (p : Planner)
    (global_pose global_vel : PoseStamped) (h : p.running_ = false) :
    findBestAction m w p global_pose global_vel =
      .ok (true,
        { linear_x := 0, linear_y := 0, linear_z := 0,
          angular_x := 0, angular_y := 0, angular_z := 0 },
        { p with goal_reached_ := false }) := by
  rw [findBestAction_idle m w p global_pose global_vel h]
  rfl

/-- Witness of the amended C12 on the idle planner with the flag set. -/
theorem idle_cycle_witness :
    findBestAction sampleLibm freeWorld arrivedPlanner originPose originPose =
      .ok (true,
        { linear_x := 0, linear_y := 0, linear_z := 0,
          angular_x := 0, angular_y := 0, angular_z := 0 },
        { arrivedPlanner with goal_reached_ := false }) :=
  idle_cycle sampleLibm freeWorld arrivedPlanner originPose originPose rfl

/-- C13: for a running planner whose robot position (narrowed to `float`) is
within the linear goal tolerance of the stored goal, `findBestAction` returns
success with zero linear velocity.  If `|goal_t_ - rt| < goal_ang_tolerance_`
the angular velocity is zero, `running_` becomes false and `goal_reached_`
true.  Otherwise the angular velocity is `+min_in_place_vel_th_` when
`goal_t_ > rt` and `-min_in_place_vel_th_` when not (a comparison of the raw
angles), `running_` stays true and a following `isGoalReached()` returns
false. -/
theorem goal_alignment (m : Libm) (w : World) (p : Planner)
    (global_pose global_vel : PoseStamped) (hrun : p.running_ = true)
    (hlin : goalDistance m p global_pose < p.goal_lin_tolerance_) :
    (|p.goal_t_ - robotHeading m global_pose| < p.goal_ang_tolerance_ →
      findBestAction m w p global_pose global_vel =
        .ok (true,
          { linear_x := 0, linear_y := 0, linear_z := 0,
            angular_x := 0, angular_y := 0, angular_z := 0 },
          { p with running_ := false, goal_reached_ := true })) ∧
    (¬ |p.goal_t_ - robotHeading m global_pose| < p.goal_ang_tolerance_ →
      p.goal_t_ > robotHeading m global_pose →
      findBestAction m w p global_pose global_vel =
        .ok (true,
          { linear_x := 0, linear_y := 0, linear_z := 0,
            angular_x := 0, angular_y := 0, angular_z := p.min_in_place_vel_th_ },
          { p with goal_reached_ := false })) ∧
    (¬ |p.goal_t_ - robotHeading m global_pose| < p.goal_ang_tolerance_ →
      ¬ p.goal_t_ > robotHeading m global_pose →
      findBestAction m w p global_pose global_vel =
        .ok (true,
          { linear_x := 0, linear_y := 0, linear_z := 0,
            angular_x := 0, angular_y := 0, angular_z := -p.min_in_place_vel_th_ },
          { p with goal_reached_ := false })) ∧
    (∀ q : Planner, q = { p with goal_reached_ := false } →
      q.running_ = true ∧ (isGoalReached q).1 = false) := by
  have hgen := findBestAction_goal m w p global_pose global_vel hrun hlin
  refine ⟨?_, ?_, ?_, ?_⟩
  · intro hang
    rw [hgen]
    exact if_pos hang
  · intro hang hgt
    rw [hgen]
    unfold robotHeading at hang hgt
    rw [if_neg hang, if_pos hgt]
    rfl
  · intro hang hgt
    rw [hgen]
    unfold robotHeading at hang hgt
    rw [if_neg hang, if_neg hgt]
    rfl
  · intro q hq
    subst hq
    exact ⟨hrun, by simp [isGoalReached]⟩

/-- Witness of C13: the robot at the goal `(5, 0)` of the path
`[(0,0,0), (5,0,0)]` with heading `0` is within both tolerances. -/
theorem goal_alignment_witness :
    findBestAction sampleLibm freeWorld (updatePlan sampleLibm unitPlanner samplePath).2
        goalPose originPose =
      .ok (true,
        { linear_x := 0, linear_y := 0, linear_z := 0,
          angular_x := 0, angular_y := 0, angular_z := 0 },
        { (updatePlan sampleLibm unitPlanner samplePath).2 with
            running_ := false, goal_reached_ := true }) :=
  (goal_alignment sampleLibm freeWorld (updatePlan sampleLibm unitPlanner samplePath).2
      goalPose originPose
      (updatePlan_fields sampleLibm unitPlanner samplePath (by decide)).1
      (by
        obtain ⟨_, _, _, _, hgx, hgy, _, hlt, _, _⟩ :=
          updatePlan_fields sampleLibm unitPlanner samplePath (by decide)
        unfold goalDistance
        rw [hgx, hgy, hlt]
        simp [samplePath, goalPose, dist, sampleLibm, unitPlanner])).1
    (by
      obtain ⟨_, _, _, _, _, _, hgt, _, hat, _⟩ :=
        updatePlan_fields sampleLibm unitPlanner samplePath (by decide)
      rw [hgt, hat]
      simp [samplePath, goalPose, robotHeading, sampleLibm, unitPlanner])

/-- C16: `resetGoal()` leaves the planner equal to the prior one with
`goal_reached_` false (no other field changes), and a second `resetGoal()`
right after the first leaves the same state as the first alone. -/
theorem resetGoal_spec (p : Planner) :
    resetGoal p = { p with goal_reached_ := false } ∧
    (resetGoal p).goal_reached_ = false ∧
    resetGoal (resetGoal p) = resetGoal p :=
  ⟨rfl, rfl, rfl⟩

theorem cycleChoice_false_iff (m : Libm) (w : World) (p : Planner)
    (global_pose global_vel : PoseStamped) (wpx wpy d : ℚ) :
    (cycleChoice m w p global_pose global_vel wpx wpy d).1 = false ↔
      (cycleValid m w p global_pose global_vel wpx wpy d = false ∧
        1 / 10000 ≤ |(cycleCandidate m p global_pose global_vel wpx wpy d).1| ∧
        |cycleHeading m global_pose wpx wpy| ≤ 9 / 100) := by
  rw [cycleChoice_eq]
  constructor
  · intro h
    by_cases h1 : cycleValid m w p global_pose global_vel wpx wpy d = true ∨
        |(cycleCandidate m p global_pose global_vel wpx wpy d).1| < 1 / 10000
    · rw [if_pos h1] at h
      exact Bool.noConfusion h
    · rw [if_neg h1] at h
      by_cases h2 : cycleHeading m global_pose wpx wpy > 9 / 100 ∨
          cycleHeading m global_pose wpx wpy < -(9 / 100)
      · rw [if_pos h2] at h
        exact Bool.noConfusion h
      · push_neg at h1 h2
        refine ⟨by simpa using h1.1, h1.2, abs_le.mpr ⟨h2.2, h2.1⟩⟩
  · rintro ⟨hv, hvx, hdt⟩
    have h1 : ¬ (cycleValid m w p global_pose global_vel wpx wpy d = true ∨
        |(cycleCandidate m p global_pose global_vel wpx wpy d).1| < 1 / 10000) := by
      rw [hv]
      push_neg
      exact ⟨by decide, hvx⟩
    have h2 : ¬ (cycleHeading m global_pose wpx wpy > 9 / 100 ∨
        cycleHeading m global_pose wpx wpy < -(9 / 100)) := by
      obtain ⟨ha, hb⟩ := abs_le.mp hdt
      push_neg
      exact ⟨hb, ha⟩
    rw [if_neg h1, if_neg h2]

theorem cycleChoice_false_cmd (m : Libm) (w : World) (p : Planner)
    (global_pose global_vel : PoseStamped) (wpx wpy d : ℚ)
    (h : (cycleChoice m w p global_pose global_vel wpx wpy d).1 = false) :
    (cycleChoice m w p global_pose global_vel wpx wpy d).2 = command 0 0 0 := by
  rw [cycleChoice_eq] at h ⊢
  by_cases h1 : cycleValid m w p global_pose global_vel wpx wpy d = true ∨
      |(cycleCandidate m p global_pose global_vel wpx wpy d).1| < 1 / 10000
  · rw [if_pos h1] at h
    exact Bool.noConfusion h
  · rw [if_neg h1] at h ⊢
    by_cases h2 : cycleHeading m global_pose wpx wpy > 9 / 100 ∨
        cycleHeading m global_pose wpx wpy < -(9 / 100)
    · rw [if_pos h2] at h
      exact Bool.noConfusion h
    · rw [if_neg h2]

/-- C14: `findBestAction` returns false if and only if the planner is running,
the robot is not within the linear goal tolerance, the way-point selection of
the cycle yields a candidate whose trajectory validation is invalid, the
candidate has `|vx| ≥ 0.0001`, and `|dt| ≤ 0.09`; and whenever it returns false
every component of the emitted command is zero. -/
theorem failure_iff (m : Libm) (w : World) (p : Planner)
    (global_pose global_vel : PoseStamped) :
    ((∃ cmd_vel q, findBestAction m w p global_pose global_vel = .ok (false, cmd_vel, q)) ↔
      (p.running_ = true ∧ ¬ goalDistance m p global_pose < p.goal_lin_tolerance_ ∧
        ∃ q wpx wpy dist_swp, cycleSelect m p global_pose = .ok (q, wpx, wpy, dist_swp) ∧
          cycleValid m w q global_pose global_vel wpx wpy dist_swp = false ∧
          1 / 10000 ≤ |(cycleCandidate m q global_pose global_vel wpx wpy dist_swp).1| ∧
          |cycleHeading m global_pose wpx wpy| ≤ 9 / 100)) ∧
    (∀ cmd_vel q, findBestAction m w p global_pose global_vel = .ok (false, cmd_vel, q) →
      cmd_vel = { linear_x := 0, linear_y := 0, linear_z := 0,
                  angular_x := 0, angular_y := 0, angular_z := 0 }) := by
  constructor
  · constructor
    · rintro ⟨c, q, h⟩
      rcases findBestAction_cases m w p q global_pose global_vel false c h with
        ⟨hrun, _⟩ | ⟨hrun, hgoal, _⟩ | ⟨hrun, hout, wpx, wpy, d, hsel, hb, _⟩
      · rw [findBestAction_idle m w p global_pose global_vel hrun] at h
        have := Except.ok.inj h
        simp only [Prod.mk.injEq] at this
        exact Bool.noConfusion this.1
      · rw [findBestAction_goal m w p global_pose global_vel hrun hgoal] at h
        split_ifs at h <;>
        · have := Except.ok.inj h
          simp only [Prod.mk.injEq] at this
          exact Bool.noConfusion this.1
      · exact ⟨hrun, hout, q, wpx, wpy, d, hsel,
          (cycleChoice_false_iff m w q global_pose global_vel wpx wpy d).mp hb.symm⟩
    · rintro ⟨hrun, hout, q, wpx, wpy, d, hsel, hcond⟩
      have hb := (cycleChoice_false_iff m w q global_pose global_vel wpx wpy d).mpr hcond
      refine ⟨(cycleChoice m w q global_pose global_vel wpx wpy d).2, q, ?_⟩
      rw [track_result m w p q global_pose global_vel wpx wpy d hrun hout hsel, hb]
  · intro c q h
    rcases findBestAction_cases m w p q global_pose global_vel false c h with
      ⟨hrun, _⟩ | ⟨hrun, hgoal, _⟩ | ⟨hrun, hout, wpx, wpy, d, hsel, hb, hc⟩
    · rw [findBestAction_idle m w p global_pose global_vel hrun] at h
      have := Except.ok.inj h
      simp only [Prod.mk.injEq] at this
      exact Bool.noConfusion this.1
    · rw [findBestAction_goal m w p global_pose global_vel hrun hgoal] at h
      split_ifs at h <;>
      · have := Except.ok.inj h
        simp only [Prod.mk.injEq] at this
        exact Bool.noConfusion this.1
    · rw [hc, cycleChoice_false_cmd m w q global_pose global_vel wpx wpy d hb.symm]
      rfl

theorem scenario_goalDistance (b : Planner) :
    goalDistance scenarioLibm (updatePlan scenarioLibm b samplePath).2 originPose = 5 := by
  obtain ⟨_, _, _, _, hgx, hgy, _⟩ := updatePlan_fields scenarioLibm b samplePath (by decide)
  unfold goalDistance dist
  rw [hgx, hgy]
  simp only [samplePath, originPose, scenarioLibm, sampleLibm, List.getLast_cons_cons,
    List.getLast_singleton]
  norm_num

theorem scenario_select (b : Planner) (htol : b.wp_tolerance_ = 1) :
    cycleSelect scenarioLibm (updatePlan scenarioLibm b samplePath).2 originPose =
      .ok ({ (updatePlan scenarioLibm b samplePath).2 with
              goal_reached_ := false, new_plan_ := false, wp_index_ := 1 }, 5, 0, 5) := by
  obtain ⟨_, hnp, _, hplan, _, _, _, _, _, hwt⟩ :=
    updatePlan_fields scenarioLibm b samplePath (by decide)
  exact samplePath_select scenarioLibm _ originPose hplan hnp (hwt.trans htol)
    (by simp [scenarioLibm, sampleLibm, originPose])
    (by simp [scenarioLibm, sampleLibm, originPose])
    (by norm_num [scenarioLibm, sampleLibm])
    (by simp [scenarioLibm])

theorem scenario_heading : cycleHeading scenarioLibm originPose 5 0 = 0 := by
  simp [cycleHeading, waypointHeading, robotHeading, scenarioLibm, sampleLibm, originPose]

theorem scenario_candidate (q : Planner) (global_vel : PoseStamped)
    (hg : goalDistance scenarioLibm q originPose = 5)
    (hmax : q.max_vel_x_ = 1) :
    cycleCandidate scenarioLibm q originPose global_vel 5 0 5 = (1, 0, 0) := by
  unfold cycleCandidate candidate
  rw [scenario_heading, hg, hmax]
  norm_num [scenarioLibm, sampleLibm]

theorem scenario_blocked (m : Libm) (q : Planner) (global_pose global_vel : PoseStamped)
    (wpx wpy d : ℚ) (hh : m.hypot 1 0 = 1)
    (hT : q.sim_time_ = 1) (hG : q.sim_granularity_ = 1)
    (hA : q.angular_sim_granularity_ = 1) :
    cycleValid m blockedWorld q global_pose global_vel wpx wpy d = false := by
  unfold cycleValid
  apply checkTrajectory_blockedWorld
  rw [unit_numSteps m q hh hT hG hA]

/-- Witness of C14: on the path `[(0,0,0), (5,0,0)]` with the robot at
`(0, 0, 0)` and every footprint in collision, the candidate `(1, 0, 0)` fails
validation and the heading to the way-point is `0`: the cycle returns false. -/
theorem failure_iff_witness :
    ∃ cmd_vel q, findBestAction scenarioLibm blockedWorld
      (updatePlan scenarioLibm unitPlanner samplePath).2 originPose originPose
        = .ok (false, cmd_vel, q) :=
  (failure_iff scenarioLibm blockedWorld (updatePlan scenarioLibm unitPlanner samplePath).2
      originPose originPose).1.mpr
    ⟨(updatePlan_fields scenarioLibm unitPlanner samplePath (by decide)).1,
      by
        rw [scenario_goalDistance,
          (updatePlan_fields scenarioLibm unitPlanner samplePath (by decide)).2.2.2.2.2.2.2.1]
        norm_num [unitPlanner],
      _, 5, 0, 5, scenario_select unitPlanner rfl,
      scenario_blocked scenarioLibm _ originPose originPose 5 0 5
        (by simp [scenarioLibm, sampleLibm]) rfl rfl rfl,
      by
        rw [scenario_candidate
          { (updatePlan scenarioLibm unitPlanner samplePath).2 with
              goal_reached_ := false, new_plan_ := false, wp_index_ := 1 }
          originPose (scenario_goalDistance unitPlanner) rfl]
        norm_num,
      by
        rw [scenario_heading]
        norm_num⟩

theorem fallback_result (m : Libm) (w : World) (p q : Planner)
    (global_pose global_vel : PoseStamped) (wpx wpy d : ℚ)
    (hrun : p.running_ = true)
    (hout : ¬ goalDistance m p global_pose < p.goal_lin_tolerance_)
    (hsel : cycleSelect m p global_pose = .ok (q, wpx, wpy, d))
    (hinv : cycleValid m w q global_pose global_vel wpx wpy d = false)
    (hvx : 1 / 10000 ≤ |(cycleCandidate m q global_pose global_vel wpx wpy d).1|)
    (hdt : 9 / 100 < |cycleHeading m global_pose wpx wpy|) :
    findBestAction m w p global_pose global_vel =
      .ok (true,
        command 0 0 (if cycleHeading m global_pose wpx wpy < 0
          then -p.min_in_place_vel_th_ else p.min_in_place_vel_th_), q) := by
  have hmin := (cycleSelect_keeps m p q global_pose wpx wpy d hsel).2.2.2.2.2.1
  have h1 : ¬ (cycleValid m w q global_pose global_vel wpx wpy d = true ∨
      |(cycleCandidate m q global_pose global_vel wpx wpy d).1| < 1 / 10000) := by
    rw [hinv]
    push_neg
    exact ⟨by decide, hvx⟩
  have h2 : cycleHeading m global_pose wpx wpy > 9 / 100 ∨
      cycleHeading m global_pose wpx wpy < -(9 / 100) := by
    rcases lt_abs.mp hdt with h | h
    · exact Or.inl h
    · exact Or.inr (by linarith)
  rw [track_result m w p q global_pose global_vel wpx wpy d hrun hout hsel, cycleChoice_eq,
    if_neg h1, if_pos h2, hmin]

/-- C15: for a running planner outside the goal tolerance whose candidate
fails validation with `|vx| ≥ 0.0001` and `|dt| > 0.09`, `findBestAction`
returns success with zero linear velocity and angular velocity
`+min_in_place_vel_th_` when `dt > 0` and `-min_in_place_vel_th_` when
`dt < 0`.  The fallback command is not validated: the result is the same in
every world in which the candidate fails validation, whatever that world says
about the fallback command. -/
theorem rotation_fallback (m : Libm) (w : World) (p q : Planner)
    (global_pose global_vel : PoseStamped) (wpx wpy dist_swp : ℚ)
    (hrun : p.running_ = true)
    (hout : ¬ goalDistance m p global_pose < p.goal_lin_tolerance_)
    (hsel : cycleSelect m p global_pose = .ok (q, wpx, wpy, dist_swp))
    (hinv : cycleValid m w q global_pose global_vel wpx wpy dist_swp = false)
    (hvx : 1 / 10000 ≤ |(cycleCandidate m q global_pose global_vel wpx wpy dist_swp).1|)
    (hdt : 9 / 100 < |cycleHeading m global_pose wpx wpy|) :
    (0 < cycleHeading m global_pose wpx wpy →
      findBestAction m w p global_pose global_vel =
        .ok (true,
          { linear_x := 0, linear_y := 0, linear_z := 0,
            angular_x := 0, angular_y := 0, angular_z := p.min_in_place_vel_th_ }, q)) ∧
    (cycleHeading m global_pose wpx wpy < 0 →
      findBestAction m w p global_pose global_vel =
        .ok (true,
          { linear_x := 0, linear_y := 0, linear_z := 0,
            angular_x := 0, angular_y := 0, angular_z := -p.min_in_place_vel_th_ }, q)) ∧
    (∀ w' : World, cycleValid m w' q global_pose global_vel wpx wpy dist_swp = false →
      findBestAction m w' p global_pose global_vel =
        findBestAction m w p global_pose global_vel) := by
  have hres := fallback_result m w p q global_pose global_vel wpx wpy dist_swp hrun hout hsel
    hinv hvx hdt
  refine ⟨?_, ?_, ?_⟩
  · intro hpos
    rw [hres, if_neg (not_lt.mpr hpos.le)]
    rfl
  · intro hneg
    rw [hres, if_pos hneg]
    rfl
  · intro w' hinv'
    rw [hres, fallback_result m w' p q global_pose global_vel wpx wpy dist_swp hrun hout hsel
      hinv' hvx hdt]

theorem turned_goalDistance (b : Planner) :
    goalDistance turnedLibm (updatePlan turnedLibm b samplePath).2 turnedPose = 5 := by
  obtain ⟨_, _, _, _, hgx, hgy, _⟩ := updatePlan_fields turnedLibm b samplePath (by decide)
  unfold goalDistance dist
  rw [hgx, hgy]
  simp only [samplePath, turnedPose, turnedLibm, scenarioLibm, sampleLibm,
    List.getLast_cons_cons, List.getLast_singleton]
  norm_num

theorem turned_select (b : Planner) (htol : b.wp_tolerance_ = 1) :
    cycleSelect turnedLibm (updatePlan turnedLibm b samplePath).2 turnedPose =
      .ok ({ (updatePlan turnedLibm b samplePath).2 with
              goal_reached_ := false, new_plan_ := false, wp_index_ := 1 }, 5, 0, 5) := by
  obtain ⟨_, hnp, _, hplan, _, _, _, _, _, hwt⟩ :=
    updatePlan_fields turnedLibm b samplePath (by decide)
  exact samplePath_select turnedLibm _ turnedPose hplan hnp (hwt.trans htol)
    (by simp [turnedLibm, scenarioLibm, sampleLibm, turnedPose])
    (by simp [turnedLibm, scenarioLibm, sampleLibm, turnedPose])
    (by norm_num [turnedLibm, scenarioLibm, sampleLibm])
    (by simp [turnedLibm, scenarioLibm])

theorem turned_heading : cycleHeading turnedLibm turnedPose 5 0 = -(9273 / 10000) := by
  simp only [cycleHeading, waypointHeading, robotHeading, turnedLibm, scenarioLibm, sampleLibm,
    turnedPose, turnAngle]
  norm_num

theorem turned_candidate (q : Planner) (dist_goal : ℚ)
    (hg : goalDistance turnedLibm q turnedPose = dist_goal)
    (hf : q.controller_freq_ = 1) (hmin : q.min_in_place_vel_th_ = 1) :
    cycleCandidate turnedLibm q turnedPose fastVel 5 0 5 = (1, 0, -1) := by
  have hgt : |(-(9273 / 10000) : ℚ)| > 3 / 4 := by
    rw [abs_neg, abs_of_pos (by norm_num)]
    norm_num
  unfold cycleCandidate candidate
  rw [turned_heading, hg, hf, hmin]
  simp only [hgt, if_true]
  norm_num [turnedLibm, scenarioLibm, sampleLibm, fastVel]

/-- Witness of C15: on the path `[(0,0,0), (5,0,0)]` with the robot at `(0, 0)`
turned by `0.9273` rad, moving at `2` and every footprint in collision, the
heading to the way-point is `-0.9273`, the candidate `(1, 0, -1)` fails
validation and the cycle returns success with the in-place rotation
`-min_in_place_vel_th_`. -/
theorem rotation_fallback_witness :
    findBestAction turnedLibm blockedWorld (updatePlan turnedLibm unitPlanner samplePath).2
        turnedPose fastVel =
      .ok (true,
        { linear_x := 0, linear_y := 0, linear_z := 0, angular_x := 0, angular_y := 0,
          angular_z := -(updatePlan turnedLibm unitPlanner samplePath).2.min_in_place_vel_th_ },
        { (updatePlan turnedLibm unitPlanner samplePath).2 with
            goal_reached_ := false, new_plan_ := false, wp_index_ := 1 }) :=
  (rotation_fallback turnedLibm blockedWorld (updatePlan turnedLibm unitPlanner samplePath).2
      { (updatePlan turnedLibm unitPlanner samplePath).2 with
          goal_reached_ := false, new_plan_ := false, wp_index_ := 1 }
      turnedPose fastVel 5 0 5
      (updatePlan_fields turnedLibm unitPlanner samplePath (by decide)).1
      (by
        rw [turned_goalDistance,
          (updatePlan_fields turnedLibm unitPlanner samplePath (by decide)).2.2.2.2.2.2.2.1]
        norm_num [unitPlanner])
      (turned_select unitPlanner rfl)
      (scenario_blocked turnedLibm _ turnedPose fastVel 5 0 5
        (by simp [turnedLibm, scenarioLibm, sampleLibm]) rfl rfl rfl)
      (by
        rw [turned_candidate
          { (updatePlan turnedLibm unitPlanner samplePath).2 with
              goal_reached_ := false, new_plan_ := false, wp_index_ := 1 }
          5 (turned_goalDistance unitPlanner) rfl rfl]
        norm_num)
      (by
        rw [turned_heading, abs_neg, abs_of_pos (by norm_num)]
        norm_num)).2.1
    (by
      rw [turned_heading]
      norm_num)

/-- In the witness of C15 the emitted fallback command `(0, 0, -1)` would
itself fail the trajectory validation. -/
theorem rotation_fallback_unchecked :
    checkTrajectory turnedLibm blockedWorld
      { (updatePlan turnedLibm unitPlanner samplePath).2 with
          goal_reached_ := false, new_plan_ := false, wp_index_ := 1 }
      0 0 turnAngle 0 0 (-1) 1 0 1 = false :=
  checkTrajectory_blockedWorld turnedLibm _ 0 0 turnAngle 0 0 (-1) 1 0 1
    (by
      rw [unit_numSteps turnedLibm _ (by simp [turnedLibm, scenarioLibm, sampleLibm])
        rfl rfl rfl])

theorem candidate_straight (m : Libm) (p : Planner) (rvx dist_goal dist_swp : ℚ)
    (hfar : 3 / 2 ≤ dist_goal) (hexp : m.exp 0 = 1) :
    candidate m p rvx dist_goal dist_swp 0 = (p.max_vel_x_ * m.tanh (4 * dist_swp), 0, 0) := by
  unfold candidate
  have h2 : ¬ dist_goal < 3 / 2 := not_lt.mpr hfar
  simp only [h2, if_false, abs_zero, neg_zero, hexp, mul_one]
  norm_num

/-- C19, the claim as stated fails: with linear goal tolerance `6` the robot
at `(0, 0, 0)` on the path `[(0,0,0), (5,0,0)]` is running, `5 ≥ 1.5` from the
goal, has the selected way-point `(5, 0)` straight ahead (`dt = 0`) at
distance `5`, `max_vel_x_ = 1 > 0` and a valid candidate, yet it is inside
the goal tolerance and `findBestAction` emits zero linear velocity where the
claim has `max_vel_x_ * tanh(4 * 5) = 1`. -/
theorem straight_ahead_inside_tolerance :
    (updatePlan scenarioLibm widePlanner samplePath).2.running_ = true ∧
    goalDistance scenarioLibm (updatePlan scenarioLibm widePlanner samplePath).2 originPose
      = 5 ∧
    cycleSelect scenarioLibm (updatePlan scenarioLibm widePlanner samplePath).2 originPose =
      .ok ({ (updatePlan scenarioLibm widePlanner samplePath).2 with
              goal_reached_ := false, new_plan_ := false, wp_index_ := 1 }, 5, 0, 5) ∧
    cycleHeading scenarioLibm originPose 5 0 = 0 ∧
    (updatePlan scenarioLibm widePlanner samplePath).2.max_vel_x_ = 1 ∧
    cycleValid scenarioLibm freeWorld
      { (updatePlan scenarioLibm widePlanner samplePath).2 with
          goal_reached_ := false, new_plan_ := false, wp_index_ := 1 }
      originPose originPose 5 0 5 = true ∧
    (updatePlan scenarioLibm widePlanner samplePath).2.max_vel_x_ * scenarioLibm.tanh (4 * 5)
      = 1 ∧
    ∃ q, findBestAction scenarioLibm freeWorld
        (updatePlan scenarioLibm widePlanner samplePath).2 originPose originPose =
      .ok (true, command 0 0 0, q) := by
  refine ⟨(updatePlan_fields scenarioLibm widePlanner samplePath (by decide)).1,
    scenario_goalDistance widePlanner, scenario_select widePlanner rfl, scenario_heading,
    rfl, checkTrajectory_freeWorld _ _ _ _ _ _ _ _ _ _ _, ?_, ?_⟩
  · have : (updatePlan scenarioLibm widePlanner samplePath).2.max_vel_x_ = 1 := rfl
    rw [this]
    norm_num [scenarioLibm, sampleLibm]
  · obtain ⟨hrun, _, _, _, _, _, hgt, hlt, hat, _⟩ :=
      updatePlan_fields scenarioLibm widePlanner samplePath (by decide)
    refine ⟨_, goal_reached_result scenarioLibm freeWorld _ originPose originPose hrun ?_ ?_⟩
    · rw [scenario_goalDistance, hlt]
      norm_num [widePlanner]
    · rw [hgt, hat]
      simp [samplePath, robotHeading, scenarioLibm, sampleLibm, originPose, widePlanner,
        unitPlanner]

/-- C19 as amended: for a running planner outside the linear goal tolerance
and at least `1.5` from the goal, whose selected way-point lies straight
ahead (`dt = 0`) at positive distance, with `max_vel_x_ > 0` and a valid
candidate, `findBestAction` returns success with linear velocity
`max_vel_x_ * tanh(4 * dist_swp) > 0`, zero lateral velocity and zero angular
velocity (for a math library with `exp(0) = 1` and `tanh` positive on positive
arguments). -/
theorem straight_ahead (m : Libm) (w : World) (p q : Planner)
    (global_pose global_vel : PoseStamped) (wpx wpy dist_swp : ℚ)
    (hrun : p.running_ = true)
    (hout : ¬ goalDistance m p global_pose < p.goal_lin_tolerance_)
    (hfar : 3 / 2 ≤ goalDistance m p global_pose)
    (hsel : cycleSelect m p global_pose = .ok (q, wpx, wpy, dist_swp))
    (hdt : cycleHeading m global_pose wpx wpy = 0)
    (hpos : 0 < dist_swp) (hmax : 0 < p.max_vel_x_)
    (hvalid : cycleValid m w q global_pose global_vel wpx wpy dist_swp = true)
    (hexp : m.exp 0 = 1) (htanh : ∀ x : ℚ, 0 < x → 0 < m.tanh x) :
    findBestAction m w p global_pose global_vel =
      .ok (true,
        { linear_x := p.max_vel_x_ * m.tanh (4 * dist_swp), linear_y := 0, linear_z := 0,
          angular_x := 0, angular_y := 0, angular_z := 0 }, q) ∧
    0 < p.max_vel_x_ * m.tanh (4 * dist_swp) := by
  obtain ⟨_, _, _, _, hg, _, hmx, _⟩ := cycleSelect_keeps m p q global_pose wpx wpy dist_swp hsel
  have hcand : cycleCandidate m q global_pose global_vel wpx wpy dist_swp =
      (p.max_vel_x_ * m.tanh (4 * dist_swp), 0, 0) := by
    unfold cycleCandidate
    rw [hdt, candidate_straight m q _ _ _ (by rw [hg]; exact hfar) hexp, hmx]
  refine ⟨?_, mul_pos hmax (htanh _ (by linarith))⟩
  rw [track_result m w p q global_pose global_vel wpx wpy dist_swp hrun hout hsel,
    cycleChoice_eq, if_pos (Or.inl hvalid), hcand]
  rfl

/-- Witness of the amended C19, the instance of the specification: on the path
`[(0,0,0), (5,0,0)]` with the robot at `(0, 0, 0)` and no obstacles,
`wp_index_` advances from `0` to `1` and the command is
`max_vel_x_ * tanh(20)` forward with zero angular velocity. -/
theorem straight_ahead_witness :
    findBestAction scenarioLibm freeWorld (updatePlan scenarioLibm unitPlanner samplePath).2
        originPose originPose =
      .ok (true,
        { linear_x := (updatePlan scenarioLibm unitPlanner samplePath).2.max_vel_x_
            * scenarioLibm.tanh (4 * 5),
          linear_y := 0, linear_z := 0, angular_x := 0, angular_y := 0, angular_z := 0 },
        { (updatePlan scenarioLibm unitPlanner samplePath).2 with
            goal_reached_ := false, new_plan_ := false, wp_index_ := 1 }) ∧
    0 < (updatePlan scenarioLibm unitPlanner samplePath).2.max_vel_x_
      * scenarioLibm.tanh (4 * 5) :=
  straight_ahead scenarioLibm freeWorld (updatePlan scenarioLibm unitPlanner samplePath).2
    { (updatePlan scenarioLibm unitPlanner samplePath).2 with
        goal_reached_ := false, new_plan_ := false, wp_index_ := 1 }
    originPose originPose 5 0 5
    (updatePlan_fields scenarioLibm unitPlanner samplePath (by decide)).1
    (by
      rw [scenario_goalDistance,
        (updatePlan_fields scenarioLibm unitPlanner samplePath (by decide)).2.2.2.2.2.2.2.1]
      norm_num [unitPlanner])
    (by rw [scenario_goalDistance]; norm_num)
    (scenario_select unitPlanner rfl)
    scenario_heading
    (by norm_num)
    (by
      have : (updatePlan scenarioLibm unitPlanner samplePath).2.max_vel_x_ = 1 := rfl
      rw [this]
      norm_num)
    (checkTrajectory_freeWorld _ _ _ _ _ _ _ _ _ _ _)
    (by simp [scenarioLibm, sampleLibm])
    (by
      intro x hx
      have hne : x ≠ 0 := ne_of_gt hx
      simp [scenarioLibm, sampleLibm, hne])

theorem track_keeps_running (m : Libm) (w : World) (p : Planner)
    (global_pose global_vel : PoseStamped) (hrun : p.running_ = true)
    (hout : ¬ goalDistance m p global_pose < p.goal_lin_tolerance_)
    (hinv : IndexValid p) :
    ∃ flag cmd_vel q, findBestAction m w p global_pose global_vel = .ok (flag, cmd_vel, q) ∧
      q.running_ = true ∧ (isGoalReached q).1 = false := by
  obtain ⟨hlen, h0, h1⟩ := hinv hrun
  obtain ⟨r, hr⟩ := selectWaypoint_total m { p with goal_reached_ := false }
    (m.toFloat global_pose.x) (m.toFloat global_pose.y) hlen (fun _ => ⟨h0, h1⟩)
  obtain ⟨q, wpx, wpy, d⟩ := r
  have hsel : cycleSelect m p global_pose = .ok (q, wpx, wpy, d) := hr
  obtain ⟨hqr, hqg, _⟩ := cycleSelect_keeps m p q global_pose wpx wpy d hsel
  refine ⟨_, _, q, track_result m w p q global_pose global_vel wpx wpy d hrun hout hsel,
    hqr.trans hrun, ?_⟩
  unfold isGoalReached
  rw [hqg]
  rfl

/-- C11, the claim as stated fails: the pose `x = 1 + 2^-30` is narrowed to the
`float` `1` on line 440, so the robot standing exactly on the last pose of the
path is at distance `2^-30` from the stored goal; with the positive linear goal
tolerance `2^-31` the cycle does not enter the goal branch, `running_` stays
true and the next `isGoalReached()` returns false. -/
theorem goal_arrival_narrowing :
    0 < tightPlanner.goal_lin_tolerance_ ∧ 0 < tightPlanner.goal_ang_tolerance_ ∧
    [offGridPose].getLast (by decide) = offGridPose ∧
    ∃ flag cmd_vel q,
      findBestAction narrowLibm freeWorld (updatePlan narrowLibm tightPlanner [offGridPose]).2
        offGridPose originPose = .ok (flag, cmd_vel, q) ∧
      q.running_ = true ∧ (isGoalReached q).1 = false := by
  obtain ⟨hrun, _, hidx, hplan, hgx, hgy, _, hlt, _, _⟩ :=
    updatePlan_fields narrowLibm tightPlanner [offGridPose] (by decide)
  refine ⟨by norm_num [tightPlanner], by norm_num [tightPlanner, unitPlanner], rfl, ?_⟩
  apply track_keeps_running narrowLibm freeWorld _ offGridPose originPose hrun
  · unfold goalDistance dist
    rw [hgx, hgy, hlt]
    simp only [narrowLibm, offGridPose, tightPlanner, List.getLast_singleton]
    norm_num
  · intro _
    rw [hidx, hplan]
    simp

/-- C17: in every state reachable from the constructed planner by calls of
`updatePlan`, `findBestAction`, `isGoalReached`, `resetGoal` and `reconfigure`,
`running_ = true` implies that the path has at least one way-point and that
`0 ≤ wp_index_ < path length`; consequently `findBestAction` returns from every
reachable state, for every world, pose and velocity, without an out-of-bounds
access to the path. -/
theorem reachable_invariant (m : Libm) (p : Planner) (h : Reachable m p) :
    (p.running_ = true →
      1 ≤ p.global_plan_.length ∧ 0 ≤ p.wp_index_ ∧
        p.wp_index_ < (p.global_plan_.length : Int)) ∧
    ∀ (w : World) (global_pose global_vel : PoseStamped),
      ∃ r, findBestAction m w p global_pose global_vel = .ok r :=
  ⟨reachable_indexValid m p h,
    fun w global_pose global_vel =>
      findBestAction_total m w p global_pose global_vel (reachable_indexValid m p h)⟩

/-- Witness of C17: the planner constructed with unit limits and given the
path `[(0,0,0), (5,0,0)]`. -/
theorem reachable_invariant_witness :
    ((updatePlan sampleLibm
        (construct unitPlanner (fun _ => (0, 0)) [] 1 1 1 1 1 1 1 1 1 1 1 1 1 1)
        samplePath).2.running_ = true →
      1 ≤ (updatePlan sampleLibm
        (construct unitPlanner (fun _ => (0, 0)) [] 1 1 1 1 1 1 1 1 1 1 1 1 1 1)
        samplePath).2.global_plan_.length ∧
      0 ≤ (updatePlan sampleLibm
        (construct unitPlanner (fun _ => (0, 0)) [] 1 1 1 1 1 1 1 1 1 1 1 1 1 1)
        samplePath).2.wp_index_ ∧
      (updatePlan sampleLibm
        (construct unitPlanner (fun _ => (0, 0)) [] 1 1 1 1 1 1 1 1 1 1 1 1 1 1)
        samplePath).2.wp_index_ <
        ((updatePlan sampleLibm
          (construct unitPlanner (fun _ => (0, 0)) [] 1 1 1 1 1 1 1 1 1 1 1 1 1 1)
          samplePath).2.global_plan_.length : Int)) ∧
    ∀ (w : World) (global_pose global_vel : PoseStamped),
      ∃ r, findBestAction sampleLibm w (updatePlan sampleLibm
        (construct unitPlanner (fun _ => (0, 0)) [] 1 1 1 1 1 1 1 1 1 1 1 1 1 1)
        samplePath).2 global_pose global_vel = .ok r :=
  reachable_invariant sampleLibm _
    (Reachable.updatePlan _ samplePath
      (Reachable.construct unitPlanner (fun _ => (0, 0)) [] 1 1 1 1 1 1 1 1 1 1 1 1 1 1))

theorem serviceStep_index (m : Libm) (p q : Planner)
    (hmark : p.new_plan_ = true → p.wp_index_ ≤ 0) (hq : ServiceStep m p q) :
    p.wp_index_ ≤ q.wp_index_ ∧ (q.new_plan_ = true → q.wp_index_ ≤ 0) := by
  cases hq with
  | findBestAction w _ global_pose global_vel flag cmd_vel _ h =>
    rcases findBestAction_cases m w p q global_pose global_vel flag cmd_vel h with
      ⟨_, hq⟩ | ⟨_, _, hq | hq⟩ | ⟨_, _, wpx, wpy, d, hsel, _, _⟩
    · rw [hq]; exact ⟨le_refl _, hmark⟩
    · rw [hq]; exact ⟨le_refl _, hmark⟩
    · rw [hq]; exact ⟨le_refl _, hmark⟩
    · obtain ⟨_, _, hqn, _⟩ := cycleSelect_keeps m p q global_pose wpx wpy d hsel
      obtain ⟨_, _, _, hold, hnew⟩ := cycleSelect_spec m p q global_pose wpx wpy d hsel
      refine ⟨?_, fun hc => absurd (hqn.symm.trans hc) (by decide)⟩
      rcases Bool.eq_false_or_eq_true p.new_plan_ with hnp | hnp
      · obtain ⟨i0, hre, hi0, _⟩ := hnew hnp
        obtain ⟨i1, hre1, h0, _⟩ := rescan_ok m p.global_plan_ p.wp_tolerance_
          (m.toFloat global_pose.x) (m.toFloat global_pose.y) p.global_plan_.length (le_refl _)
        rw [hre] at hre1
        have := Except.ok.inj hre1
        have := hmark hnp
        omega
      · exact (hold hnp).1
  | isGoalReached =>
    unfold PurePlanner.isGoalReached
    split_ifs
    · exact ⟨le_refl _, hmark⟩
    · exact ⟨le_refl _, hmark⟩
  | resetGoal => exact ⟨le_refl _, hmark⟩
  | reconfigure config => exact ⟨le_refl _, hmark⟩

theorem servicing_marker (m : Libm) (p q : Planner) (path : List PoseStamped)
    (h : Servicing m (updatePlan m p path).2 q) :
    q.new_plan_ = true → q.wp_index_ ≤ 0 := by
  induction h with
  | start =>
    cases path with
    | nil =>
      rw [updatePlan_nil]
      intro _
      show (-1 : Int) ≤ 0
      decide
    | cons wp rest => rw [updatePlan_cons]; intro _; exact le_refl _
  | step p' q' _ hq ih => exact (serviceStep_index m p' q' ih hq).2

/-- C18: starting from the state left by `updatePlan` (on any path, so also on
a non-empty one), after any sequence of calls of `findBestAction`,
`isGoalReached`, `resetGoal` and `reconfigure` with any poses and no further
`updatePlan`, one more such call leaves `wp_index_` greater than or equal to
its value before the call; this includes the cycle that consumes the "plan
changed" marker. -/
theorem index_monotone (m : Libm) (p : Planner) (path : List PoseStamped) (q q' : Planner)
    (hq : Servicing m (updatePlan m p path).2 q) (hstep : ServiceStep m q q') :
    q.wp_index_ ≤ q'.wp_index_ :=
  (serviceStep_index m q q' (servicing_marker m p q path hq) hstep).1

theorem scenario_cycle :
    findBestAction scenarioLibm freeWorld (updatePlan scenarioLibm unitPlanner samplePath).2
        originPose originPose =
      .ok (true, command 1 0 0,
        { (updatePlan scenarioLibm unitPlanner samplePath).2 with
            goal_reached_ := false, new_plan_ := false, wp_index_ := 1 }) := by
  have hout : ¬ goalDistance scenarioLibm (updatePlan scenarioLibm unitPlanner samplePath).2
      originPose < (updatePlan scenarioLibm unitPlanner samplePath).2.goal_lin_tolerance_ := by
    rw [scenario_goalDistance,
      (updatePlan_fields scenarioLibm unitPlanner samplePath (by decide)).2.2.2.2.2.2.2.1]
    norm_num [unitPlanner]
  have hv : cycleValid scenarioLibm freeWorld
      { (updatePlan scenarioLibm unitPlanner samplePath).2 with
          goal_reached_ := false, new_plan_ := false, wp_index_ := 1 }
      originPose originPose 5 0 5 = true :=
    checkTrajectory_freeWorld _ _ _ _ _ _ _ _ _ _ _
  rw [track_result scenarioLibm freeWorld _ _ originPose originPose 5 0 5
    (updatePlan_fields scenarioLibm unitPlanner samplePath (by decide)).1 hout
    (scenario_select unitPlanner rfl), cycleChoice_eq,
    if_pos (Or.inl hv),
    scenario_candidate
      { (updatePlan scenarioLibm unitPlanner samplePath).2 with
          goal_reached_ := false, new_plan_ := false, wp_index_ := 1 }
      originPose (scenario_goalDistance unitPlanner) rfl]

/-- Witness of C18: the first cycle on the path `[(0,0,0), (5,0,0)]` with the
robot at `(0, 0, 0)` consumes the marker and moves `wp_index_` from `0` to
`1`. -/
theorem index_monotone_witness :
    (updatePlan scenarioLibm unitPlanner samplePath).2.wp_index_ ≤
      ({ (updatePlan scenarioLibm unitPlanner samplePath).2 with
          goal_reached_ := false, new_plan_ := false, wp_index_ := 1 } : Planner).wp_index_ :=
  index_monotone scenarioLibm unitPlanner samplePath _ _ Servicing.start
    (ServiceStep.findBestAction freeWorld _ originPose originPose true (command 1 0 0) _
      scenario_cycle)

/-- Witness of C20: the first cycle on the path `[(0,0,0), (5,0,0)]` with the
robot at `(0, 0, 0)`, outside the goal tolerance `1`. -/
theorem first_cycle_index_witness :
    ∃ flag cmd_vel q,
      findBestAction scenarioLibm freeWorld (updatePlan scenarioLibm unitPlanner samplePath).2
        originPose originPose = .ok (flag, cmd_vel, q) ∧
      q.new_plan_ = false ∧
      ((∀ j : Int, ¬ withinTol scenarioLibm
          (updatePlan scenarioLibm unitPlanner samplePath).2.global_plan_
          (updatePlan scenarioLibm unitPlanner samplePath).2.wp_tolerance_
          (scenarioLibm.toFloat originPose.x) (scenarioLibm.toFloat originPose.y) j) →
        q.wp_index_ = 0) ∧
      (∀ k : Int,
        withinTol scenarioLibm
          (updatePlan scenarioLibm unitPlanner samplePath).2.global_plan_
          (updatePlan scenarioLibm unitPlanner samplePath).2.wp_tolerance_
          (scenarioLibm.toFloat originPose.x) (scenarioLibm.toFloat originPose.y) k →
        (∀ j : Int, k < j → ¬ withinTol scenarioLibm
          (updatePlan scenarioLibm unitPlanner samplePath).2.global_plan_
          (updatePlan scenarioLibm unitPlanner samplePath).2.wp_tolerance_
          (scenarioLibm.toFloat originPose.x) (scenarioLibm.toFloat originPose.y) j) →
        q.wp_index_ = min (k + 1)
          (((updatePlan scenarioLibm unitPlanner samplePath).2.global_plan_.length : Int) - 1)) ∧
      (∃ wp, planAt (updatePlan scenarioLibm unitPlanner samplePath).2.global_plan_ q.wp_index_
          = .ok wp ∧
        ((updatePlan scenarioLibm unitPlanner samplePath).2.wp_tolerance_ ≤
            dist scenarioLibm (scenarioLibm.toFloat originPose.x)
              (scenarioLibm.toFloat originPose.y) wp.x wp.y ∨
          q.wp_index_ =
            ((updatePlan scenarioLibm unitPlanner samplePath).2.global_plan_.length : Int) - 1)) :=
  first_cycle_index scenarioLibm freeWorld (updatePlan scenarioLibm unitPlanner samplePath).2
    originPose originPose
    (updatePlan_fields scenarioLibm unitPlanner samplePath (by decide)).1
    (updatePlan_fields scenarioLibm unitPlanner samplePath (by decide)).2.1
    (by
      rw [(updatePlan_fields scenarioLibm unitPlanner samplePath (by decide)).2.2.2.1]
      decide)
    (by
      rw [scenario_goalDistance,
        (updatePlan_fields scenarioLibm unitPlanner samplePath (by decide)).2.2.2.2.2.2.2.1]
      norm_num [unitPlanner])

/-! ## Theorems: the validation call of the control cycle -/

theorem simLoop_velocity (m : Libm) (w : World) (p : Planner) (c : SimParams) :
    ∀ (n : Nat) (s : SimState) (traj : Trajectory),
      (simLoop m w p c n s traj).xv_ = traj.xv_ ∧
      (simLoop m w p c n s traj).yv_ = traj.yv_ ∧
      (simLoop m w p c n s traj).thetav_ = traj.thetav_ := by
  intro n
  induction n with
  | zero => intro s traj; exact ⟨rfl, rfl, rfl⟩
  | succ n ih =>
    intro s traj
    unfold simLoop
    split
    · exact ⟨rfl, rfl, rfl⟩
    · dsimp only
      split
      · exact ⟨rfl, rfl, rfl⟩
      · obtain ⟨h1, h2, h3⟩ := ih (simStep m c s) (traj.addPoint s.x_i s.y_i s.theta_i)
        rw [h1, h2, h3]
        exact ⟨rfl, rfl, rfl⟩

theorem target_numSteps (m : Libm) (p : Planner) (hh : m.hypot 1 0 = 1) :
    numSteps m p 1 0 1 = specTargetSteps p := by
  unfold numSteps specTargetSteps
  simp only [hh, one_mul, abs_one]

theorem target_trajectory (m : Libm) (w : World) (p : Planner) (hh : m.hypot 1 0 = 1)
    (x y theta vx vy vtheta : ℚ) :
    generateTrajectory m w p x y theta vx vy vtheta 1 0 1 p.acc_lim_trans_ 0 p.acc_lim_rot_ =
      simLoop m w p
        { vx_samp := 1, vy_samp := 0, vtheta_samp := 1,
          acc_x := p.acc_lim_trans_, acc_y := 0, acc_theta := p.acc_lim_rot_,
          dt := p.sim_time_ / (specTargetSteps p : ℚ) }
        (specTargetSteps p).toNat
        { x_i := x, y_i := y, theta_i := theta, vx_i := vx, vy_i := vy, vtheta_i := vtheta }
        { xv_ := 1, yv_ := 0, thetav_ := 1, cost_ := -1, points := [] } := by
  unfold generateTrajectory stepDuration
  rw [target_numSteps m p hh]

/-- C21: in a tracking cycle (planner running, robot outside the goal
tolerance, way-point selection returning the planner `q`) the command is chosen
by the call `checkTrajectory(rx, ry, rt, vx, vy, vt, 1.0, 0.0, 1.0)` with the
candidate `(vx, vy, vt)` of the cycle; when `hypot(1, 0) = 1` that call runs the
simulation loop from the state `(rx, ry, rt, vx, vy, vt)` towards the target
`(1, 0, 1)` with loop bound
`int(max(sim_time_ / sim_granularity_, 1 / angular_sim_granularity_) + 0.5)`,
raised to `1` when `0`, for every start pose and every start velocity, and the
trajectory it generates records `(1, 0, 1)` as its velocity. -/
theorem validation_target (m : Libm) (w : World) (p q : Planner)
    (global_pose global_vel : PoseStamped) (wpx wpy d : ℚ)
    (hrun : p.running_ = true)
    (hout : ¬ goalDistance m p global_pose < p.goal_lin_tolerance_)
    (hsel : cycleSelect m p global_pose = .ok (q, wpx, wpy, d))
    (hh : m.hypot 1 0 = 1) :
    findBestAction m w p global_pose global_vel =
      .ok ((cycleChoice m w q global_pose global_vel wpx wpy d).1,
        (cycleChoice m w q global_pose global_vel wpx wpy d).2, q) ∧
    cycleChoice m w q global_pose global_vel wpx wpy d =
      (if checkTrajectory m w q (m.toFloat global_pose.x) (m.toFloat global_pose.y)
            (robotHeading m global_pose)
            (cycleCandidate m q global_pose global_vel wpx wpy d).1
            (cycleCandidate m q global_pose global_vel wpx wpy d).2.1
            (cycleCandidate m q global_pose global_vel wpx wpy d).2.2 1 0 1 = true ∨
          |(cycleCandidate m q global_pose global_vel wpx wpy d).1| < 1 / 10000 then
        (true, command (cycleCandidate m q global_pose global_vel wpx wpy d).1
          (cycleCandidate m q global_pose global_vel wpx wpy d).2.1
          (cycleCandidate m q global_pose global_vel wpx wpy d).2.2)
      else if cycleHeading m global_pose wpx wpy > 9 / 100 ∨
          cycleHeading m global_pose wpx wpy < -(9 / 100) then
        (true, command 0 0 (if cycleHeading m global_pose wpx wpy < 0
          then -q.min_in_place_vel_th_ else q.min_in_place_vel_th_))
      else
        (false, command 0 0 0)) ∧
    (checkTrajectory m w q (m.toFloat global_pose.x) (m.toFloat global_pose.y)
        (robotHeading m global_pose)
        (cycleCandidate m q global_pose global_vel wpx wpy d).1
        (cycleCandidate m q global_pose global_vel wpx wpy d).2.1
        (cycleCandidate m q global_pose global_vel wpx wpy d).2.2 1 0 1 = true ↔
      ¬ (cycleTrajectory m w q global_pose global_vel wpx wpy d).cost_ < 0) ∧
    cycleTrajectory m w q global_pose global_vel wpx wpy d =
      simLoop m w q
        { vx_samp := 1, vy_samp := 0, vtheta_samp := 1,
          acc_x := p.acc_lim_trans_, acc_y := 0, acc_theta := p.acc_lim_rot_,
          dt := p.sim_time_ / (specTargetSteps p : ℚ) }
        (specTargetSteps p).toNat
        { x_i := m.toFloat global_pose.x, y_i := m.toFloat global_pose.y,
          theta_i := robotHeading m global_pose,
          vx_i := (cycleCandidate m q global_pose global_vel wpx wpy d).1,
          vy_i := (cycleCandidate m q global_pose global_vel wpx wpy d).2.1,
          vtheta_i := (cycleCandidate m q global_pose global_vel wpx wpy d).2.2 }
        { xv_ := 1, yv_ := 0, thetav_ := 1, cost_ := -1, points := [] } ∧
    numSteps m q 1 0 1 = specTargetSteps p ∧
    (∀ (w2 : World) (x y theta vx vy vtheta : ℚ),
      generateTrajectory m w2 q x y theta vx vy vtheta 1 0 1
          q.acc_lim_trans_ 0 q.acc_lim_rot_ =
        simLoop m w2 q
          { vx_samp := 1, vy_samp := 0, vtheta_samp := 1,
            acc_x := p.acc_lim_trans_, acc_y := 0, acc_theta := p.acc_lim_rot_,
            dt := p.sim_time_ / (specTargetSteps p : ℚ) }
          (specTargetSteps p).toNat
          { x_i := x, y_i := y, theta_i := theta, vx_i := vx, vy_i := vy, vtheta_i := vtheta }
          { xv_ := 1, yv_ := 0, thetav_ := 1, cost_ := -1, points := [] }) ∧
    (cycleTrajectory m w q global_pose global_vel wpx wpy d).xv_ = 1 ∧
    (cycleTrajectory m w q global_pose global_vel wpx wpy d).yv_ = 0 ∧
    (cycleTrajectory m w q global_pose global_vel wpx wpy d).thetav_ = 1 := by
  obtain ⟨hq, _⟩ := cycleSelect_spec m p q global_pose wpx wpy d hsel
  have hT : q.sim_time_ = p.sim_time_ := by rw [hq]
  have hG : q.sim_granularity_ = p.sim_granularity_ := by rw [hq]
  have hA : q.angular_sim_granularity_ = p.angular_sim_granularity_ := by rw [hq]
  have hat : q.acc_lim_trans_ = p.acc_lim_trans_ := by rw [hq]
  have har : q.acc_lim_rot_ = p.acc_lim_rot_ := by rw [hq]
  have hspec : specTargetSteps q = specTargetSteps p := by
    unfold specTargetSteps
    rw [hT, hG, hA]
  have hgen : ∀ (w2 : World) (x y theta vx vy vtheta : ℚ),
      generateTrajectory m w2 q x y theta vx vy vtheta 1 0 1
          q.acc_lim_trans_ 0 q.acc_lim_rot_ =
        simLoop m w2 q
          { vx_samp := 1, vy_samp := 0, vtheta_samp := 1,
            acc_x := p.acc_lim_trans_, acc_y := 0, acc_theta := p.acc_lim_rot_,
            dt := p.sim_time_ / (specTargetSteps p : ℚ) }
          (specTargetSteps p).toNat
          { x_i := x, y_i := y, theta_i := theta, vx_i := vx, vy_i := vy, vtheta_i := vtheta }
          { xv_ := 1, yv_ := 0, thetav_ := 1, cost_ := -1, points := [] } := by
    intro w2 x y theta vx vy vtheta
    rw [target_trajectory m w2 q hh, hspec, hT, hat, har]
  have hvel := simLoop_velocity m w q
    { vx_samp := 1, vy_samp := 0, vtheta_samp := 1,
      acc_x := p.acc_lim_trans_, acc_y := 0, acc_theta := p.acc_lim_rot_,
      dt := p.sim_time_ / (specTargetSteps p : ℚ) }
    (specTargetSteps p).toNat
    { x_i := m.toFloat global_pose.x, y_i := m.toFloat global_pose.y,
      theta_i := robotHeading m global_pose,
      vx_i := (cycleCandidate m q global_pose global_vel wpx wpy d).1,
      vy_i := (cycleCandidate m q global_pose global_vel wpx wpy d).2.1,
      vtheta_i := (cycleCandidate m q global_pose global_vel wpx wpy d).2.2 }
    { xv_ := 1, yv_ := 0, thetav_ := 1, cost_ := -1, points := [] }
  have hcyc := hgen w (m.toFloat global_pose.x) (m.toFloat global_pose.y)
    (robotHeading m global_pose)
    (cycleCandidate m q global_pose global_vel wpx wpy d).1
    (cycleCandidate m q global_pose global_vel wpx wpy d).2.1
    (cycleCandidate m q global_pose global_vel wpx wpy d).2.2
  refine ⟨track_result m w p q global_pose global_vel wpx wpy d hrun hout hsel,
    cycleChoice_eq m w q global_pose global_vel wpx wpy d, ?_, hcyc, ?_, hgen, ?_⟩
  · unfold checkTrajectory cycleTrajectory
    dsimp only
    split_ifs with hc
    · simp [hc]
    · simp [hc]
  · rw [target_numSteps m q hh, hspec]
  · unfold cycleTrajectory
    rw [hcyc]
    exact hvel

/-- Witness of C21: on the path `[(0,0,0), (5,0,0)]` with the robot at
`(0, 0, 0)` in a world without obstacles and every configuration value `1`, the
validation of the cycle runs the step count of the formula and its trajectory
records the velocity `(1, 0, 1)`. -/
theorem validation_target_witness :
    numSteps scenarioLibm
        { (updatePlan scenarioLibm unitPlanner samplePath).2 with
            goal_reached_ := false, new_plan_ := false, wp_index_ := 1 } 1 0 1 =
      specTargetSteps (updatePlan scenarioLibm unitPlanner samplePath).2 ∧
    (cycleTrajectory scenarioLibm freeWorld
        { (updatePlan scenarioLibm unitPlanner samplePath).2 with
            goal_reached_ := false, new_plan_ := false, wp_index_ := 1 }
        originPose originPose 5 0 5).xv_ = 1 ∧
    (cycleTrajectory scenarioLibm freeWorld
        { (updatePlan scenarioLibm unitPlanner samplePath).2 with
            goal_reached_ := false, new_plan_ := false, wp_index_ := 1 }
        originPose originPose 5 0 5).yv_ = 0 ∧
    (cycleTrajectory scenarioLibm freeWorld
        { (updatePlan scenarioLibm unitPlanner samplePath).2 with
            goal_reached_ := false, new_plan_ := false, wp_index_ := 1 }
        originPose originPose 5 0 5).thetav_ = 1 :=
  have h := validation_target scenarioLibm freeWorld
    (updatePlan scenarioLibm unitPlanner samplePath).2
    { (updatePlan scenarioLibm unitPlanner samplePath).2 with
        goal_reached_ := false, new_plan_ := false, wp_index_ := 1 }
    originPose originPose 5 0 5
    (updatePlan_fields scenarioLibm unitPlanner samplePath (by decide)).1
    (by
      rw [scenario_goalDistance,
        (updatePlan_fields scenarioLibm unitPlanner samplePath (by decide)).2.2.2.2.2.2.2.1]
      norm_num [unitPlanner])
    (scenario_select unitPlanner rfl)
    (by simp [scenarioLibm, sampleLibm])
  ⟨h.2.2.2.2.1, h.2.2.2.2.2.2⟩

end PurePlanner
